import Mathlib

/-!
# Divided Existence (`app.js`): the simulation engine

A shallow embedding of the game engine of `src/app.js` and the properties of
its specification that were checked against it.

Modelling conventions.

* JavaScript numbers are modelled by `Int`.  Every number the engine handles is
  an integer obtained from the catalog constants by `+`, `-`, `Math.min` and
  `Math.max`, all of which are exact on integers of magnitude below `2^53`.
* An object used as a string-keyed map (`STATE.resources`, `choice.effects`,
  `ROLES`) is an association list in property (insertion) order.  Keys of a
  JavaScript object are unique.
* The global mutable objects are the fields of `World`: the `STATE` record, the
  two catalog objects that the code copies before writing (`ROLES`,
  `MIDTOWN_ESCAPE_EVENT`), and the two DOM containers the engine writes its
  output to (`dom.narrativeLog`, `dom.actionContainer`).  Purely visual DOM
  writes (`renderStats`, the scene image, the day counter text, CSS classes)
  are left out.
* An exception thrown by reading a property of `undefined` is the outcome
  `Result.threw`, which carries the world as it was when the exception left
  the function.
* `Math.random()` is a parameter `Draw` of the functions that consume it; a
  draw is a double, and its product with `pool.length` is the double product.
* The page runs the engine through its listeners only: `Played` lists them.
  `Reachable` and `runCalls` follow sequences of calls of the engine functions,
  which include sequences no sequence of clicks produces.
-/

namespace DividedExistence

/-! ## Data model -/

/-- One entry of `STATE.resources` / `ROLES[role].stats`: `{ val, max, label }`. -/
structure Stat where
  val : Int
  max : Int
  label : String
  deriving DecidableEq, Repr

/-- The object `STATE.resources`: stat key to stat, in property order. -/
abbrev Resources := List (String × Stat)

/-- One entry of `ROLES`: `{ name, stats, themeClass }`. -/
structure RoleDef where
  name : String
  stats : Resources
  themeClass : String
  deriving DecidableEq, Repr

/-- A choice of an event: `{ label, outcome, effects }`. -/
structure Choice where
  label : String
  outcome : String
  effects : List (String × Int)
  deriving DecidableEq, Repr

/-- An event: `{ title, description, image?, choices }`. -/
structure Event where
  title : String
  description : String
  image : Option String
  choices : List Choice
  deriving DecidableEq, Repr

/-- The second argument of `log(msg, type)`: the CSS class of the entry. -/
inductive Severity where
  | normal
  | warning
  | choice
  deriving DecidableEq, Repr

/-- One paragraph of `dom.narrativeLog`. -/
structure LogEntry where
  text : String
  severity : Severity
  deriving DecidableEq, Repr

/-- The callback given to `createActionButton`. -/
inductive Handler where
  | resolve (choice : Choice)
  | endDay
  | reload
  deriving DecidableEq, Repr

/-- One button of `dom.actionContainer`. -/
structure Button where
  text : String
  onClick : Handler
  disabled : Bool
  deriving DecidableEq, Repr

/-- The mutable globals of the script.  `role`, `location`, `day`, `resources`
and `gameOver` are the fields of `STATE` (`STATE.history` is never read or
written).  `narrativeLog` lists the paragraphs of `dom.narrativeLog` in document
order: `log` prepends, so the head is the most recent entry.  `actions` lists
the buttons of `dom.actionContainer` in document order. -/
structure World where
  role : Option String
  location : String
  day : Int
  resources : Resources
  gameOver : Bool
  ROLES : List (String × RoleDef)
  MIDTOWN_ESCAPE_EVENT : Event
  narrativeLog : List LogEntry
  actions : List Button
  deriving DecidableEq, Repr

/-- The outcome of running a function of the script on a world: it returns a
value, or an exception escapes it.  Either way the world after it is kept. -/
inductive Result (α : Type) where
  | ok (value : α) (world : World)
  | threw (world : World)
  deriving Repr

/-- The world a call leaves behind, whether it returned or threw. -/
def Result.world {α : Type} : Result α → World
  | .ok _ w => w
  | .threw w => w

/-- The value a call returned, `none` when it threw. -/
def Result.value? {α : Type} : Result α → Option α
  | .ok a _ => some a
  | .threw _ => none

/-! ## Double-precision numbers

`Math.random()` returns a double and `Math.random() * pool.length` is a product
of doubles: the exact product rounded to the nearest double, ties to the even
significand.  Doubles are modelled by the rationals they denote. -/

/-- The integer nearest to `q`, a tie going to the even one. -/
def roundHalfEven (q : ℚ) : Int :=
  let f := Rat.floor q
  if q - f < 1 / 2 then f
  else if 1 / 2 < q - f then f + 1
  else if f % 2 = 0 then f
  else f + 1

/-- The spacing of the doubles around `x ≠ 0`: `2 ^ (e - 52)` where
`2 ^ e ≤ |x| < 2 ^ (e + 1)`, the exponent `e` being at least `-1022`
(below `2 ^ -1022` the doubles are subnormal and equally spaced). -/
def ulp (x : ℚ) : ℚ :=
  (2 : ℚ) ^ (max (Int.log 2 |x|) (-1022) - 52)

/-- The double nearest to the rational `x` (IEEE 754 binary64, round to nearest,
ties to even), for `|x|` below `2 ^ 1024`. -/
def roundToDouble (x : ℚ) : ℚ :=
  if x = 0 then 0 else (roundHalfEven (x / ulp x) : ℚ) * ulp x

/-- A value of `Math.random()`: a double `r` with `0 ≤ r < 1`. -/
structure Draw where
  r : ℚ
  nonneg : 0 ≤ r
  lt_one : r < 1
  isDouble : roundToDouble r = r

/-! ## Catalog content -/

/-- The initial value of the constant `ROLES`. -/
def ROLES : List (String × RoleDef) :=
  [ ("denizen",
      { name := "The Denizen"
        stats :=
          [ ("hunger", { val := 20, max := 100, label := "Hunger (Low is Good)" }),
            ("suspicion", { val := 0, max := 100, label := "Suspicion" }),
            ("health", { val := 100, max := 100, label := "Health" }),
            ("supplies", { val := 5, max := 50, label := "Supplies" }) ]
        themeClass := "mode-denizen" }),
    ("occupier",
      { name := "The Occupier"
        stats :=
          [ ("control", { val := 80, max := 100, label := "City Control" }),
            ("resources", { val := 100, max := 500, label := "Rations Stock" }),
            ("unrest", { val := 20, max := 100, label := "Civil Unrest" }),
            ("manpower", { val := 50, max := 100, label := "Patrol Strength" }) ]
        themeClass := "mode-occupier" }) ]

/-- The initial value of the constant `MIDTOWN_ESCAPE_EVENT`. -/
def MIDTOWN_ESCAPE_EVENT : Event :=
  { title := "Midtown Under Siege"
    description := "You are a mid-level corporate analyst for OmniCorp. The morning coffee is still warm on your desk when the first explosion shatters the glass. Looking out from the 40th floor, you see a rocket impact the adjacent tower. The invasion has begun. You have split seconds to react."
    image := some "midtown_attack.jpg"
    choices :=
      [ { label := "Grab Emergency Kit & Stairs"
          outcome := "You knew this day might come. You grab your 'go-bag' from under the desk and hit the fire stairs. You preserve your health but leave suspicious."
          effects := [("suspicion", 10), ("health", 0), ("supplies", 10)] },
        { label := "Download Data & Run"
          outcome := "This data could be valuable leverage. You secure the drive but inhale smoke on the way out."
          effects := [("suspicion", 0), ("health", -10), ("supplies", 0)] },
        { label := "Help Coworkers"
          outcome := "You stop to kelp Karen from HR. It slows you down, and you witness horrors you can't unsee."
          effects := [("morale", -20), ("health", -5), ("suspicion", -5)] } ] }

/-- The constant `DENIZEN_EVENTS`. -/
def DENIZEN_EVENTS : List Event :=
  [ { title := "A Knock at the Door"
      description := "Controls are tightening. Neighbors say patrols are checking random houses for contraband."
      image := none
      choices :=
        [ { label := "Hide Supplies"
            outcome := "You hid your meager supplies under the floorboards. Safe, but you're exhausted."
            effects := [("suspicion", -10), ("hunger", 5), ("supplies", 0)] },
          { label := "Bribe Patrol"
            outcome := "You gave them some food. They left you alone, for now."
            effects := [("suspicion", -20), ("supplies", -2)] },
          { label := "Do Nothing"
            outcome := "You sat in silence. They walked past."
            effects := [("suspicion", 5)] } ] },
    { title := "The Market Leak"
      description := "A truck carrying rations crashed nearby. People are swarming."
      image := none
      choices :=
        [ { label := "Join the crowd"
            outcome := "You managed to grab a box, but got bruised in the chaos."
            effects := [("supplies", 5), ("health", -5), ("suspicion", 10)] },
          { label := "Stay away"
            outcome := "Too dangerous. You come home empty handed."
            effects := [("hunger", 5)] } ] },
    { title := "Curfew Violation"
      description := "You are caught outside just as the sirens wail."
      image := none
      choices :=
        [ { label := "Run"
            outcome := "You dart down an alleyway. Heart pounding."
            effects := [("suspicion", 20), ("hunger", 5)] },
          { label := "Hide in dumpster"
            outcome := "It smells awful, but they didn't see you."
            effects := [("health", -5), ("suspicion", -5)] } ] } ]

/-- The constant `OCCUPIER_EVENTS`. -/
def OCCUPIER_EVENTS : List Event :=
  [ { title := "Food Riots"
      description := "Citizens in Sector 4 are protesting the rationing."
      image := none
      choices :=
        [ { label := "Crackdown"
            outcome := "You sent in the riot squad. Order restored, but they hate you."
            effects := [("control", 10), ("unrest", 10), ("manpower", -5)] },
          { label := "Distribute Extra Rations"
            outcome := "The crowd disperses peacefully. Supplies are low."
            effects := [("unrest", -10), ("resources", -20)] } ] },
    { title := "The Informant"
      description := "A local offers information on the resistance leader in exchange for medicine."
      image := none
      choices :=
        [ { label := "Accept Deal"
            outcome := "The info was good. We made several arrests."
            effects := [("control", 15), ("resources", -10)] },
          { label := "Ignore"
            outcome := "Likely a trap or beggar. You ignore them."
            effects := [("control", -5)] } ] } ]

/-- The globals right after the script has loaded: `STATE` as declared, the
catalog constants, an empty log and no action button. -/
def World.init : World :=
  { role := none
    location := "portland"
    day := 1
    resources := []
    gameOver := false
    ROLES := DividedExistence.ROLES
    MIDTOWN_ESCAPE_EVENT := DividedExistence.MIDTOWN_ESCAPE_EVENT
    narrativeLog := []
    actions := [] }

/-! ## UI helpers -/

/-- The function `log(msg, type)`: prepends one paragraph to `dom.narrativeLog`. -/
def log (msg : String) (type : Severity) (w : World) : World :=
  { w with narrativeLog := { text := msg, severity := type } :: w.narrativeLog }

/-- The function `createActionButton(text, onClick)`: appends one enabled button
to `dom.actionContainer`. -/
def createActionButton (text : String) (onClick : Handler) (w : World) : World :=
  { w with actions := w.actions ++ [{ text := text, onClick := onClick, disabled := false }] }

/-- The function `clearActions()`. -/
def clearActions (w : World) : World :=
  { w with actions := [] }

/-! ## Stat access -/

/-- The read `STATE.resources[k].val`; `none` when `STATE.resources[k]` is
`undefined` (the read then throws a `TypeError`). -/
def statVal (w : World) (k : String) : Option Int :=
  (w.resources.lookup k).map Stat.val

/-- The write `resources[k].val = v` on an existing stat object. -/
def Resources.setVal (rs : Resources) (k : String) (v : Int) : Resources :=
  rs.map fun p => if p.1 = k then (p.1, { p.2 with val := v }) else p

/-- The write `STATE.resources[k].val = v` on an existing stat object. -/
def setVal (k : String) (v : Int) (w : World) : World :=
  { w with resources := w.resources.setVal k v }

/-! ## Termination -/

/-- The function `endGame(reason)`. -/
def endGame (reason : String) (w : World) : World :=
  let w := { w with gameOver := true }
  let w := log "GAME OVER" .warning w
  let w := log reason .warning w
  let w := clearActions w
  createActionButton "Return to Menu" .reload w

/-- The function `checkGameOver()`.  Each `STATE.resources.<key>.val` is read
only when the rules before it did not fire. -/
def checkGameOver (w : World) : Result Bool :=
  if w.role = some "denizen" then
    match statVal w "health" with
    | none => .threw w
    | some health =>
      if health ≤ 0 then
        .ok true (endGame "You succumbed to your injuries. The city claimed another soul." w)
      else
        match statVal w "suspicion" with
        | none => .threw w
        | some suspicion =>
          if suspicion ≥ 100 then
            .ok true
              (endGame "The secret police kicked down your door. You were never seen again." w)
          else
            match statVal w "hunger" with
            | none => .threw w
            | some hunger =>
              if hunger ≥ 100 then .ok true (endGame "Starvation has taken you." w)
              else .ok false w
  else
    match statVal w "control" with
    | none => .threw w
    | some control =>
      if control ≤ 0 then
        .ok true (endGame "The city has fallen to the rebellion. You are forced to flee." w)
      else
        match statVal w "unrest" with
        | none => .threw w
        | some unrest =>
          if unrest ≥ 100 then
            .ok true (endGame "A massive uprising has overthrown your command center." w)
          else .ok false w

/-! ## Passive effects -/

/-- The function `applyPassiveEffects()`. -/
def applyPassiveEffects (w : World) : Result Unit :=
  if w.role = some "denizen" then
    match statVal w "hunger" with
    | none => .threw w
    | some hunger =>
      let w := setVal "hunger" (min 100 (hunger + 10)) w
      match statVal w "suspicion" with
      | none => .threw w
      | some suspicion =>
        let w := setVal "suspicion" (max 0 (suspicion - 5)) w
        match statVal w "hunger" with
        | none => .threw w
        | some hunger =>
          if hunger ≥ 90 then
            let w := log "You are starving..." .warning w
            match statVal w "health" with
            | none => .threw w
            | some health => .ok () (setVal "health" (health - 10) w)
          else .ok () w
  else
    match statVal w "unrest" with
    | none => .threw w
    | some unrest =>
      let w := setVal "unrest" (min 100 (unrest + 5)) w
      match statVal w "resources" with
      | none => .threw w
      | some resources => .ok () (setVal "resources" (resources - 5) w)

/-! ## Event system -/

/-- The function `getEventForRole(role)`, applied to the value `rnd` of
`Math.random()`: `pool[Math.floor(rnd * pool.length)]`, where `*` is the
product of doubles, and which is `undefined` (`none`) when the index is outside
the array. -/
def getEventForRole (role : Option String) (rnd : Draw) : Option Event :=
  let pool := if role = some "denizen" then DENIZEN_EVENTS else OCCUPIER_EVENTS
  let i : Int := Rat.floor (roundToDouble (rnd.r * (pool.length : ℚ)))
  if i < 0 then none else pool.get? i.toNat

/-- The object spread `{ ...event }`: a new object with the same own properties. -/
def Event.spread (event : Event) : Event :=
  { title := event.title
    description := event.description
    image := event.image
    choices := event.choices }

/-- The first part of `generateDailyEvent()`: the value of its local variable
`event` after the `if`/`else` that selects the event of the day.  The scripted
branch works on `eventTemplate`, the spread copy of `MIDTOWN_ESCAPE_EVENT`, a
new local object: the assignments to `eventTemplate.title` write to that copy. -/
def dailyEvent (rnd : Draw) (w : World) : Option Event :=
  if w.day = 1 ∧ w.role = some "denizen" then
    let eventTemplate := w.MIDTOWN_ESCAPE_EVENT.spread
    let eventTemplate :=
      if w.location = "newyork" then
        { eventTemplate with title := "Manhattan Under Siege" }
      else
        { eventTemplate with title := "Downtown Under Siege" }
    some eventTemplate
  else
    getEventForRole w.role rnd

/-- The function `generateDailyEvent()`.  The value returned is the local
variable `event` (the JavaScript function itself returns nothing); reading
`event.image` throws when `event` is `undefined`. -/
def generateDailyEvent (rnd : Draw) (w : World) : Result Event :=
  let w := clearActions w
  match dailyEvent rnd w with
  | none => .threw w
  | some event =>
    let w := log ("Day " ++ toString w.day ++ ": " ++ event.title) .normal w
    let w := log event.description .normal w
    .ok event
      (event.choices.foldl
        (fun w choice => createActionButton choice.label (.resolve choice) w) w)

/-- The body of the loop of `resolveChoice` for one entry `[stat, change]` of
`choice.effects`: when `roleStats[stat]` is a stat, add `change` to its value
and then clamp the value into `[0, max]`.  (A key inherited from
`Object.prototype` is truthy too, but the write then lands on that inherited
object and on no stat.) -/
def applyEffect (stat : String) (change : Int) (w : World) : World :=
  match w.resources.lookup stat with
  | none => w
  | some s =>
    let w := setVal stat (s.val + change) w
    match w.resources.lookup stat with
    | none => w
    | some s => setVal stat (max 0 (min s.max s.val)) w

/-- The loop `for (const [stat, change] of Object.entries(choice.effects))` of
`resolveChoice`. -/
def applyEffects (effects : List (String × Int)) (w : World) : World :=
  effects.foldl (fun w e => applyEffect e.1 e.2 w) w

/-- The function `resolveChoice(choice)`. -/
def resolveChoice (choice : Choice) (w : World) : Result Unit :=
  let w := applyEffects choice.effects w
  let w := log ("> " ++ choice.label) .choice w
  let w := log choice.outcome .normal w
  match checkGameOver w with
  | .threw w => .threw w
  | .ok true w => .ok () w
  | .ok false w => .ok () (createActionButton "End Day" .endDay w)

/-! ## Core game loop -/

/-- The function `nextDay()`; `rnd` is the value of `Math.random()` that
`generateDailyEvent` consumes when it draws from a pool. -/
def nextDay (rnd : Draw) (w : World) : Result Unit :=
  if w.gameOver then .ok () w
  else
    let w := { w with day := w.day + 1 }
    match applyPassiveEffects w with
    | .threw w => .threw w
    | .ok _ w =>
      match checkGameOver w with
      | .threw w => .threw w
      | .ok true w => .ok () w
      | .ok false w =>
        match generateDailyEvent rnd w with
        | .threw w => .threw w
        | .ok _ w => .ok () w

/-- The function `startGame(role)`.  The deep copy of `ROLES[role].stats` throws
when `ROLES` has no entry for `role`, after the three assignments before it;
`JSON.parse(JSON.stringify(stats))` builds new stat objects with the same keys
and contents. -/
def startGame (role : String) (rnd : Draw) (w : World) : Result Unit :=
  let w := { w with role := some role }
  let w := { w with day := 1 }
  let w := { w with gameOver := false }
  match w.ROLES.lookup role with
  | none => .threw w
  | some roleDef =>
    let w := { w with resources := roleDef.stats }
    match generateDailyEvent rnd w with
    | .threw w => .threw w
    | .ok _ w => .ok () w

/-- The location toggle handler installed by `init()`:
`STATE.location = e.target.getAttribute('data-loc')`. -/
def setLocation (loc : String) (w : World) : World :=
  { w with location := loc }

/-- A click on the `i`-th button of `dom.actionContainer`, as wired by
`createActionButton`: a disabled (or absent) button does nothing; otherwise
every button of the container is disabled and the callback runs.
`window.location.reload()` restarts the script. -/
def click (i : Nat) (rnd : Draw) (w : World) : Result Unit :=
  match w.actions.get? i with
  | none => .ok () w
  | some b =>
    if b.disabled then .ok () w
    else
      let w := { w with actions := w.actions.map fun b => { b with disabled := true } }
      match b.onClick with
      | .resolve choice => resolveChoice choice w
      | .endDay => nextDay rnd w
      | .reload => .ok () World.init

/-! ## Auxiliary notions used to state the properties -/

/-- The part of a stat table that no write of the engine touches: for every
key, in property order, the bound `max` and the display `label`. -/
def Resources.schema (rs : Resources) : List (String × Int × String) :=
  rs.map fun p => (p.1, p.2.max, p.2.label)

/-- The clamp of the specification: `clamp(v, lo, hi) = max(lo, min(hi, v))`. -/
def clamp (v lo hi : Int) : Int :=
  max lo (min hi v)

/-- A stat after a change of `change` clamped into `[0, max]`: its value becomes
`clamp(val + change, 0, max)`; `max` and `label` are kept. -/
def Stat.bump (s : Stat) (change : Int) : Stat :=
  { s with val := clamp (s.val + change) 0 s.max }

/-- A threshold test of the termination table: `value ≤ n` or `value ≥ n`. -/
inductive Threshold where
  | atMost (n : Int)
  | atLeast (n : Int)
  deriving DecidableEq, Repr

/-- Whether the value `v` crosses the threshold. -/
def Threshold.crossedBy : Threshold → Int → Bool
  | .atMost n, v => decide (v ≤ n)
  | .atLeast n, v => decide (v ≥ n)

/-- One row of the termination table of the specification (section 4.3): the
stat it looks at, the condition on its value, and the reason reported. -/
structure TerminationRule where
  stat : String
  condition : Threshold
  reason : String
  deriving DecidableEq, Repr

/-- The termination table of the specification (section 4.3), written from the
words of the specification: the rows of a role, in the order listed. -/
def specTerminationTable (role : String) : List TerminationRule :=
  if role = "denizen" then
    [ { stat := "health", condition := .atMost 0
        reason := "You succumbed to your injuries. The city claimed another soul." },
      { stat := "suspicion", condition := .atLeast 100
        reason := "The secret police kicked down your door. You were never seen again." },
      { stat := "hunger", condition := .atLeast 100
        reason := "Starvation has taken you." } ]
  else if role = "occupier" then
    [ { stat := "control", condition := .atMost 0
        reason := "The city has fallen to the rebellion. You are forced to flee." },
      { stat := "unrest", condition := .atLeast 100
        reason := "A massive uprising has overthrown your command center." } ]
  else []

/-- Whether a row of the table holds in a world: its stat exists and its value
crosses the threshold. -/
def TerminationRule.holds (rule : TerminationRule) (w : World) : Bool :=
  match statVal w rule.stat with
  | some v => rule.condition.crossedBy v
  | none => false

/-- First match wins: the reason of the first row of the table, in the listed
order, that holds in `w`; `none` when no row holds. -/
def specCheckTermination (role : String) (w : World) : Option String :=
  ((specTerminationTable role).find? fun rule => rule.holds w).map TerminationRule.reason

/-- A Denizen world in which all three Denizen thresholds are crossed at once. -/
def denizenAllCrossed : World :=
  { World.init with
    role := some "denizen"
    resources :=
      [ ("hunger", { val := 100, max := 100, label := "Hunger (Low is Good)" }),
        ("suspicion", { val := 100, max := 100, label := "Suspicion" }),
        ("health", { val := 0, max := 100, label := "Health" }),
        ("supplies", { val := 5, max := 50, label := "Supplies" }) ] }

/-- The draw `Math.random() = 0`. -/
def drawZero : Draw :=
  { r := 0, nonneg := le_refl 0, lt_one := zero_lt_one, isDouble := if_pos rfl }

/-- The choices of all the events of a pool, in order. -/
def choicesOf (pool : List Event) : List Choice :=
  pool.foldr (fun event acc => event.choices ++ acc) []

/-- The choices the event catalog can offer to a role: those of the scripted
event (Denizen only) and those of the events of the pool of the role. -/
def catalogChoices (role : String) : List Choice :=
  if role = "denizen" then MIDTOWN_ESCAPE_EVENT.choices ++ choicesOf DENIZEN_EVENTS
  else choicesOf OCCUPIER_EVENTS

/-- The worlds reachable in a session of `role`: `startGame(role)` from a world
whose `ROLES` catalog is the initial one, followed by any sequence of calls of
`nextDay` and of `resolveChoice` with a choice of the catalog. -/
inductive Reachable (role : String) : World → Prop where
  | start (w0 : World) (rnd : Draw) :
      w0.ROLES = ROLES → Reachable role (startGame role rnd w0).world
  | day {w : World} (rnd : Draw) :
      Reachable role w → Reachable role (nextDay rnd w).world
  | choose {w : World} (choice : Choice) :
      Reachable role w → choice ∈ catalogChoices role →
      Reachable role (resolveChoice choice w).world

/-- The world after a sequence of clicks on action buttons, given by their
positions in `dom.actionContainer`; every draw of `Math.random()` is `rnd`. -/
def clicks (positions : List Nat) (rnd : Draw) (w : World) : World :=
  positions.foldl (fun w i => (click i rnd w).world) w

/-- The choice "Bribe Patrol" of the Denizen event "A Knock at the Door". -/
def bribePatrol : Choice :=
  { label := "Bribe Patrol"
    outcome := "You gave them some food. They left you alone, for now."
    effects := [("suspicion", -20), ("supplies", -2)] }

/-- The choice "Help Coworkers" of the scripted event. -/
def helpCoworkers : Choice :=
  { label := "Help Coworkers"
    outcome := "You stop to kelp Karen from HR. It slows you down, and you witness horrors you can't unsee."
    effects := [("morale", -20), ("health", -5), ("suspicion", -5)] }

/-- The choice "Distribute Extra Rations" of the Occupier event "Food Riots". -/
def distributeExtraRations : Choice :=
  { label := "Distribute Extra Rations"
    outcome := "The crowd disperses peacefully. Supplies are low."
    effects := [("unrest", -10), ("resources", -20)] }

/-- A fresh session: the page as loaded, then `startGame(role)`. -/
def freshSession (role : String) : World :=
  (startGame role drawZero World.init).world

/-- An event is the scripted event but for its title: its description, image
and choices are those of the template `MIDTOWN_ESCAPE_EVENT`. -/
def Event.isScripted (event : Event) : Prop :=
  event.description = MIDTOWN_ESCAPE_EVENT.description ∧
    event.image = MIDTOWN_ESCAPE_EVENT.image ∧
    event.choices = MIDTOWN_ESCAPE_EVENT.choices

instance (event : Event) : Decidable event.isScripted := by
  unfold Event.isScripted
  infer_instance

/-- A call of one of the two engine functions that drive a session:
`nextDay()` (with its draw) or `resolveChoice(choice)`. -/
inductive Call where
  | day (rnd : Draw)
  | choose (choice : Choice)

/-- The world after a call. -/
def Call.run : Call → World → World
  | .day rnd, w => (nextDay rnd w).world
  | .choose choice, w => (resolveChoice choice w).world

/-- Whether a call is one a session of `role` may make: any `nextDay`, and
`resolveChoice` with a choice of the catalog. -/
def Call.allowed (role : String) : Call → Bool
  | .day _ => true
  | .choose choice => decide (choice ∈ catalogChoices role)

/-- The world after a sequence of calls, first call first. -/
def runCalls (calls : List Call) (w : World) : World :=
  calls.foldl (fun w call => call.run w) w

/-- The choice "Accept Deal" of the Occupier event "The Informant". -/
def acceptDeal : Choice :=
  { label := "Accept Deal"
    outcome := "The info was good. We made several arrests."
    effects := [("control", 15), ("resources", -10)] }

/-- The choice "Stay away" of the Denizen event "The Market Leak". -/
def stayAway : Choice :=
  { label := "Stay away"
    outcome := "Too dangerous. You come home empty handed."
    effects := [("hunger", 5)] }

/-- An Occupier session in which every draw is 0, so that every day brings
"Food Riots": four times "Distribute Extra Rations" then `nextDay`, then
"Distribute Extra Rations" once more.  The stock of rations is then 0. -/
def occupierOutOfRations : World :=
  runCalls
    [ .choose distributeExtraRations, .day drawZero,
      .choose distributeExtraRations, .day drawZero,
      .choose distributeExtraRations, .day drawZero,
      .choose distributeExtraRations, .day drawZero,
      .choose distributeExtraRations ]
    (freshSession "occupier")

/-- The session `occupierOutOfRations` one `nextDay` later. -/
def occupierNextMorning : World :=
  (nextDay drawZero occupierOutOfRations).world

/-- The session `occupierNextMorning` as played through the buttons of the
page: "Distribute Extra Rations" is button 1 of "Food Riots", "End Day" is
button 2 once a choice is made. -/
def occupierNextMorningClicked : World :=
  clicks [1, 2, 1, 2, 1, 2, 1, 2, 1, 2] drawZero (freshSession "occupier")

/-- An Occupier session ended by the uprising: sixteen calls of `nextDay` after
`startGame('occupier')`. -/
def occupierOverthrown : World :=
  runCalls (List.replicate 16 (.day drawZero)) (freshSession "occupier")

/-- A Denizen session driven by direct calls: "Help Coworkers" nineteen times,
"Stay away" once, then six calls of `nextDay`.  Hunger is then 85 and health 5. -/
def denizenWeak : World :=
  runCalls
    (List.replicate 19 (.choose helpCoworkers) ++ [.choose stayAway] ++
      List.replicate 6 (.day drawZero))
    (freshSession "denizen")

/-- The stat table of a Denizen session with the given values: the keys, bounds
and labels of `ROLES.denizen.stats`. -/
def denizenStats (hunger suspicion health supplies : Int) : Resources :=
  [ ("hunger", { val := hunger, max := 100, label := "Hunger (Low is Good)" }),
    ("suspicion", { val := suspicion, max := 100, label := "Suspicion" }),
    ("health", { val := health, max := 100, label := "Health" }),
    ("supplies", { val := supplies, max := 50, label := "Supplies" }) ]

/-- The stat table of an Occupier session with the given values: the keys,
bounds and labels of `ROLES.occupier.stats`. -/
def occupierStats (control resources unrest manpower : Int) : Resources :=
  [ ("control", { val := control, max := 100, label := "City Control" }),
    ("resources", { val := resources, max := 500, label := "Rations Stock" }),
    ("unrest", { val := unrest, max := 100, label := "Civil Unrest" }),
    ("manpower", { val := manpower, max := 100, label := "Patrol Strength" }) ]

/-- A world is in a session of `role`: `STATE.role` is `role`, the catalog has
an entry for it, and `STATE.resources` has the keys, bounds and labels of the
stats of that entry (whatever the values). -/
def InSession (role : String) (w : World) : Prop :=
  w.role = some role ∧
    ∃ roleDef, ROLES.lookup role = some roleDef ∧ w.resources.schema = roleDef.stats.schema

/-- The choices the page offers: those of the buttons of `dom.actionContainer`
whose callback is `resolveChoice(choice)`, in document order. -/
def offeredChoices (w : World) : List Choice :=
  w.actions.filterMap fun b =>
    match b.onClick with
    | .resolve choice => some choice
    | _ => none

/-- An Occupier session on the eve of the uprising: fifteen calls of `nextDay`
after `startGame('occupier')`. -/
def occupierLastDay : World :=
  runCalls (List.replicate 15 (.day drawZero)) (freshSession "occupier")

/-- Whether a call is a call of `nextDay`. -/
def Call.isDay : Call → Bool
  | .day _ => true
  | .choose _ => false

/-- The invariant of a Denizen session in which `nextDay` has been called `n`
times: the stats are those of a Denizen, hunger lies between
`min(100, 20 + 10 * (day - 1))` and 100, hunger 100 means the session is
terminated, `day` lies between 1 and 9, and `day` is `1 + n` unless the session
is terminated. -/
def DenizenInvariant (n : Nat) (w : World) : Prop :=
  w.role = some "denizen" ∧
    ∃ hunger suspicion health supplies,
      w.resources = denizenStats hunger suspicion health supplies ∧
      min 100 (20 + 10 * (w.day - 1)) ≤ hunger ∧ hunger ≤ 100 ∧
      (100 ≤ hunger → w.gameOver = true) ∧
      1 ≤ w.day ∧ w.day ≤ 9 ∧
      (w.gameOver = true ∨ w.day = 1 + (n : Int))

/-! ## Sessions played through the page -/

/-- The button `endGame` leaves in `dom.actionContainer`. -/
def returnToMenu : Button :=
  { text := "Return to Menu", onClick := .reload, disabled := false }

/-- The button `resolveChoice` appends when the session goes on. -/
def endDayButton : Button :=
  { text := "End Day", onClick := .endDay, disabled := false }

/-- The button `generateDailyEvent` creates for a choice of the event. -/
def choiceButton (choice : Choice) : Button :=
  { text := choice.label, onClick := .resolve choice, disabled := false }

/-- The worlds the page can be in.  Loading the script runs `init()`, which
installs the listeners; from then on the only code that runs is a listener: of
a location toggle, of one of the two role buttons of the menu
(`startGame('denizen')`, `startGame('occupier')`), or of a button of
`dom.actionContainer`. -/
inductive Played : World → Prop where
  | load : Played World.init
  | toggle {w : World} (loc : String) : Played w → Played (setLocation loc w)
  | start {w : World} (role : String) (rnd : Draw) :
      Played w → role = "denizen" ∨ role = "occupier" → Played (startGame role rnd w).world
  | press {w : World} (i : Nat) (rnd : Draw) : Played w → Played (click i rnd w).world

/-- The choices a Denizen can be offered on a day: those of the scripted event
on day 1, those of the events of `DENIZEN_EVENTS` on any other day. -/
def denizenDayChoices (day : Int) : List Choice :=
  if day = 1 then MIDTOWN_ESCAPE_EVENT.choices else choicesOf DENIZEN_EVENTS

/-- How many times the branch `hunger.val >= 90` of `applyPassiveEffects` can
have run in a Denizen session whose hunger is `hunger`: hunger never falls, the
branch is entered with the hunger it leaves, and a running session has hunger
below 100. -/
def starvationHits (hunger : Int) : Int :=
  if hunger < 90 then 0 else if hunger < 100 then 1 else 2

/-- The event of the day is on offer: the buttons are the enabled choice
buttons of one event, for a Denizen an event of the day. -/
def ChoicePending (w : World) : Prop :=
  ∃ choices : List Choice, w.actions = choices.map choiceButton ∧
    (w.role = some "denizen" → ∀ choice ∈ choices, choice ∈ denizenDayChoices w.day)

/-- The choice of the day is made: the only buttons still enabled call
`nextDay`. -/
def ChoiceMade (w : World) : Prop :=
  ∀ b ∈ w.actions, b.disabled = false → b.onClick = .endDay

/-- What holds of the stats of a Denizen session played through the page: they
are the Denizen stats, within their bounds; hunger is at least
`min(100, 20 + 10 * (day - 1))` and hunger 100 means the session is terminated;
health is at least 35; and in a running session health is at least 100, less 10
for each run of the starvation branch, less the health the choices made so far
can have cost (10 on day 1, 5 on any other day). -/
def DenizenPlay (w : World) : Prop :=
  ∃ hunger suspicion health supplies,
    w.resources = denizenStats hunger suspicion health supplies ∧
    min 100 (20 + 10 * (w.day - 1)) ≤ hunger ∧ hunger ≤ 100 ∧
    0 ≤ suspicion ∧ suspicion ≤ 100 ∧ health ≤ 100 ∧
    0 ≤ supplies ∧ supplies ≤ 50 ∧ 1 ≤ w.day ∧
    (100 ≤ hunger → w.gameOver = true) ∧
    (w.gameOver = true → 35 ≤ health) ∧
    (w.gameOver = false →
      (ChoicePending w ∧
        100 - 10 * starvationHits hunger - (if w.day = 1 then 0 else 5 * w.day) ≤ health) ∨
      (ChoiceMade w ∧ 100 - 10 * starvationHits hunger - (5 * w.day + 5) ≤ health))

/-- What holds of every world the page can be in: the catalog objects are as
declared, and either no session has started (no role, no button), or a session
of one of the two roles is on, a terminated session has the single button
"Return to Menu", and a Denizen session satisfies `DenizenPlay`. -/
def PlayInvariant (w : World) : Prop :=
  w.ROLES = ROLES ∧ w.MIDTOWN_ESCAPE_EVENT = MIDTOWN_ESCAPE_EVENT ∧
    ((w.role = none ∧ w.actions = [] ∧ w.gameOver = false) ∨
      ((InSession "denizen" w ∨ InSession "occupier" w) ∧
        (w.gameOver = true → w.actions = [returnToMenu]) ∧
        (w.role = some "denizen" → DenizenPlay w)))

/-- An Occupier session played through the page in which every draw is 0:
"Crackdown" (button 0 of "Food Riots") and "End Day" (button 2) five times, then
"Crackdown" once more.  Unrest is then 100 and the session is terminated. -/
def occupierCrackdown : World :=
  clicks [0, 2, 0, 2, 0, 2, 0, 2, 0, 2, 0] drawZero (freshSession "occupier")

/-- A Denizen session played through the page in which every draw is 0: "Grab
Emergency Kit & Stairs" on day 1, "Do Nothing" on days 2 to 6, "Hide Supplies"
on day 7, with "End Day" (button 3) in between.  Hunger is then 85. -/
def denizenHungry : World :=
  clicks [0, 3, 2, 3, 2, 3, 2, 3, 2, 3, 2, 3, 0] drawZero (freshSession "denizen")

/-! # Lemmas and theorems -/

/-! ## Association-list lemmas -/

theorem Resources.lookup_setVal (rs : Resources) (k k' : String) (v : Int) :
    (rs.setVal k v).lookup k' =
      if k' = k then (rs.lookup k').map (fun s => { s with val := v }) else rs.lookup k' := by
  induction rs with
  | nil => simp [Resources.setVal]
  | cons p rs ih =>
    obtain ⟨a, s⟩ := p
    simp only [Resources.setVal, List.map_cons] at ih ⊢
    by_cases hak : a = k
    · by_cases hk : k' = k
      · subst hak; subst hk
        simp [List.lookup_cons]
      · subst hak
        have : (k' == a) = false := by simpa using hk
        simp [List.lookup_cons, this, hk] at ih ⊢
        exact ih
    · by_cases hk' : k' = a
      · subst hk'
        simp [List.lookup_cons, hak]
      · have : (k' == a) = false := by simpa using hk'
        simp only [hak, if_false, List.lookup_cons, this]
        exact ih

theorem Resources.keys_setVal (rs : Resources) (k : String) (v : Int) :
    (rs.setVal k v).map Prod.fst = rs.map Prod.fst := by
  induction rs with
  | nil => rfl
  | cons p rs ih =>
    simp only [Resources.setVal, List.map_cons] at ih ⊢
    by_cases h : p.1 = k <;> simp [h, ih]

theorem Resources.schema_setVal (rs : Resources) (k : String) (v : Int) :
    (rs.setVal k v).schema = rs.schema := by
  induction rs with
  | nil => rfl
  | cons p rs ih =>
    simp only [Resources.schema, Resources.setVal, List.map_cons, List.map_map] at ih ⊢
    by_cases h : p.1 = k <;> simp [h, ih]

/-! ## Choice effects -/

theorem applyEffect_eq (k : String) (d : Int) (w : World) :
    applyEffect k d w = { w with resources := (applyEffect k d w).resources } := by
  unfold applyEffect
  cases h : w.resources.lookup k with
  | none => rfl
  | some s =>
    simp only [setVal]
    split <;> rfl

theorem applyEffect_lookup (k : String) (d : Int) (w : World) (k' : String) :
    (applyEffect k d w).resources.lookup k' =
      if k' = k then (w.resources.lookup k').map (fun s => s.bump d)
      else w.resources.lookup k' := by
  unfold applyEffect
  cases h : w.resources.lookup k with
  | none =>
    by_cases hk : k' = k
    · subst hk; simp [h]
    · simp [hk]
  | some s =>
    simp only [setVal, Resources.lookup_setVal, h, if_true, Option.map_some']
    by_cases hk : k' = k
    · subst hk; simp [Resources.lookup_setVal, h, Stat.bump, clamp]
    · simp [Resources.lookup_setVal, hk]

theorem applyEffect_schema (k : String) (d : Int) (w : World) :
    (applyEffect k d w).resources.schema = w.resources.schema := by
  unfold applyEffect
  cases h : w.resources.lookup k with
  | none => rfl
  | some s =>
    simp only [setVal]
    split <;> simp [Resources.schema_setVal]

theorem applyEffects_eq (es : List (String × Int)) (w : World) :
    applyEffects es w = { w with resources := (applyEffects es w).resources } := by
  induction es generalizing w with
  | nil => rfl
  | cons e es ih =>
    have h1 : applyEffects (e :: es) w = applyEffects es (applyEffect e.1 e.2 w) := rfl
    rw [h1, ih, applyEffect_eq]

theorem applyEffects_schema (es : List (String × Int)) (w : World) :
    (applyEffects es w).resources.schema = w.resources.schema := by
  induction es generalizing w with
  | nil => rfl
  | cons e es ih =>
    have h1 : applyEffects (e :: es) w = applyEffects es (applyEffect e.1 e.2 w) := rfl
    rw [h1, ih, applyEffect_schema]

theorem applyEffects_lookup_of_not_mem (es : List (String × Int)) (w : World) (k : String)
    (hk : k ∉ es.map Prod.fst) :
    (applyEffects es w).resources.lookup k = w.resources.lookup k := by
  induction es generalizing w with
  | nil => rfl
  | cons e es ih =>
    have h1 : applyEffects (e :: es) w = applyEffects es (applyEffect e.1 e.2 w) := rfl
    simp only [List.map_cons, List.mem_cons, not_or] at hk
    rw [h1, ih _ hk.2, applyEffect_lookup, if_neg hk.1]

theorem applyEffects_lookup_of_mem (es : List (String × Int)) (w : World) (k : String) (d : Int)
    (hnd : (es.map Prod.fst).Nodup) (hmem : (k, d) ∈ es) :
    (applyEffects es w).resources.lookup k = (w.resources.lookup k).map (fun s => s.bump d) := by
  induction es generalizing w with
  | nil => simp at hmem
  | cons e es ih =>
    have h1 : applyEffects (e :: es) w = applyEffects es (applyEffect e.1 e.2 w) := rfl
    simp only [List.map_cons, List.nodup_cons] at hnd
    rcases List.mem_cons.1 hmem with he | hes
    · subst he
      rw [h1, applyEffects_lookup_of_not_mem _ _ _ hnd.1, applyEffect_lookup, if_pos rfl]
    · have hne : k ≠ e.1 := by
        intro h
        exact hnd.1 (h ▸ List.mem_map_of_mem Prod.fst hes)
      rw [h1, ih _ hnd.2 hes, applyEffect_lookup, if_neg hne]

/-! ## Termination check -/

theorem endGame_gameOver (reason : String) (w : World) : (endGame reason w).gameOver = true := rfl

theorem endGame_narrativeLog (reason : String) (w : World) :
    (endGame reason w).narrativeLog =
      { text := reason, severity := .warning } ::
        { text := "GAME OVER", severity := .warning } :: w.narrativeLog := rfl

theorem isSome_statVal {w : World} {k : String} (h : (statVal w k).isSome) :
    ∃ v, statVal w k = some v :=
  Option.isSome_iff_exists.1 h

/-! ## Event selection -/

theorem foldl_createActionButton (choices : List Choice) (w : World) :
    choices.foldl (fun w choice => createActionButton choice.label (.resolve choice) w) w =
      { w with
        actions := w.actions ++
          choices.map fun choice =>
            { text := choice.label, onClick := .resolve choice, disabled := false } } := by
  induction choices generalizing w with
  | nil => simp
  | cons c cs ih =>
    rw [List.foldl_cons, ih]
    simp [createActionButton]

theorem generateDailyEvent_eq (rnd : Draw) (w : World) :
    generateDailyEvent rnd w =
      match dailyEvent rnd w with
      | none => .threw { w with actions := [] }
      | some event =>
        .ok event
          { w with
            narrativeLog :=
              { text := event.description, severity := .normal } ::
                { text := "Day " ++ toString w.day ++ ": " ++ event.title, severity := .normal } ::
                  w.narrativeLog
            actions := event.choices.map fun choice =>
              { text := choice.label, onClick := .resolve choice, disabled := false } } := by
  have h : dailyEvent rnd (clearActions w) = dailyEvent rnd w := rfl
  simp only [generateDailyEvent, h]
  cases dailyEvent rnd w with
  | none => rfl
  | some event => simp [foldl_createActionButton, log, clearActions]

/-! ## The double product of a draw and a pool length -/

theorem roundHalfEven_bounds (q : ℚ) :
    q - 1 / 2 ≤ (roundHalfEven q : ℚ) ∧ (roundHalfEven q : ℚ) ≤ q + 1 / 2 := by
  have h1 : ((Rat.floor q : Int) : ℚ) ≤ q := by
    have := (Rat.le_floor (z := Rat.floor q) (r := q)).1 (le_refl _)
    exact this
  have h2 : q < ((Rat.floor q : Int) : ℚ) + 1 := by
    by_contra hcon
    push_neg at hcon
    have : Rat.floor q + 1 ≤ Rat.floor q := by
      rw [Rat.le_floor]; push_cast; exact hcon
    omega
  unfold roundHalfEven
  dsimp only
  split_ifs with c1 c2 c3
  · constructor <;> linarith
  · constructor <;> push_cast <;> linarith
  · push_neg at c1 c2
    constructor <;> linarith
  · push_neg at c1 c2
    constructor <;> push_cast <;> linarith

theorem roundHalfEven_nonneg {q : ℚ} (hq : 0 ≤ q) : 0 ≤ roundHalfEven q := by
  have h0 : 0 ≤ Rat.floor q := by
    rw [Rat.le_floor]; exact_mod_cast hq
  unfold roundHalfEven
  dsimp only
  split_ifs <;> omega

theorem ulp_pos (x : ℚ) : 0 < ulp x := by
  unfold ulp
  positivity

theorem ulp_le {x : ℚ} {k : Int} (hx : 0 < x) (hk : -1022 ≤ k) (hlt : x < (2 : ℚ) ^ (k + 1)) :
    ulp x ≤ (2 : ℚ) ^ (k - 52) := by
  have hlog : Int.log 2 x < k + 1 :=
    (Int.lt_zpow_iff_log_lt (b := 2) (by norm_num) hx).1 (by exact_mod_cast hlt)
  unfold ulp
  rw [abs_of_pos hx]
  apply zpow_le_zpow_right₀ (by norm_num)
  have : max (Int.log 2 x) (-1022) ≤ k := max_le (by omega) hk
  omega

theorem roundToDouble_nonneg {x : ℚ} (hx : 0 ≤ x) : 0 ≤ roundToDouble x := by
  unfold roundToDouble
  split_ifs
  · exact le_refl _
  · apply mul_nonneg
    · exact_mod_cast roundHalfEven_nonneg (div_nonneg hx (ulp_pos x).le)
    · exact (ulp_pos x).le

theorem roundToDouble_le (x : ℚ) : roundToDouble x ≤ x + ulp x / 2 := by
  unfold roundToDouble
  split_ifs with h0
  · rw [h0]
    have := ulp_pos (0 : ℚ)
    linarith
  · have hb := (roundHalfEven_bounds (x / ulp x)).2
    have hu := ulp_pos x
    calc (roundHalfEven (x / ulp x) : ℚ) * ulp x ≤ (x / ulp x + 1 / 2) * ulp x :=
          mul_le_mul_of_nonneg_right hb hu.le
      _ = x + ulp x / 2 := by field_simp; ring

theorem Draw.le_pred_one (rnd : Draw) : rnd.r ≤ 1 - (2 : ℚ) ^ (-53 : Int) := by
  have hsmall : (1 : ℚ) / 2 ≤ 1 - (2 : ℚ) ^ (-53 : Int) := by norm_num
  by_cases hhalf : rnd.r < 1 / 2
  · exact le_trans hhalf.le hsmall
  · push_neg at hhalf
    have hpos : 0 < rnd.r := by linarith
    have hne : rnd.r ≠ 0 := ne_of_gt hpos
    have hlog1 : Int.log 2 rnd.r < 0 :=
      (Int.lt_zpow_iff_log_lt (b := 2) (by norm_num) hpos).1 (by simpa using rnd.lt_one)
    have hlog2 : -1 ≤ Int.log 2 rnd.r :=
      (Int.zpow_le_iff_le_log (b := 2) (by norm_num) hpos).1 (by
        have : ((2 : ℕ) : ℚ) ^ (-1 : Int) = 1 / 2 := by norm_num
        rw [this]; exact hhalf)
    have hlog : Int.log 2 rnd.r = -1 := by omega
    have hulp : ulp rnd.r = (2 : ℚ) ^ (-53 : Int) := by
      unfold ulp
      rw [abs_of_pos hpos, hlog]
      norm_num
    have hd := rnd.isDouble
    unfold roundToDouble at hd
    rw [if_neg hne, hulp] at hd
    set m := roundHalfEven (rnd.r / (2 : ℚ) ^ (-53 : Int)) with hm
    have hlt : (m : ℚ) * (2 : ℚ) ^ (-53 : Int) < 1 := by rw [hd]; exact rnd.lt_one
    have hm53 : (m : ℚ) < (2 : ℚ) ^ (53 : Nat) := by
      have h2 : (2 : ℚ) ^ (-53 : Int) = 1 / (2 : ℚ) ^ (53 : Nat) := by norm_num
      rw [h2] at hlt
      have hp : (0 : ℚ) < (2 : ℚ) ^ (53 : Nat) := by positivity
      rw [mul_one_div, div_lt_one hp] at hlt
      exact hlt
    have hm' : m < 2 ^ 53 := by exact_mod_cast hm53
    have hm'' : (m : ℚ) ≤ (2 : ℚ) ^ (53 : Nat) - 1 := by
      have : m ≤ 2 ^ 53 - 1 := by omega
      exact_mod_cast this
    rw [← hd]
    calc (m : ℚ) * (2 : ℚ) ^ (-53 : Int) ≤ ((2 : ℚ) ^ (53 : Nat) - 1) * (2 : ℚ) ^ (-53 : Int) :=
          mul_le_mul_of_nonneg_right hm'' (by positivity)
      _ = 1 - (2 : ℚ) ^ (-53 : Int) := by norm_num

theorem roundToDouble_product_lt (rnd : Draw) (n : Nat) (k : Int) (hk : -1022 ≤ k)
    (hn1 : (2 : ℚ) ^ k < (n : ℚ)) (hn2 : (n : ℚ) ≤ (2 : ℚ) ^ (k + 1)) :
    roundToDouble (rnd.r * (n : ℚ)) < (n : ℚ) := by
  have hnpos : (0 : ℚ) < (n : ℚ) := lt_trans (by positivity) hn1
  have hr := rnd.le_pred_one
  by_cases h0 : rnd.r * (n : ℚ) = 0
  · unfold roundToDouble
    rw [if_pos h0]
    exact hnpos
  · have hxpos : 0 < rnd.r * (n : ℚ) :=
      lt_of_le_of_ne (mul_nonneg rnd.nonneg hnpos.le) (Ne.symm h0)
    have hxlt : rnd.r * (n : ℚ) < (2 : ℚ) ^ (k + 1) :=
      lt_of_lt_of_le (by nlinarith [rnd.lt_one]) hn2
    have hu := ulp_le hxpos hk hxlt
    have hle := roundToDouble_le (rnd.r * (n : ℚ))
    have hk53 : (2 : ℚ) ^ (k - 52) / 2 = (2 : ℚ) ^ k * (2 : ℚ) ^ (-53 : Int) := by
      rw [show k - 52 = k + (-52) by ring, zpow_add₀ (by norm_num)]
      norm_num
      ring
    have hx : rnd.r * (n : ℚ) ≤ (n : ℚ) - (n : ℚ) * (2 : ℚ) ^ (-53 : Int) := by
      have := mul_le_mul_of_nonneg_right hr hnpos.le
      linarith
    have hpos53 : (0 : ℚ) < (2 : ℚ) ^ (-53 : Int) := by positivity
    have hlt : (2 : ℚ) ^ k * (2 : ℚ) ^ (-53 : Int) < (n : ℚ) * (2 : ℚ) ^ (-53 : Int) :=
      mul_lt_mul_of_pos_right hn1 hpos53
    rw [hk53.symm] at hlt
    generalize (n : ℚ) * (2 : ℚ) ^ (-53 : Int) = a at hx hlt
    generalize (2 : ℚ) ^ (k - 52) = b at hu hlt
    generalize ulp (rnd.r * (n : ℚ)) = u at hu hle
    generalize roundToDouble (rnd.r * (n : ℚ)) = y at hle ⊢
    generalize rnd.r * (n : ℚ) = x at hx hle
    linarith

theorem log_two_eq {x : ℚ} {e : Int} (hx : 0 < x) (h1 : (2 : ℚ) ^ e ≤ x)
    (h2 : x < (2 : ℚ) ^ (e + 1)) : Int.log 2 x = e := by
  have a : Int.log 2 x < e + 1 :=
    (Int.lt_zpow_iff_log_lt (b := 2) (by norm_num) hx).1 (by exact_mod_cast h2)
  have b : e ≤ Int.log 2 x :=
    (Int.zpow_le_iff_le_log (b := 2) (by norm_num) hx).1 (by exact_mod_cast h1)
  omega

theorem ulp_eq {x : ℚ} {e : Int} (hx : 0 < x) (he : -1022 ≤ e) (h1 : (2 : ℚ) ^ e ≤ x)
    (h2 : x < (2 : ℚ) ^ (e + 1)) : ulp x = (2 : ℚ) ^ (e - 52) := by
  unfold ulp
  rw [abs_of_pos hx, log_two_eq hx h1 h2, max_eq_left he]

theorem roundToDouble_third :
    roundToDouble (6004799503160661 / 18014398509481984) =
      6004799503160661 / 18014398509481984 := by
  have hu : ulp (6004799503160661 / 18014398509481984) = (2 : ℚ) ^ ((-2 : Int) - 52) :=
    ulp_eq (by norm_num) (by norm_num) (by norm_num) (by norm_num)
  unfold roundToDouble
  rw [if_neg (by norm_num), hu]
  have hq : (6004799503160661 / 18014398509481984 : ℚ) / (2 : ℚ) ^ ((-2 : Int) - 52) =
      6004799503160661 := by norm_num
  rw [hq]
  have hr : roundHalfEven 6004799503160661 = 6004799503160661 := by
    have hf : Rat.floor 6004799503160661 = 6004799503160661 := by
      show ⌊(6004799503160661 : ℚ)⌋ = 6004799503160661
      norm_num
    unfold roundHalfEven
    dsimp only
    rw [hf]
    norm_num
  rw [hr]
  norm_num

theorem roundToDouble_third_times_three :
    roundToDouble (6004799503160661 / 18014398509481984 * ((3 : Nat) : ℚ)) = 1 := by
  have hx : (6004799503160661 / 18014398509481984 * ((3 : Nat) : ℚ) : ℚ) =
      18014398509481983 / 18014398509481984 := by norm_num
  rw [hx]
  have hu : ulp (18014398509481983 / 18014398509481984) = (2 : ℚ) ^ ((-1 : Int) - 52) :=
    ulp_eq (by norm_num) (by norm_num) (by norm_num) (by norm_num)
  unfold roundToDouble
  rw [if_neg (by norm_num), hu]
  have hq : (18014398509481983 / 18014398509481984 : ℚ) / (2 : ℚ) ^ ((-1 : Int) - 52) =
      18014398509481983 / 2 := by norm_num
  rw [hq]
  have hr : roundHalfEven (18014398509481983 / 2) = 9007199254740992 := by
    have hf : Rat.floor (18014398509481983 / 2) = 9007199254740991 := by
      show ⌊(18014398509481983 / 2 : ℚ)⌋ = 9007199254740991
      norm_num
    unfold roundHalfEven
    dsimp only
    rw [hf]
    norm_num
  rw [hr]
  norm_num

theorem floor_draw_bounds (rnd : Draw) (n : Nat) (k : Int) (hk : -1022 ≤ k)
    (hn1 : (2 : ℚ) ^ k < (n : ℚ)) (hn2 : (n : ℚ) ≤ (2 : ℚ) ^ (k + 1)) :
    0 ≤ Rat.floor (roundToDouble (rnd.r * (n : ℚ))) ∧
      Rat.floor (roundToDouble (rnd.r * (n : ℚ))) < (n : Int) := by
  have hn' : (0 : ℚ) < (n : ℚ) := lt_trans (by positivity) hn1
  constructor
  · rw [Rat.le_floor]
    simpa using roundToDouble_nonneg (mul_nonneg rnd.nonneg hn'.le)
  · rw [← Int.not_le, Rat.le_floor]
    simpa using roundToDouble_product_lt rnd n k hk hn1 hn2

/-! ## What each function leaves alone -/

theorem checkGameOver_cases (w : World) :
    checkGameOver w = .threw w ∨ checkGameOver w = .ok false w ∨
      ∃ reason, checkGameOver w = .ok true (endGame reason w) := by
  unfold checkGameOver
  repeat' split
  all_goals first
    | exact Or.inl rfl
    | exact Or.inr (Or.inl rfl)
    | exact Or.inr (Or.inr ⟨_, rfl⟩)

theorem applyPassiveEffects_cases (w : World) :
    ∃ R L, (applyPassiveEffects w = .threw { w with resources := R, narrativeLog := L } ∨
        applyPassiveEffects w = .ok () { w with resources := R, narrativeLog := L }) ∧
      R.schema = w.resources.schema := by
  simp only [applyPassiveEffects]
  repeat' split
  all_goals first
    | exact ⟨_, _, Or.inl rfl, rfl⟩
    | exact ⟨_, _, Or.inr rfl, rfl⟩
    | exact ⟨_, _, Or.inl rfl, by simp [setVal, log, Resources.schema_setVal]⟩
    | exact ⟨_, _, Or.inr rfl, by simp [setVal, log, Resources.schema_setVal]⟩

theorem nextDay_of_gameOver (rnd : Draw) (w : World) (h : w.gameOver = true) :
    nextDay rnd w = .ok () w := by
  simp [nextDay, h]

theorem nextDay_world (rnd : Draw) (w : World) (h : w.gameOver = false) :
    ∃ R L A G, (nextDay rnd w).world =
        { w with day := w.day + 1, resources := R, narrativeLog := L, actions := A, gameOver := G } ∧
      R.schema = w.resources.schema := by
  unfold nextDay
  rw [if_neg (by simp [h])]
  dsimp only
  obtain ⟨R, L, hp, hR⟩ := applyPassiveEffects_cases { w with day := w.day + 1 }
  rcases hp with hp | hp
  · rw [hp]
    exact ⟨R, L, _, _, rfl, hR⟩
  · rw [hp]
    dsimp only
    rcases checkGameOver_cases
        { w with day := w.day + 1, resources := R, narrativeLog := L } with hc | hc | ⟨reason, hc⟩
    · rw [hc]
      exact ⟨R, L, _, _, rfl, hR⟩
    · rw [hc]
      dsimp only
      rw [generateDailyEvent_eq]
      cases dailyEvent rnd { w with day := w.day + 1, resources := R, narrativeLog := L } with
      | none => exact ⟨R, L, _, _, rfl, hR⟩
      | some event => exact ⟨R, _, _, _, rfl, hR⟩
    · rw [hc]
      exact ⟨R, _, _, _, rfl, hR⟩

theorem resolveChoice_world (choice : Choice) (w : World) :
    ∃ L A G, (resolveChoice choice w).world =
        { w with resources := (applyEffects choice.effects w).resources,
                 narrativeLog := L, actions := A, gameOver := G } := by
  dsimp only [resolveChoice]
  have e := applyEffects_eq choice.effects w
  generalize applyEffects choice.effects w = w1 at e ⊢
  rcases checkGameOver_cases
      (log choice.outcome .normal (log ("> " ++ choice.label) .choice w1)) with hc | hc | ⟨reason, hc⟩
  · rw [hc, e]; exact ⟨_, _, _, rfl⟩
  · rw [hc, e]; exact ⟨_, _, _, rfl⟩
  · rw [hc, e]; exact ⟨_, _, _, rfl⟩

theorem startGame_world (role : String) (rnd : Draw) (w : World) :
    ∃ R L A, (startGame role rnd w).world =
      { w with role := some role, day := 1, gameOver := false,
               resources := R, narrativeLog := L, actions := A } := by
  dsimp only [startGame]
  cases w.ROLES.lookup role with
  | none => exact ⟨_, _, _, rfl⟩
  | some roleDef =>
    dsimp only
    rw [generateDailyEvent_eq]
    cases dailyEvent rnd
        { w with role := some role, day := 1, gameOver := false, resources := roleDef.stats } with
    | none => exact ⟨_, _, _, rfl⟩
    | some event => exact ⟨_, _, _, rfl⟩

theorem resolveChoice_resources (choice : Choice) (w : World) :
    (resolveChoice choice w).world.resources = (applyEffects choice.effects w).resources := by
  obtain ⟨L, A, G, h⟩ := resolveChoice_world choice w
  rw [h]

theorem resolveChoice_schema (choice : Choice) (w : World) :
    (resolveChoice choice w).world.resources.schema = w.resources.schema := by
  rw [resolveChoice_resources, applyEffects_schema]

theorem Resources.keys_eq_of_schema {rs rs' : Resources} (h : rs'.schema = rs.schema) :
    rs'.map Prod.fst = rs.map Prod.fst := by
  have h1 : ∀ r : Resources, r.map Prod.fst = r.schema.map Prod.fst := by
    intro r
    simp [Resources.schema, List.map_map, Function.comp_def]
  rw [h1 rs', h1 rs, h]

theorem applyEffect_resources_congr (k : String) (d : Int) (w w' : World)
    (h : w.resources = w'.resources) :
    (applyEffect k d w).resources = (applyEffect k d w').resources := by
  unfold applyEffect
  rw [h]
  cases w'.resources.lookup k with
  | none => exact h
  | some s =>
    simp only [setVal]
    rw [h]
    split <;> simp

theorem applyEffects_resources_congr (es : List (String × Int)) (w w' : World)
    (h : w.resources = w'.resources) :
    (applyEffects es w).resources = (applyEffects es w').resources := by
  induction es generalizing w w' with
  | nil => exact h
  | cons e es ih => exact ih _ _ (applyEffect_resources_congr e.1 e.2 w w' h)

theorem nextDay_day (rnd : Draw) (w : World) :
    (nextDay rnd w).world.day = if w.gameOver then w.day else w.day + 1 := by
  cases h : w.gameOver with
  | true => rw [nextDay_of_gameOver rnd w h]; rfl
  | false =>
    obtain ⟨R, L, A, G, hw, -⟩ := nextDay_world rnd w h
    rw [hw]; rfl

theorem resolveChoice_day (choice : Choice) (w : World) :
    (resolveChoice choice w).world.day = w.day := by
  obtain ⟨L, A, G, hw⟩ := resolveChoice_world choice w
  rw [hw]

theorem startGame_day (role : String) (rnd : Draw) (w : World) :
    (startGame role rnd w).world.day = 1 := by
  obtain ⟨R, L, A, hw⟩ := startGame_world role rnd w
  rw [hw]

/-! ## Pools -/

theorem pools_disjoint : ∀ event ∈ DENIZEN_EVENTS, event ∉ OCCUPIER_EVENTS := by decide

theorem getElem?_draw (pool : List Event) (rnd : Draw) (k : Int) (hk : -1022 ≤ k)
    (hn1 : (2 : ℚ) ^ k < (pool.length : ℚ)) (hn2 : (pool.length : ℚ) ≤ (2 : ℚ) ^ (k + 1)) :
    ∃ i : Nat, Rat.floor (roundToDouble (rnd.r * (pool.length : ℚ))) = (i : Int) ∧
      i < pool.length ∧
      ∃ event, pool.get? i = some event ∧ event ∈ pool ∧
        (if Rat.floor (roundToDouble (rnd.r * (pool.length : ℚ))) < 0 then none
          else pool.get? (Rat.floor (roundToDouble (rnd.r * (pool.length : ℚ)))).toNat) =
          some event := by
  obtain ⟨h0, h1⟩ := floor_draw_bounds rnd pool.length k hk hn1 hn2
  obtain ⟨i, hi⟩ := Int.eq_ofNat_of_zero_le h0
  have hlt : i < pool.length := by omega
  refine ⟨i, hi, hlt, pool.get ⟨i, hlt⟩, List.get?_eq_get hlt, List.get_mem _ _ _, ?_⟩
  rw [if_neg (by omega), hi]
  simp

theorem getElem?_draw_denizen (rnd : Draw) :
    ∃ i : Nat, Rat.floor (roundToDouble (rnd.r * (DENIZEN_EVENTS.length : ℚ))) = (i : Int) ∧
      i < DENIZEN_EVENTS.length ∧
      ∃ event, DENIZEN_EVENTS.get? i = some event ∧ event ∈ DENIZEN_EVENTS ∧
        getEventForRole (some "denizen") rnd = some event := by
  obtain ⟨i, hi, hlt, event, hget, hmem, hsel⟩ :=
    getElem?_draw DENIZEN_EVENTS rnd 1 (by norm_num)
      (by rw [show DENIZEN_EVENTS.length = 3 from rfl]; norm_num)
      (by rw [show DENIZEN_EVENTS.length = 3 from rfl]; norm_num)
  exact ⟨i, hi, hlt, event, hget, hmem, by simpa [getEventForRole] using hsel⟩

theorem getElem?_draw_occupier (role : Option String) (rnd : Draw)
    (hrole : role ≠ some "denizen") :
    ∃ i : Nat, Rat.floor (roundToDouble (rnd.r * (OCCUPIER_EVENTS.length : ℚ))) = (i : Int) ∧
      i < OCCUPIER_EVENTS.length ∧
      ∃ event, OCCUPIER_EVENTS.get? i = some event ∧ event ∈ OCCUPIER_EVENTS ∧
        getEventForRole role rnd = some event := by
  obtain ⟨i, hi, hlt, event, hget, hmem, hsel⟩ :=
    getElem?_draw OCCUPIER_EVENTS rnd 0 (by norm_num)
      (by rw [show OCCUPIER_EVENTS.length = 2 from rfl]; norm_num)
      (by rw [show OCCUPIER_EVENTS.length = 2 from rfl]; norm_num)
  exact ⟨i, hi, hlt, event, hget, hmem, by simpa [getEventForRole, hrole] using hsel⟩

theorem getEventForRole_mem (role : Option String) (rnd : Draw) :
    ∃ event, getEventForRole role rnd = some event ∧
      event ∈ (if role = some "denizen" then DENIZEN_EVENTS else OCCUPIER_EVENTS) := by
  by_cases hrole : role = some "denizen"
  · obtain ⟨i, hi, hlt, event, hget, hmem, hsel⟩ := getElem?_draw_denizen rnd
    exact ⟨event, by rw [hrole]; exact hsel, by simpa [hrole] using hmem⟩
  · obtain ⟨i, hi, hlt, event, hget, hmem, hsel⟩ := getElem?_draw_occupier role rnd hrole
    exact ⟨event, hsel, by simpa [hrole] using hmem⟩

theorem pool_not_scripted :
    ∀ event ∈ DENIZEN_EVENTS ++ OCCUPIER_EVENTS, ¬ event.isScripted := by decide

/-! ## Sessions given by their calls -/

theorem reachable_runCalls (role : String) (calls : List Call) (w : World)
    (hw : Reachable role w) (hcalls : calls.all (Call.allowed role) = true) :
    Reachable role (runCalls calls w) := by
  induction calls generalizing w with
  | nil => exact hw
  | cons call calls ih =>
    simp only [List.all_cons, Bool.and_eq_true] at hcalls
    apply ih _ _ hcalls.2
    cases call with
    | day rnd => exact Reachable.day rnd hw
    | choose choice =>
      exact Reachable.choose choice hw (by simpa [Call.allowed] using hcalls.1)

theorem reachable_freshSession (role : String) : Reachable role (freshSession role) :=
  Reachable.start World.init drawZero rfl

theorem reachable_occupierOutOfRations : Reachable "occupier" occupierOutOfRations :=
  reachable_runCalls _ _ _ (reachable_freshSession _) (by decide)

theorem reachable_denizenWeak : Reachable "denizen" denizenWeak :=
  reachable_runCalls _ _ _ (reachable_freshSession _) (by decide)

theorem reachable_occupierOverthrown : Reachable "occupier" occupierOverthrown :=
  reachable_runCalls _ _ _ (reachable_freshSession _) (by decide)

/-! ## The catalog objects are never written -/

theorem nextDay_catalog (rnd : Draw) (w : World) :
    (nextDay rnd w).world.ROLES = w.ROLES ∧
      (nextDay rnd w).world.MIDTOWN_ESCAPE_EVENT = w.MIDTOWN_ESCAPE_EVENT := by
  cases h : w.gameOver with
  | true => rw [nextDay_of_gameOver rnd w h]; exact ⟨rfl, rfl⟩
  | false =>
    obtain ⟨R, L, A, G, hw, -⟩ := nextDay_world rnd w h
    rw [hw]; exact ⟨rfl, rfl⟩

theorem resolveChoice_catalog (choice : Choice) (w : World) :
    (resolveChoice choice w).world.ROLES = w.ROLES ∧
      (resolveChoice choice w).world.MIDTOWN_ESCAPE_EVENT = w.MIDTOWN_ESCAPE_EVENT := by
  obtain ⟨L, A, G, hw⟩ := resolveChoice_world choice w
  rw [hw]; exact ⟨rfl, rfl⟩

theorem startGame_catalog (role : String) (rnd : Draw) (w : World) :
    (startGame role rnd w).world.ROLES = w.ROLES ∧
      (startGame role rnd w).world.MIDTOWN_ESCAPE_EVENT = w.MIDTOWN_ESCAPE_EVENT := by
  obtain ⟨R, L, A, hw⟩ := startGame_world role rnd w
  rw [hw]; exact ⟨rfl, rfl⟩

theorem runCalls_catalog (calls : List Call) (w : World) :
    (runCalls calls w).ROLES = w.ROLES ∧
      (runCalls calls w).MIDTOWN_ESCAPE_EVENT = w.MIDTOWN_ESCAPE_EVENT := by
  induction calls generalizing w with
  | nil => exact ⟨rfl, rfl⟩
  | cons call calls ih =>
    have h := ih (call.run w)
    have hc : (call.run w).ROLES = w.ROLES ∧
        (call.run w).MIDTOWN_ESCAPE_EVENT = w.MIDTOWN_ESCAPE_EVENT := by
      cases call with
      | day rnd => exact nextDay_catalog rnd w
      | choose choice => exact resolveChoice_catalog choice w
    exact ⟨h.1.trans hc.1, h.2.trans hc.2⟩

/-! ## Passive effects, stat by stat -/

theorem applyPassiveEffects_occupier (w : World) (unrest resources : Stat)
    (hrole : w.role ≠ some "denizen")
    (hu : w.resources.lookup "unrest" = some unrest)
    (hr : w.resources.lookup "resources" = some resources) :
    applyPassiveEffects w =
      .ok ()
        { w with
          resources :=
            (w.resources.setVal "unrest" (min 100 (unrest.val + 5))).setVal "resources"
              (resources.val - 5) } := by
  have h2 : ((w.resources.setVal "unrest" (min 100 (unrest.val + 5))).lookup "resources") =
      some resources := by
    rw [Resources.lookup_setVal, if_neg (by decide), hr]
  simp only [applyPassiveEffects, if_neg hrole, statVal, hu, Option.map_some', setVal, h2]

theorem applyPassiveEffects_denizen (w : World) (hunger suspicion health : Stat)
    (hrole : w.role = some "denizen")
    (hh : w.resources.lookup "hunger" = some hunger)
    (hs : w.resources.lookup "suspicion" = some suspicion)
    (hl : w.resources.lookup "health" = some health) :
    applyPassiveEffects w =
      if min 100 (hunger.val + 10) ≥ 90 then
        .ok ()
          { w with
            resources :=
              ((w.resources.setVal "hunger" (min 100 (hunger.val + 10))).setVal "suspicion"
                (max 0 (suspicion.val - 5))).setVal "health" (health.val - 10)
            narrativeLog :=
              { text := "You are starving...", severity := .warning } :: w.narrativeLog }
      else
        .ok ()
          { w with
            resources :=
              (w.resources.setVal "hunger" (min 100 (hunger.val + 10))).setVal "suspicion"
                (max 0 (suspicion.val - 5)) } := by
  have h1 : ((w.resources.setVal "hunger" (min 100 (hunger.val + 10))).lookup "suspicion") =
      some suspicion := by
    rw [Resources.lookup_setVal, if_neg (by decide), hs]
  have h2 : (((w.resources.setVal "hunger" (min 100 (hunger.val + 10))).setVal "suspicion"
      (max 0 (suspicion.val - 5))).lookup "hunger") =
      some { hunger with val := min 100 (hunger.val + 10) } := by
    rw [Resources.lookup_setVal, if_neg (by decide), Resources.lookup_setVal, if_pos rfl, hh]
    rfl
  have h3 : (((w.resources.setVal "hunger" (min 100 (hunger.val + 10))).setVal "suspicion"
      (max 0 (suspicion.val - 5))).lookup "health") = some health := by
    rw [Resources.lookup_setVal, if_neg (by decide), Resources.lookup_setVal, if_neg (by decide),
      hl]
  simp only [applyPassiveEffects, hrole, if_true, statVal, hh, Option.map_some', setVal, h1, h2,
    log, h3]

/-! ## Worlds in a session -/

theorem resources_of_schema_denizen (rs : Resources)
    (h : rs.schema = (denizenStats 20 0 100 5).schema) :
    ∃ hunger suspicion health supplies, rs = denizenStats hunger suspicion health supplies := by
  match rs, h with
  | [(k1, s1), (k2, s2), (k3, s3), (k4, s4)], h =>
    simp only [Resources.schema, denizenStats, List.map_cons, List.map_nil, List.cons.injEq,
      Prod.mk.injEq, and_true] at h
    obtain ⟨⟨rfl, h1m, h1l⟩, ⟨rfl, h2m, h2l⟩, ⟨rfl, h3m, h3l⟩, ⟨rfl, h4m, h4l⟩⟩ := h
    refine ⟨s1.val, s2.val, s3.val, s4.val, ?_⟩
    cases s1; cases s2; cases s3; cases s4
    simp_all [denizenStats]
  | [], h => simp [Resources.schema, denizenStats] at h
  | [_], h => simp [Resources.schema, denizenStats] at h
  | [_, _], h => simp [Resources.schema, denizenStats] at h
  | [_, _, _], h => simp [Resources.schema, denizenStats] at h
  | _ :: _ :: _ :: _ :: _ :: _, h => simp [Resources.schema, denizenStats] at h

theorem resources_of_schema_occupier (rs : Resources)
    (h : rs.schema = (occupierStats 80 100 20 50).schema) :
    ∃ control resources unrest manpower, rs = occupierStats control resources unrest manpower := by
  match rs, h with
  | [(k1, s1), (k2, s2), (k3, s3), (k4, s4)], h =>
    simp only [Resources.schema, occupierStats, List.map_cons, List.map_nil, List.cons.injEq,
      Prod.mk.injEq, and_true] at h
    obtain ⟨⟨rfl, h1m, h1l⟩, ⟨rfl, h2m, h2l⟩, ⟨rfl, h3m, h3l⟩, ⟨rfl, h4m, h4l⟩⟩ := h
    refine ⟨s1.val, s2.val, s3.val, s4.val, ?_⟩
    cases s1; cases s2; cases s3; cases s4
    simp_all [occupierStats]
  | [], h => simp [Resources.schema, occupierStats] at h
  | [_], h => simp [Resources.schema, occupierStats] at h
  | [_, _], h => simp [Resources.schema, occupierStats] at h
  | [_, _, _], h => simp [Resources.schema, occupierStats] at h
  | _ :: _ :: _ :: _ :: _ :: _, h => simp [Resources.schema, occupierStats] at h

theorem ROLES_lookup_denizen :
    ROLES.lookup "denizen" =
      some { name := "The Denizen", stats := denizenStats 20 0 100 5,
             themeClass := "mode-denizen" } := by
  decide

theorem ROLES_lookup_occupier :
    ROLES.lookup "occupier" =
      some { name := "The Occupier", stats := occupierStats 80 100 20 50,
             themeClass := "mode-occupier" } := by
  decide

theorem ROLES_lookup_other (role : String) (h1 : role ≠ "denizen") (h2 : role ≠ "occupier") :
    ROLES.lookup role = none := by
  have e1 : (role == "denizen") = false := by simpa using h1
  have e2 : (role == "occupier") = false := by simpa using h2
  simp [ROLES, List.lookup, e1, e2]

theorem InSession.role_valid {role : String} {w : World} (h : InSession role w) :
    role = "denizen" ∨ role = "occupier" := by
  obtain ⟨-, roleDef, hl, -⟩ := h
  by_contra hne
  rw [not_or] at hne
  rw [ROLES_lookup_other role hne.1 hne.2] at hl
  cases hl

theorem inSession_denizen (w : World) :
    InSession "denizen" w ↔
      w.role = some "denizen" ∧
        ∃ hunger suspicion health supplies,
          w.resources = denizenStats hunger suspicion health supplies := by
  constructor
  · rintro ⟨hr, roleDef, hl, hs⟩
    rw [ROLES_lookup_denizen] at hl
    cases hl
    exact ⟨hr, resources_of_schema_denizen _ hs⟩
  · rintro ⟨hr, h, s, l, p, hres⟩
    exact ⟨hr, _, ROLES_lookup_denizen, by rw [hres]; rfl⟩

theorem inSession_occupier (w : World) :
    InSession "occupier" w ↔
      w.role = some "occupier" ∧
        ∃ control resources unrest manpower,
          w.resources = occupierStats control resources unrest manpower := by
  constructor
  · rintro ⟨hr, roleDef, hl, hs⟩
    rw [ROLES_lookup_occupier] at hl
    cases hl
    exact ⟨hr, resources_of_schema_occupier _ hs⟩
  · rintro ⟨hr, c, r, u, m, hres⟩
    exact ⟨hr, _, ROLES_lookup_occupier, by rw [hres]; rfl⟩

theorem dailyEvent_some (rnd : Draw) (w : World) : ∃ event, dailyEvent rnd w = some event := by
  by_cases hcond : w.day = 1 ∧ w.role = some "denizen"
  · simp only [dailyEvent, if_pos hcond]
    exact ⟨_, rfl⟩
  · obtain ⟨event, hsel, -⟩ := getEventForRole_mem w.role rnd
    exact ⟨event, by simp only [dailyEvent, if_neg hcond, hsel]⟩

theorem specCheckTermination_congr (role : String) (w w' : World)
    (h : w.resources = w'.resources) :
    specCheckTermination role w = specCheckTermination role w' := by
  have hh : ∀ rule : TerminationRule, rule.holds w = rule.holds w' := by
    intro rule
    simp only [TerminationRule.holds, statVal, h]
  simp only [specCheckTermination, hh]

theorem InSession.congr {role : String} {w w' : World} (h : InSession role w)
    (hr : w'.role = w.role) (hs : w'.resources.schema = w.resources.schema) :
    InSession role w' := by
  obtain ⟨h1, roleDef, h2, h3⟩ := h
  exact ⟨hr.trans h1, roleDef, h2, hs.trans h3⟩

theorem checkGameOver_inSession (role : String) (w : World) (h : InSession role w) :
    checkGameOver w =
      match specCheckTermination role w with
      | some reason => .ok true (endGame reason w)
      | none => .ok false w := by
  rcases h.role_valid with rfl | rfl
  · obtain ⟨hrole, hunger, suspicion, health, supplies, hres⟩ := (inSession_denizen w).1 h
    have hh : statVal w "health" = some health := by simp [statVal, hres, denizenStats, List.lookup]
    have hs : statVal w "suspicion" = some suspicion := by
      simp [statVal, hres, denizenStats, List.lookup]
    have hu : statVal w "hunger" = some hunger := by simp [statVal, hres, denizenStats, List.lookup]
    simp only [checkGameOver, hrole, if_true, hh, hs, hu, specCheckTermination,
      specTerminationTable, List.find?_cons, TerminationRule.holds, Threshold.crossedBy]
    by_cases c1 : health ≤ 0
    · simp [c1]
    · by_cases c2 : suspicion ≥ 100
      · simp [c1, c2]
      · by_cases c3 : hunger ≥ 100
        · simp [c1, c2, c3]
        · simp [c1, c2, c3]
  · obtain ⟨hrole, control, resources, unrest, manpower, hres⟩ := (inSession_occupier w).1 h
    have hc : statVal w "control" = some control := by
      simp [statVal, hres, occupierStats, List.lookup]
    have hu : statVal w "unrest" = some unrest := by simp [statVal, hres, occupierStats, List.lookup]
    have hne : ¬ (some "occupier" = some "denizen") := by decide
    simp only [checkGameOver, hrole, hne, if_false, hc, hu, specCheckTermination,
      specTerminationTable, List.find?_cons, TerminationRule.holds, Threshold.crossedBy]
    by_cases c1 : control ≤ 0
    · simp [c1, hc, hu, List.find?_cons]
    · by_cases c2 : unrest ≥ 100
      · simp [c1, c2, hc, hu, List.find?_cons]
      · simp [c1, c2, hc, hu, List.find?_cons]

theorem applyPassiveEffects_inSession (role : String) (w : World) (h : InSession role w) :
    ∃ R L, applyPassiveEffects w = .ok () { w with resources := R, narrativeLog := L } ∧
      R.schema = w.resources.schema ∧
      (L = w.narrativeLog ∨
        L = { text := "You are starving...", severity := .warning } :: w.narrativeLog) := by
  rcases h.role_valid with rfl | rfl
  · obtain ⟨hrole, hunger, suspicion, health, supplies, hres⟩ := (inSession_denizen w).1 h
    rw [applyPassiveEffects_denizen w ⟨hunger, 100, _⟩ ⟨suspicion, 100, _⟩ ⟨health, 100, _⟩ hrole
      (by rw [hres]; rfl) (by rw [hres]; rfl) (by rw [hres]; rfl)]
    split
    · exact ⟨_, _, rfl, by simp [Resources.schema_setVal], Or.inr rfl⟩
    · exact ⟨_, _, rfl, by simp [Resources.schema_setVal], Or.inl rfl⟩
  · obtain ⟨hrole, control, resources, unrest, manpower, hres⟩ := (inSession_occupier w).1 h
    rw [applyPassiveEffects_occupier w ⟨unrest, 100, _⟩ ⟨resources, 500, _⟩
      (by rw [hrole]; decide) (by rw [hres]; rfl) (by rw [hres]; rfl)]
    exact ⟨_, _, rfl, by simp [Resources.schema_setVal], Or.inl rfl⟩

theorem nextDay_inSession (rnd : Draw) (w : World) (role : String) (hs : InSession role w)
    (hg : w.gameOver = false) :
    ∃ w1, applyPassiveEffects { w with day := w.day + 1 } = .ok () w1 ∧
      InSession role w1 ∧ w1.day = w.day + 1 ∧ w1.gameOver = false ∧
      w1.role = w.role ∧ w1.location = w.location ∧
      (w1.narrativeLog = w.narrativeLog ∨
        w1.narrativeLog =
          { text := "You are starving...", severity := .warning } :: w.narrativeLog) ∧
      nextDay rnd w =
        match specCheckTermination role w1 with
        | some reason => .ok () (endGame reason w1)
        | none =>
          match dailyEvent rnd w1 with
          | none => .threw { w1 with actions := [] }
          | some event =>
            .ok ()
              { w1 with
                narrativeLog :=
                  { text := event.description, severity := .normal } ::
                    { text := "Day " ++ toString w1.day ++ ": " ++ event.title,
                      severity := .normal } :: w1.narrativeLog
                actions := event.choices.map fun choice =>
                  { text := choice.label, onClick := .resolve choice, disabled := false } } := by
  have hs0 : InSession role { w with day := w.day + 1 } := hs.congr rfl rfl
  obtain ⟨R, L, hp, hR, hL⟩ := applyPassiveEffects_inSession role _ hs0
  have hs1 : InSession role
      { ({ w with day := w.day + 1 } : World) with resources := R, narrativeLog := L } :=
    hs0.congr rfl hR
  refine ⟨_, hp, hs1, rfl, hg, rfl, rfl, hL, ?_⟩
  have hc := checkGameOver_inSession role _ hs1
  unfold nextDay
  rw [if_neg (by simp [hg])]
  dsimp only
  rw [hp]
  dsimp only
  rw [hc]
  cases specCheckTermination role
      { ({ w with day := w.day + 1 } : World) with resources := R, narrativeLog := L } with
  | some reason => rfl
  | none =>
    dsimp only
    rw [generateDailyEvent_eq]
    cases dailyEvent rnd
        { ({ w with day := w.day + 1 } : World) with resources := R, narrativeLog := L } with
    | none => rfl
    | some event => rfl

theorem offeredChoices_buttons (w : World) (cs : List Choice)
    (h : w.actions =
      cs.map fun choice =>
        { text := choice.label, onClick := .resolve choice, disabled := false }) :
    offeredChoices w = cs := by
  simp only [offeredChoices, h]
  clear h
  induction cs with
  | nil => rfl
  | cons c cs ih => simp [List.filterMap_cons, ih]

theorem statVal_occupierStats (w : World) (c r u m : Int) (h : w.resources = occupierStats c r u m) :
    statVal w "control" = some c ∧ statVal w "resources" = some r ∧
      statVal w "unrest" = some u ∧ statVal w "manpower" = some m := by
  simp [statVal, h, occupierStats, List.lookup]

theorem statVal_denizenStats (w : World) (h s l p : Int) (hres : w.resources = denizenStats h s l p) :
    statVal w "hunger" = some h ∧ statVal w "suspicion" = some s ∧
      statVal w "health" = some l ∧ statVal w "supplies" = some p := by
  simp [statVal, hres, denizenStats, List.lookup]

theorem specCheckTermination_occupier (w : World) (c r u m : Int)
    (h : w.resources = occupierStats c r u m) :
    specCheckTermination "occupier" w =
      if c ≤ 0 then some "The city has fallen to the rebellion. You are forced to flee."
      else if u ≥ 100 then some "A massive uprising has overthrown your command center."
      else none := by
  obtain ⟨hc, -, hu, -⟩ := statVal_occupierStats w c r u m h
  simp only [specCheckTermination, specTerminationTable, List.find?_cons,
    TerminationRule.holds, Threshold.crossedBy, hc, hu]
  by_cases c1 : c ≤ 0
  · simp [c1, hc, hu, List.find?_cons]
  · by_cases c2 : u ≥ 100
    · simp [c1, c2, hc, hu, List.find?_cons]
    · simp [c1, c2, hc, hu, List.find?_cons]

theorem specCheckTermination_denizen (w : World) (h s l p : Int)
    (hres : w.resources = denizenStats h s l p) :
    specCheckTermination "denizen" w =
      if l ≤ 0 then some "You succumbed to your injuries. The city claimed another soul."
      else if s ≥ 100 then
        some "The secret police kicked down your door. You were never seen again."
      else if h ≥ 100 then some "Starvation has taken you."
      else none := by
  obtain ⟨hh, hs, hl, -⟩ := statVal_denizenStats w h s l p hres
  simp only [specCheckTermination, specTerminationTable, List.find?_cons,
    TerminationRule.holds, Threshold.crossedBy, hh, hs, hl]
  by_cases c1 : l ≤ 0
  · simp [c1, hh, hs, hl, List.find?_cons]
  · by_cases c2 : s ≥ 100
    · simp [c1, c2, hh, hs, hl, List.find?_cons]
    · by_cases c3 : h ≥ 100
      · simp [c1, c2, c3, hh, hs, hl, List.find?_cons]
      · simp [c1, c2, c3, hh, hs, hl, List.find?_cons]

theorem nextDay_occupier_step (rnd : Draw) (w : World) (c r u m : Int)
    (hrole : w.role = some "occupier") (hres : w.resources = occupierStats c r u m)
    (hg : w.gameOver = false) (hc : 0 < c) :
    (nextDay rnd w).world.role = some "occupier" ∧
    (nextDay rnd w).world.resources = occupierStats c (r - 5) (min 100 (u + 5)) m ∧
    (nextDay rnd w).world.day = w.day + 1 ∧
    (min 100 (u + 5) < 100 → (nextDay rnd w).world.gameOver = false) ∧
    (100 ≤ min 100 (u + 5) →
      (nextDay rnd w).world.gameOver = true ∧
      (nextDay rnd w).world.narrativeLog =
        { text := "A massive uprising has overthrown your command center.",
          severity := .warning } ::
          { text := "GAME OVER", severity := .warning } :: w.narrativeLog) := by
  have hs : InSession "occupier" w := (inSession_occupier w).2 ⟨hrole, c, r, u, m, hres⟩
  obtain ⟨w1, hp, hs1, hd, hg1, hr1, -, -, hn⟩ := nextDay_inSession rnd w "occupier" hs hg
  have hp' := applyPassiveEffects_occupier { w with day := w.day + 1 }
    ⟨u, 100, "Civil Unrest"⟩ ⟨r, 500, "Rations Stock"⟩ (by rw [show _ = w.role from rfl, hrole]; decide)
    (by rw [show _ = w.resources from rfl, hres]; rfl)
    (by rw [show _ = w.resources from rfl, hres]; rfl)
  rw [hp'] at hp
  injection hp with _ hw1
  have hres1 : w1.resources = occupierStats c (r - 5) (min 100 (u + 5)) m := by
    rw [← hw1]
    simp [hres, occupierStats, Resources.setVal]
  have hlog1 : w1.narrativeLog = w.narrativeLog := by rw [← hw1]
  have hspec := specCheckTermination_occupier w1 _ _ _ _ hres1
  rw [if_neg (by omega)] at hspec
  obtain ⟨event, he⟩ := dailyEvent_some rnd w1
  by_cases hu : 100 ≤ min 100 (u + 5)
  · rw [if_pos hu] at hspec
    rw [hn, hspec]
    refine ⟨hr1.trans hrole, hres1, hd, fun h => absurd hu (by omega), fun _ => ⟨rfl, ?_⟩⟩
    simp only [Result.world, endGame, log, clearActions, createActionButton, hlog1]
  · rw [if_neg hu] at hspec
    rw [hn, hspec]
    dsimp only
    rw [he]
    exact ⟨hr1.trans hrole, hres1, hd, fun _ => hg1, fun h => absurd h hu⟩

theorem startGame_ok (role : String) (rnd : Draw) (w : World) (roleDef : RoleDef)
    (hl : w.ROLES.lookup role = some roleDef) :
    ∃ L A, startGame role rnd w =
      .ok ()
        { w with role := some role, day := 1, gameOver := false, resources := roleDef.stats,
                 narrativeLog := L, actions := A } := by
  dsimp only [startGame]
  rw [hl]
  dsimp only
  rw [generateDailyEvent_eq]
  obtain ⟨event, he⟩ := dailyEvent_some rnd
    { w with role := some role, day := 1, gameOver := false, resources := roleDef.stats }
  rw [he]
  exact ⟨_, _, rfl⟩

theorem runCalls_cons (call : Call) (calls : List Call) (w : World) :
    runCalls (call :: calls) w = runCalls calls (call.run w) := rfl

theorem runCalls_append (calls calls' : List Call) (w : World) :
    runCalls (calls ++ calls') w = runCalls calls' (runCalls calls w) := by
  simp [runCalls, List.foldl_append]

theorem occupier_quiet_days (draws : List Draw) (w : World) (r u : Int)
    (hrole : w.role = some "occupier") (hres : w.resources = occupierStats 80 r u 50)
    (hg : w.gameOver = false) (hu : u + 5 * draws.length < 100) :
    (runCalls (draws.map Call.day) w).role = some "occupier" ∧
    (runCalls (draws.map Call.day) w).resources =
      occupierStats 80 (r - 5 * draws.length) (u + 5 * draws.length) 50 ∧
    (runCalls (draws.map Call.day) w).gameOver = false ∧
    (runCalls (draws.map Call.day) w).day = w.day + draws.length := by
  induction draws generalizing w r u with
  | nil =>
    refine ⟨hrole, ?_, hg, ?_⟩
    · simpa [runCalls] using hres
    · simp [runCalls]
  | cons d ds ih =>
    simp only [List.length_cons, Nat.cast_add, Nat.cast_one] at hu ⊢
    obtain ⟨h1, h2, h3, h4, -⟩ := nextDay_occupier_step d w 80 r u 50 hrole hres hg (by decide)
    have hmin : min 100 (u + 5) = u + 5 := min_eq_right (by omega)
    rw [hmin] at h2 h4
    rw [List.map_cons, runCalls_cons]
    obtain ⟨i1, i2, i3, i4⟩ := ih (Call.run (.day d) w) (r - 5) (u + 5) h1 h2 (h4 (by omega))
      (by omega)
    refine ⟨i1, ?_, i3, ?_⟩
    · rw [i2]; congr 1 <;> ring
    · rw [i4]
      show (nextDay d w).world.day + _ = _
      rw [h3]; ring

theorem resolveChoice_inSession (choice : Choice) (w : World) (role : String)
    (hs : InSession role w) :
    resolveChoice choice w =
      match specCheckTermination role (applyEffects choice.effects w) with
      | some reason =>
        .ok ()
          (endGame reason
            (log choice.outcome .normal
              (log ("> " ++ choice.label) .choice (applyEffects choice.effects w))))
      | none =>
        .ok ()
          (createActionButton "End Day" .endDay
            (log choice.outcome .normal
              (log ("> " ++ choice.label) .choice (applyEffects choice.effects w)))) := by
  have hs1 : InSession role (applyEffects choice.effects w) :=
    hs.congr (by rw [applyEffects_eq]) (applyEffects_schema _ _)
  have hs3 : InSession role
      (log choice.outcome .normal
        (log ("> " ++ choice.label) .choice (applyEffects choice.effects w))) :=
    hs1.congr rfl rfl
  have hc := checkGameOver_inSession role _ hs3
  have hcong : specCheckTermination role
      (log choice.outcome .normal
        (log ("> " ++ choice.label) .choice (applyEffects choice.effects w))) =
      specCheckTermination role (applyEffects choice.effects w) :=
    specCheckTermination_congr role _ _ rfl
  rw [hcong] at hc
  dsimp only [resolveChoice]
  rw [hc]
  cases specCheckTermination role (applyEffects choice.effects w) with
  | some reason => rfl
  | none => rfl

theorem applyEffects_narrativeLog (es : List (String × Int)) (w : World) :
    (applyEffects es w).narrativeLog = w.narrativeLog ∧
      (applyEffects es w).gameOver = w.gameOver ∧ (applyEffects es w).day = w.day := by
  rw [applyEffects_eq]
  exact ⟨rfl, rfl, rfl⟩

theorem mem_offeredChoices (w : World) (i : Nat) (b : Button) (c : Choice)
    (hb : w.actions.get? i = some b) (hc : b.onClick = .resolve c) : c ∈ offeredChoices w := by
  simp only [offeredChoices, List.mem_filterMap]
  exact ⟨b, List.get?_mem hb, by rw [hc]⟩

/-! ## Steps of a Denizen session -/

theorem denizen_catalog_hunger :
    ∀ c ∈ catalogChoices "denizen",
      (c.effects.map Prod.fst).Nodup ∧ ∀ e ∈ c.effects, e.1 = "hunger" → 0 ≤ e.2 := by
  decide

theorem specCheckTermination_denizen_of_hunger (w : World) (h s l p : Int)
    (hres : w.resources = denizenStats h s l p) (hfull : 100 ≤ h) :
    specCheckTermination "denizen" w ≠ none := by
  rw [specCheckTermination_denizen w h s l p hres]
  split_ifs <;> simp

theorem nextDay_denizen_step (rnd : Draw) (w : World) (h s l p : Int)
    (hrole : w.role = some "denizen") (hres : w.resources = denizenStats h s l p)
    (hg : w.gameOver = false) :
    ∃ l', (nextDay rnd w).world.role = some "denizen" ∧
      (nextDay rnd w).world.resources = denizenStats (min 100 (h + 10)) (max 0 (s - 5)) l' p ∧
      (nextDay rnd w).world.day = w.day + 1 ∧
      (100 ≤ min 100 (h + 10) → (nextDay rnd w).world.gameOver = true) := by
  have hs : InSession "denizen" w := (inSession_denizen w).2 ⟨hrole, h, s, l, p, hres⟩
  obtain ⟨w1, hp, hs1, hd, hg1, hr1, -, -, hn⟩ := nextDay_inSession rnd w "denizen" hs hg
  have hp' := applyPassiveEffects_denizen { w with day := w.day + 1 }
    ⟨h, 100, "Hunger (Low is Good)"⟩ ⟨s, 100, "Suspicion"⟩ ⟨l, 100, "Health"⟩
    (by rw [show _ = w.role from rfl, hrole])
    (by rw [show _ = w.resources from rfl, hres]; rfl)
    (by rw [show _ = w.resources from rfl, hres]; rfl)
    (by rw [show _ = w.resources from rfl, hres]; rfl)
  rw [hp'] at hp
  have hres1 : ∃ l', w1.resources = denizenStats (min 100 (h + 10)) (max 0 (s - 5)) l' p := by
    split at hp
    · injection hp with _ hw1
      refine ⟨l - 10, ?_⟩
      rw [← hw1]
      simp [hres, denizenStats, Resources.setVal]
    · injection hp with _ hw1
      refine ⟨l, ?_⟩
      rw [← hw1]
      simp [hres, denizenStats, Resources.setVal]
  obtain ⟨l', hres1⟩ := hres1
  obtain ⟨event, he⟩ := dailyEvent_some rnd w1
  refine ⟨l', ?_, ?_, ?_, ?_⟩
  · rw [hn]
    cases specCheckTermination "denizen" w1 with
    | some reason => exact hr1.trans hrole
    | none => dsimp only; rw [he]; exact hr1.trans hrole
  · rw [hn]
    cases specCheckTermination "denizen" w1 with
    | some reason => exact hres1
    | none => dsimp only; rw [he]; exact hres1
  · rw [hn]
    cases specCheckTermination "denizen" w1 with
    | some reason => exact hd
    | none => dsimp only; rw [he]; exact hd
  · intro hfull
    rw [hn]
    cases hsp : specCheckTermination "denizen" w1 with
    | some reason => rfl
    | none => exact absurd hsp (specCheckTermination_denizen_of_hunger _ _ _ _ _ hres1 hfull)

theorem resolveChoice_denizen_step (choice : Choice) (w : World) (h s l p : Int)
    (hmem : choice ∈ catalogChoices "denizen")
    (hrole : w.role = some "denizen") (hres : w.resources = denizenStats h s l p)
    (hh : h ≤ 100) :
    ∃ h' s' l' p', (resolveChoice choice w).world.role = some "denizen" ∧
      (resolveChoice choice w).world.resources = denizenStats h' s' l' p' ∧
      h ≤ h' ∧ h' ≤ 100 ∧
      (100 ≤ h' → (resolveChoice choice w).world.gameOver = true) ∧
      (w.gameOver = true → (resolveChoice choice w).world.gameOver = true) ∧
      (resolveChoice choice w).world.day = w.day := by
  have hs : InSession "denizen" w := (inSession_denizen w).2 ⟨hrole, h, s, l, p, hres⟩
  have hr := resolveChoice_inSession choice w "denizen" hs
  have hs1 : InSession "denizen" (applyEffects choice.effects w) :=
    hs.congr (by rw [applyEffects_eq]) (applyEffects_schema _ _)
  obtain ⟨hrole1, h', s', l', p', hres1⟩ := (inSession_denizen _).1 hs1
  obtain ⟨-, hg1, hd1⟩ := applyEffects_narrativeLog choice.effects w
  obtain ⟨hnd, hpos⟩ := denizen_catalog_hunger choice hmem
  have hlook : w.resources.lookup "hunger" = some ⟨h, 100, "Hunger (Low is Good)"⟩ := by
    rw [hres]; rfl
  have hlook1 : (applyEffects choice.effects w).resources.lookup "hunger" =
      some ⟨h', 100, "Hunger (Low is Good)"⟩ := by
    rw [hres1]; rfl
  have hbound : h ≤ h' ∧ h' ≤ 100 := by
    by_cases hk : "hunger" ∈ choice.effects.map Prod.fst
    · obtain ⟨e, he, hfst⟩ := List.mem_map.1 hk
      have hd := hpos e he hfst
      have hmem' : ("hunger", e.2) ∈ choice.effects := by rw [← hfst]; exact he
      rw [applyEffects_lookup_of_mem _ _ _ _ hnd hmem', hlook] at hlook1
      simp only [Option.map_some', Stat.bump, clamp, Option.some.injEq, Stat.mk.injEq,
        and_true] at hlook1
      rw [← hlook1]
      constructor
      · rw [le_max_iff, le_min_iff]; right; constructor <;> omega
      · rw [max_le_iff]; exact ⟨by omega, min_le_left _ _⟩
    · rw [applyEffects_lookup_of_not_mem _ _ _ hk, hlook] at hlook1
      simp only [Option.some.injEq, Stat.mk.injEq, and_true] at hlook1
      omega
  generalize applyEffects choice.effects w = w1 at hr hres1 hrole1 hg1 hd1
  refine ⟨h', s', l', p', ?_, ?_, hbound.1, hbound.2, ?_, ?_, ?_⟩
  · rw [hr]
    cases specCheckTermination "denizen" w1 with
    | some reason => exact hrole1
    | none => exact hrole1
  · rw [hr]
    cases specCheckTermination "denizen" w1 with
    | some reason => exact hres1
    | none => exact hres1
  · intro hfull
    rw [hr]
    cases hsp : specCheckTermination "denizen" w1 with
    | some reason => rfl
    | none => exact absurd hsp (specCheckTermination_denizen_of_hunger _ _ _ _ _ hres1 hfull)
  · intro hgo
    rw [hr]
    cases specCheckTermination "denizen" w1 with
    | some reason => rfl
    | none => exact hg1.trans hgo
  · rw [hr]
    cases specCheckTermination "denizen" w1 with
    | some reason => exact hd1
    | none => exact hd1

theorem DenizenInvariant.step {n : Nat} {w : World} (hinv : DenizenInvariant n w) (call : Call)
    (hcall : call.allowed "denizen" = true) :
    DenizenInvariant (n + if call.isDay then 1 else 0) (call.run w) ∧
      ∃ hunger hunger', statVal w "hunger" = some hunger ∧
        statVal (call.run w) "hunger" = some hunger' ∧ hunger ≤ hunger' := by
  obtain ⟨hrole, h, s, l, p, hres, hlo, hhi, hfull, hd1, hd9, hcount⟩ := hinv
  have hstat := (statVal_denizenStats w h s l p hres).1
  cases call with
  | day rnd =>
    simp only [Call.run, Call.isDay, if_true]
    cases hg : w.gameOver with
    | true =>
      rw [nextDay_of_gameOver rnd w hg]
      exact ⟨⟨hrole, h, s, l, p, hres, hlo, hhi, hfull, hd1, hd9, Or.inl hg⟩,
        h, h, hstat, hstat, le_refl _⟩
    | false =>
      have hlt : h < 100 := by
        by_contra hcon
        have := hfull (by omega)
        rw [hg] at this
        cases this
      have hday : 20 + 10 * (w.day - 1) ≤ h := by
        rcases min_le_iff.1 hlo with h1 | h1
        · omega
        · exact h1
      obtain ⟨l', k1, k2, k3, k4⟩ := nextDay_denizen_step rnd w h s l p hrole hres hg
      refine ⟨⟨k1, _, _, l', p, k2, ?_, min_le_left _ _, k4, ?_, ?_, ?_⟩,
        h, _, hstat, (statVal_denizenStats _ _ _ _ _ k2).1, ?_⟩
      · rw [k3]
        exact min_le_min (le_refl _) (by omega)
      · rw [k3]; omega
      · rw [k3]; omega
      · right
        rw [k3]
        rcases hcount with hc | hc
        · rw [hg] at hc; cases hc
        · rw [hc]; push_cast; ring
      · rw [le_min_iff]; constructor <;> omega
  | choose choice =>
    simp only [Call.run, Call.isDay, Bool.false_eq_true, if_false, Nat.add_zero]
    have hmem : choice ∈ catalogChoices "denizen" := by simpa [Call.allowed] using hcall
    obtain ⟨h', s', l', p', k1, k2, k3, k4, k5, k6, k7⟩ :=
      resolveChoice_denizen_step choice w h s l p hmem hrole hres hhi
    refine ⟨⟨k1, h', s', l', p', k2, ?_, k4, k5, ?_, ?_, ?_⟩,
      h, h', hstat, (statVal_denizenStats _ _ _ _ _ k2).1, k3⟩
    · rw [k7]; exact le_trans hlo k3
    · rw [k7]; exact hd1
    · rw [k7]; exact hd9
    · rcases hcount with hc | hc
      · exact Or.inl (k6 hc)
      · right; rw [k7]; exact hc

theorem DenizenInvariant.run {n : Nat} {w : World} (hinv : DenizenInvariant n w)
    (calls : List Call) (hcalls : calls.all (Call.allowed "denizen") = true) :
    DenizenInvariant (n + (calls.filter Call.isDay).length) (runCalls calls w) := by
  induction calls generalizing n w with
  | nil => simpa [runCalls] using hinv
  | cons call calls ih =>
    simp only [List.all_cons, Bool.and_eq_true] at hcalls
    have hstep := (hinv.step call hcalls.1).1
    have := ih hstep hcalls.2
    rw [runCalls_cons]
    cases hc : call.isDay with
    | true =>
      rw [hc] at this
      simpa [List.filter_cons, hc, Nat.add_assoc, Nat.add_comm 1] using this
    | false =>
      rw [hc] at this
      simpa [List.filter_cons, hc] using this

theorem DenizenInvariant.start (w0 : World) (rnd0 : Draw) (hcat : w0.ROLES = ROLES) :
    DenizenInvariant 0 (startGame "denizen" rnd0 w0).world := by
  obtain ⟨L, A, hstart⟩ := startGame_ok "denizen" rnd0 w0 _
    (by rw [hcat]; exact ROLES_lookup_denizen)
  rw [hstart]
  refine ⟨rfl, 20, 0, 100, 5, rfl, ?_, by decide, ?_, ?_, ?_, Or.inr ?_⟩
  · show min 100 (20 + 10 * ((1 : Int) - 1)) ≤ 20
    decide
  · intro h; exact absurd h (by decide)
  · show (1 : Int) ≤ 1
    decide
  · show (1 : Int) ≤ 9
    decide
  · show (1 : Int) = 1 + ((0 : Nat) : Int)
    decide

/-! ## Steps of a session played through the page -/

theorem resolveChoice_running (choice : Choice) (w : World) (role : String)
    (hs : InSession role w) (hg : w.gameOver = false) :
    InSession role (resolveChoice choice w).world ∧
      (resolveChoice choice w).world.day = w.day ∧
      (resolveChoice choice w).world.role = w.role ∧
      (resolveChoice choice w).world.resources = (applyEffects choice.effects w).resources ∧
      ((specCheckTermination role (applyEffects choice.effects w) ≠ none ∧
          (resolveChoice choice w).world.gameOver = true ∧
          (resolveChoice choice w).world.actions = [returnToMenu]) ∨
        (specCheckTermination role (applyEffects choice.effects w) = none ∧
          (resolveChoice choice w).world.gameOver = false ∧
          (resolveChoice choice w).world.actions = w.actions ++ [endDayButton])) := by
  have hr := resolveChoice_inSession choice w role hs
  have hs1 : InSession role (applyEffects choice.effects w) :=
    hs.congr (by rw [applyEffects_eq]) (applyEffects_schema _ _)
  have e := applyEffects_eq choice.effects w
  generalize applyEffects choice.effects w = w1 at hr hs1 e
  have hrole : w1.role = w.role := by rw [e]
  have hday : w1.day = w.day := by rw [e]
  have hact : w1.actions = w.actions := by rw [e]
  have hgo : w1.gameOver = false := by rw [e]; exact hg
  rw [hr]
  cases hsp : specCheckTermination role w1 with
  | some reason =>
    exact ⟨hs1.congr rfl rfl, hday, hrole, rfl, Or.inl ⟨by simp, rfl, rfl⟩⟩
  | none =>
    refine ⟨hs1.congr rfl rfl, hday, hrole, rfl, Or.inr ⟨rfl, hgo, ?_⟩⟩
    show w1.actions ++ [endDayButton] = w.actions ++ [endDayButton]
    rw [hact]

theorem nextDay_running (rnd : Draw) (w : World) (role : String)
    (hs : InSession role w) (hg : w.gameOver = false) :
    ∃ w1, applyPassiveEffects { w with day := w.day + 1 } = .ok () w1 ∧
      InSession role (nextDay rnd w).world ∧
      (nextDay rnd w).world.day = w.day + 1 ∧
      (nextDay rnd w).world.role = w.role ∧
      (nextDay rnd w).world.resources = w1.resources ∧
      ((specCheckTermination role w1 ≠ none ∧
          (nextDay rnd w).world.gameOver = true ∧
          (nextDay rnd w).world.actions = [returnToMenu]) ∨
        (specCheckTermination role w1 = none ∧
          (nextDay rnd w).world.gameOver = false ∧
          ∃ event, dailyEvent rnd { w with day := w.day + 1 } = some event ∧
            (nextDay rnd w).world.actions = event.choices.map choiceButton)) := by
  obtain ⟨w1, hp, hs1, hd, hg1, hr1, -, -, hn⟩ := nextDay_inSession rnd w role hs hg
  refine ⟨w1, hp, ?_⟩
  obtain ⟨event, he⟩ := dailyEvent_some rnd w1
  have hev : dailyEvent rnd { w with day := w.day + 1 } = dailyEvent rnd w1 := by
    obtain ⟨R, L, hc, -⟩ := applyPassiveEffects_cases { w with day := w.day + 1 }
    rcases hc with hc | hc
    · rw [hc] at hp; cases hp
    · rw [hc] at hp
      injection hp with _ hw1
      rw [← hw1]
      rfl
  rw [hn]
  cases hsp : specCheckTermination role w1 with
  | some reason =>
    exact ⟨hs1.congr rfl rfl, hd, hr1, rfl, Or.inl ⟨by simp, rfl, rfl⟩⟩
  | none =>
    dsimp only
    rw [he]
    exact ⟨hs1.congr rfl rfl, hd, hr1, rfl, Or.inr ⟨rfl, hg1, event, hev.trans he, rfl⟩⟩

/-! ## Steps of a Denizen session played through the page -/

theorem applyPassiveEffects_denizenStats (w : World) (h s l p : Int)
    (hrole : w.role = some "denizen") (hres : w.resources = denizenStats h s l p) :
    applyPassiveEffects w =
      .ok ()
        { w with
          resources :=
            denizenStats (min 100 (h + 10)) (max 0 (s - 5))
              (if 90 ≤ min 100 (h + 10) then l - 10 else l) p
          narrativeLog :=
            if 90 ≤ min 100 (h + 10) then
              { text := "You are starving...", severity := .warning } :: w.narrativeLog
            else w.narrativeLog } := by
  rw [applyPassiveEffects_denizen w ⟨h, 100, "Hunger (Low is Good)"⟩ ⟨s, 100, "Suspicion"⟩
    ⟨l, 100, "Health"⟩ hrole (by rw [hres]; rfl) (by rw [hres]; rfl) (by rw [hres]; rfl)]
  by_cases hc : 90 ≤ min 100 (h + 10)
  · rw [if_pos hc, if_pos hc, if_pos hc]
    rw [hres]
    simp [denizenStats, Resources.setVal]
  · rw [if_neg hc, if_neg hc, if_neg hc]
    rw [hres]
    simp [denizenStats, Resources.setVal]

theorem mem_choicesOf (pool : List Event) (event : Event) (choice : Choice)
    (he : event ∈ pool) (hc : choice ∈ event.choices) : choice ∈ choicesOf pool := by
  induction pool with
  | nil => cases he
  | cons e pool ih =>
    show choice ∈ e.choices ++ choicesOf pool
    rw [List.mem_append]
    rcases List.mem_cons.1 he with rfl | he
    · exact Or.inl hc
    · exact Or.inr (ih he)

theorem dailyEvent_denizen_choices (rnd : Draw) (w : World) (event : Event)
    (hrole : w.role = some "denizen")
    (hcat : w.MIDTOWN_ESCAPE_EVENT = MIDTOWN_ESCAPE_EVENT)
    (he : dailyEvent rnd w = some event) :
    ∀ choice ∈ event.choices, choice ∈ denizenDayChoices w.day := by
  intro choice hc
  by_cases hday : w.day = 1
  · have hcond : w.day = 1 ∧ w.role = some "denizen" := ⟨hday, hrole⟩
    simp only [dailyEvent, if_pos hcond] at he
    have hch : event.choices = MIDTOWN_ESCAPE_EVENT.choices := by
      rw [← Option.some.inj he, ← hcat]
      split <;> rfl
    rw [hch] at hc
    simpa [denizenDayChoices, hday] using hc
  · have hcond : ¬ (w.day = 1 ∧ w.role = some "denizen") := fun h => hday h.1
    simp only [dailyEvent, if_neg hcond] at he
    obtain ⟨event', hsel, hmem⟩ := getEventForRole_mem w.role rnd
    rw [he] at hsel
    cases hsel
    rw [if_pos hrole] at hmem
    simp only [denizenDayChoices, if_neg hday]
    exact mem_choicesOf _ _ _ hmem hc

theorem applyEffects_lookup_cases (es : List (String × Int)) (w : World) (k : String)
    (hnd : (es.map Prod.fst).Nodup) :
    (applyEffects es w).resources.lookup k = w.resources.lookup k ∨
      ∃ d, (k, d) ∈ es ∧
        (applyEffects es w).resources.lookup k =
          (w.resources.lookup k).map (fun s => s.bump d) := by
  by_cases hk : k ∈ es.map Prod.fst
  · obtain ⟨e, he, hfst⟩ := List.mem_map.1 hk
    have hmem : (k, e.2) ∈ es := by rw [← hfst]; exact he
    exact Or.inr ⟨e.2, hmem, applyEffects_lookup_of_mem es w k e.2 hnd hmem⟩
  · exact Or.inl (applyEffects_lookup_of_not_mem es w k hk)

theorem scripted_choice_effects :
    ∀ c ∈ MIDTOWN_ESCAPE_EVENT.choices,
      (c.effects.map Prod.fst).Nodup ∧
        ∀ e ∈ c.effects,
          (e.1 = "hunger" → 0 ≤ e.2) ∧ (e.1 = "health" → -10 ≤ e.2 ∧ e.2 ≤ 0) := by
  decide

theorem pool_choice_effects :
    ∀ c ∈ choicesOf DENIZEN_EVENTS,
      (c.effects.map Prod.fst).Nodup ∧
        ∀ e ∈ c.effects,
          (e.1 = "hunger" → 0 ≤ e.2) ∧ (e.1 = "health" → -5 ≤ e.2 ∧ e.2 ≤ 0) := by
  decide

theorem denizen_day_choice_effects (day : Int) (c : Choice) (hc : c ∈ denizenDayChoices day) :
    (c.effects.map Prod.fst).Nodup ∧
      ∀ e ∈ c.effects,
        (e.1 = "hunger" → 0 ≤ e.2) ∧
          (e.1 = "health" → -(if day = 1 then 10 else 5) ≤ e.2 ∧ e.2 ≤ 0) := by
  by_cases hday : day = 1
  · simp only [denizenDayChoices, if_pos hday] at hc
    simpa [hday] using scripted_choice_effects c hc
  · simp only [denizenDayChoices, if_neg hday] at hc
    simpa [hday] using pool_choice_effects c hc

theorem applyEffects_denizen_bounds (choice : Choice) (day : Int)
    (hmem : choice ∈ denizenDayChoices day) (w : World) (h s l p : Int)
    (hrole : w.role = some "denizen")
    (hres : w.resources = denizenStats h s l p)
    (hh : h ≤ 100) (hs0 : 0 ≤ s) (hs1 : s ≤ 100) (hl : l ≤ 100) (hp0 : 0 ≤ p) (hp1 : p ≤ 50) :
    ∃ h' s' l' p', (applyEffects choice.effects w).resources = denizenStats h' s' l' p' ∧
      h ≤ h' ∧ h' ≤ 100 ∧ 0 ≤ s' ∧ s' ≤ 100 ∧
      l - (if day = 1 then 10 else 5) ≤ l' ∧ l' ≤ 100 ∧ 0 ≤ p' ∧ p' ≤ 50 := by
  have hs : InSession "denizen" w := (inSession_denizen w).2 ⟨hrole, h, s, l, p, hres⟩
  have hs1' : InSession "denizen" (applyEffects choice.effects w) :=
    hs.congr (by rw [applyEffects_eq]) (applyEffects_schema _ _)
  obtain ⟨-, h', s', l', p', hres1⟩ := (inSession_denizen _).1 hs1'
  obtain ⟨hnd, heff⟩ := denizen_day_choice_effects day choice hmem
  refine ⟨h', s', l', p', hres1, ?_⟩
  have kh := applyEffects_lookup_cases choice.effects w "hunger" hnd
  have ks := applyEffects_lookup_cases choice.effects w "suspicion" hnd
  have kl := applyEffects_lookup_cases choice.effects w "health" hnd
  have kp := applyEffects_lookup_cases choice.effects w "supplies" hnd
  rw [hres1, hres] at kh ks kl kp
  simp only [denizenStats, List.lookup, Option.map_some', Stat.bump, clamp] at kh ks kl kp
  have e1 : (("hunger" : String) == "hunger") = true := by decide
  have e2 : (("suspicion" : String) == "hunger") = false := by decide
  have e3 : (("suspicion" : String) == "suspicion") = true := by decide
  have e4 : (("health" : String) == "hunger") = false := by decide
  have e5 : (("health" : String) == "suspicion") = false := by decide
  have e6 : (("health" : String) == "health") = true := by decide
  have e7 : (("supplies" : String) == "hunger") = false := by decide
  have e8 : (("supplies" : String) == "suspicion") = false := by decide
  have e9 : (("supplies" : String) == "health") = false := by decide
  have e10 : (("supplies" : String) == "supplies") = true := by decide
  simp only [e1, e2, e3, e4, e5, e6, e7, e8, e9, e10, Option.some.injEq, Stat.mk.injEq,
    and_true, Option.map_some'] at kh ks kl kp
  have bh : h ≤ h' ∧ h' ≤ 100 := by
    rcases kh with kh | ⟨d, hd, kh⟩
    · omega
    · have := (heff _ hd).1 rfl
      simp only at this
      omega
  have bs : 0 ≤ s' ∧ s' ≤ 100 := by
    rcases ks with ks | ⟨d, -, ks⟩ <;> omega
  have bl : l - (if day = 1 then 10 else 5) ≤ l' ∧ l' ≤ 100 := by
    rcases kl with kl | ⟨d, hd, kl⟩
    · split_ifs <;> omega
    · have := (heff _ hd).2 rfl
      simp only at this
      split_ifs at this ⊢ <;> omega
  have bp : 0 ≤ p' ∧ p' ≤ 50 := by
    rcases kp with kp | ⟨d, -, kp⟩ <;> omega
  exact ⟨bh.1, bh.2, bs.1, bs.2, bl.1, bl.2, bp.1, bp.2⟩

theorem denizenPlay_resolveChoice (choice : Choice) (w : World) (h s l p : Int)
    (hrole : w.role = some "denizen") (hres : w.resources = denizenStats h s l p)
    (hh0 : min 100 (20 + 10 * (w.day - 1)) ≤ h) (hh : h < 100)
    (hs0 : 0 ≤ s) (hs1 : s ≤ 100) (hl : l ≤ 100) (hp0 : 0 ≤ p) (hp1 : p ≤ 50)
    (hday : 1 ≤ w.day) (hg : w.gameOver = false)
    (hmem : choice ∈ denizenDayChoices w.day)
    (hbound : 100 - 10 * starvationHits h - (if w.day = 1 then 0 else 5 * w.day) ≤ l)
    (hdis : ∀ b ∈ w.actions, b.disabled = true) :
    DenizenPlay (resolveChoice choice w).world := by
  have hs : InSession "denizen" w := (inSession_denizen w).2 ⟨hrole, h, s, l, p, hres⟩
  obtain ⟨-, hd2, -, hr2, hcase⟩ := resolveChoice_running choice w "denizen" hs hg
  obtain ⟨h', s', l', p', hres1, b1, b2, b3, b4, b5, b6, b7, b8⟩ :=
    applyEffects_denizen_bounds choice w.day hmem w h s l p hrole hres hh.le hs0 hs1 hl hp0 hp1
  have hsp := specCheckTermination_denizen _ h' s' l' p' hres1
  refine ⟨h', s', l', p', hr2.trans hres1, ?_, b2, b3, b4, b6, b7, b8, ?_, ?_, ?_, ?_⟩
  · rw [hd2]; omega
  · rw [hd2]; exact hday
  · rcases hcase with ⟨-, hgo, -⟩ | ⟨hnone, -, -⟩
    · exact fun _ => hgo
    · intro hfull
      rw [hsp] at hnone
      split_ifs at hnone
  · intro _
    simp only [starvationHits] at hbound
    split_ifs at hbound b5 <;> omega
  · rcases hcase with ⟨-, hgo, -⟩ | ⟨hnone, -, hact⟩
    · intro hgo'
      rw [hgo] at hgo'
      cases hgo'
    · intro _
      right
      constructor
      · intro b hb hen
        rw [hact, List.mem_append] at hb
        rcases hb with hb | hb
        · rw [hdis b hb] at hen
          cases hen
        · rw [List.mem_singleton.1 hb]
          rfl
      · rw [hd2]
        rw [hsp] at hnone
        simp only [starvationHits] at hbound ⊢
        split_ifs at hnone hbound b5 ⊢ <;> omega

theorem denizenPlay_nextDay (rnd : Draw) (w : World) (h s l p : Int)
    (hrole : w.role = some "denizen") (hres : w.resources = denizenStats h s l p)
    (hcat : w.MIDTOWN_ESCAPE_EVENT = MIDTOWN_ESCAPE_EVENT)
    (hh0 : min 100 (20 + 10 * (w.day - 1)) ≤ h) (hh : h < 100)
    (hs0 : 0 ≤ s) (hs1 : s ≤ 100) (hl : l ≤ 100) (hp0 : 0 ≤ p) (hp1 : p ≤ 50)
    (hday : 1 ≤ w.day) (hg : w.gameOver = false)
    (hbound : 100 - 10 * starvationHits h - (5 * w.day + 5) ≤ l) :
    DenizenPlay (nextDay rnd w).world := by
  have hs : InSession "denizen" w := (inSession_denizen w).2 ⟨hrole, h, s, l, p, hres⟩
  obtain ⟨w1, hp, -, hd2, hr2, hres2, hcase⟩ := nextDay_running rnd w "denizen" hs hg
  have hp' := applyPassiveEffects_denizenStats { w with day := w.day + 1 } h s l p hrole hres
  rw [hp'] at hp
  injection hp with _ hw1
  have hres1 : w1.resources =
      denizenStats (min 100 (h + 10)) (max 0 (s - 5))
        (if 90 ≤ min 100 (h + 10) then l - 10 else l) p := by
    rw [← hw1]
  have hsp := specCheckTermination_denizen _ _ _ _ _ hres1
  refine ⟨_, _, _, _, hres2.trans hres1, ?_, ?_, ?_, ?_, ?_, hp0, hp1, ?_, ?_, ?_, ?_⟩
  · rw [hd2]; omega
  · omega
  · omega
  · omega
  · split_ifs <;> omega
  · rw [hd2]; omega
  · rcases hcase with ⟨-, hgo, -⟩ | ⟨hnone, -, -⟩
    · exact fun _ => hgo
    · intro hfull
      rw [hsp] at hnone
      split_ifs at hnone
  · intro _
    simp only [starvationHits] at hbound
    split_ifs at hbound ⊢ <;> omega
  · rcases hcase with ⟨-, hgo, -⟩ | ⟨hnone, -, event, he, hact⟩
    · intro hgo'
      rw [hgo] at hgo'
      cases hgo'
    · intro _
      left
      constructor
      · refine ⟨event.choices, hact, fun _ => ?_⟩
        rw [hd2]
        exact dailyEvent_denizen_choices rnd { w with day := w.day + 1 } event hrole hcat he
      · rw [hd2]
        rw [hsp] at hnone
        simp only [starvationHits] at hbound ⊢
        split_ifs at hnone hbound ⊢ <;> omega

/-! ## The invariant of the page -/

theorem playInvariant_init : PlayInvariant World.init :=
  ⟨rfl, rfl, Or.inl ⟨rfl, rfl, rfl⟩⟩

theorem playInvariant_setLocation {w : World} (hinv : PlayInvariant w) (loc : String) :
    PlayInvariant (setLocation loc w) := hinv

theorem startGame_session (role : String) (rnd : Draw) (w : World) (roleDef : RoleDef)
    (hl : w.ROLES.lookup role = some roleDef) :
    ∃ event L,
      dailyEvent rnd
          { w with role := some role, day := 1, gameOver := false, resources := roleDef.stats } =
        some event ∧
      (startGame role rnd w).world =
        { w with role := some role, day := 1, gameOver := false, resources := roleDef.stats,
                 narrativeLog := L, actions := event.choices.map choiceButton } := by
  obtain ⟨event, he⟩ := dailyEvent_some rnd
    { w with role := some role, day := 1, gameOver := false, resources := roleDef.stats }
  refine ⟨event,
    { text := event.description, severity := .normal } ::
      { text := "Day " ++ toString (1 : Int) ++ ": " ++ event.title, severity := .normal } ::
        w.narrativeLog, he, ?_⟩
  dsimp only [startGame]
  rw [hl]
  dsimp only
  rw [generateDailyEvent_eq, he]
  rfl

theorem playInvariant_startGame {w : World} (hinv : PlayInvariant w) (role : String) (rnd : Draw)
    (hrole : role = "denizen" ∨ role = "occupier") :
    PlayInvariant (startGame role rnd w).world := by
  obtain ⟨hR, hM, -⟩ := hinv
  rcases hrole with rfl | rfl
  · obtain ⟨event, L, he, hw⟩ := startGame_session "denizen" rnd w _
      (by rw [hR]; exact ROLES_lookup_denizen)
    rw [hw]
    refine ⟨hR, hM, Or.inr ⟨Or.inl ⟨rfl, _, ROLES_lookup_denizen, rfl⟩, ?_, fun _ => ?_⟩⟩
    · intro hgo
      cases hgo
    · refine ⟨20, 0, 100, 5, rfl, ?_, by decide, by decide, by decide, by decide,
        by decide, by decide, ?_, ?_, ?_,
        fun _ => Or.inl ⟨⟨event.choices, rfl, fun _ => ?_⟩, ?_⟩⟩
      · show min 100 (20 + 10 * ((1 : Int) - 1)) ≤ 20
        decide
      · show (1 : Int) ≤ 1
        decide
      · intro hfull
        exact absurd hfull (by decide)
      · intro hgo
        cases hgo
      · exact dailyEvent_denizen_choices rnd _ event rfl hM he
      · show 100 - 10 * starvationHits 20 - (if (1 : Int) = 1 then 0 else 5 * 1) ≤ 100
        decide
  · obtain ⟨event, L, he, hw⟩ := startGame_session "occupier" rnd w _
      (by rw [hR]; exact ROLES_lookup_occupier)
    rw [hw]
    refine ⟨hR, hM, Or.inr ⟨Or.inr ⟨rfl, _, ROLES_lookup_occupier, rfl⟩, ?_, fun hden => ?_⟩⟩
    · intro hgo
      cases hgo
    · have hne : (some "occupier" : Option String) ≠ some "denizen" := by decide
      exact absurd hden hne

theorem playInvariant_click {w : World} (hinv : PlayInvariant w) (i : Nat) (rnd : Draw) :
    PlayInvariant (click i rnd w).world := by
  unfold click
  cases hget : w.actions.get? i with
  | none => exact hinv
  | some b =>
    dsimp only
    by_cases hdis : b.disabled = true
    · rw [if_pos hdis]
      exact hinv
    rw [if_neg hdis]
    have hen : b.disabled = false := by simpa using hdis
    have hb : b ∈ w.actions := List.get?_mem hget
    obtain ⟨hR, hM, hmenu | ⟨hsess, hover, hden⟩⟩ := hinv
    · rw [hmenu.2.1] at hb
      cases hb
    have hsess' : ∃ role, InSession role w := by
      rcases hsess with hs | hs
      · exact ⟨_, hs⟩
      · exact ⟨_, hs⟩
    obtain ⟨role, hs⟩ := hsess'
    have hvalid := hs.role_valid
    rcases Bool.eq_false_or_eq_true w.gameOver with hgo | hgo
    · rw [hover hgo, List.mem_singleton] at hb
      rw [hb]
      exact playInvariant_init
    · have hs' : InSession role
          { w with actions := w.actions.map fun b => { b with disabled := true } } :=
        hs.congr rfl rfl
      have hdis' : ∀ b' ∈
          ({ w with actions := w.actions.map fun b => { b with disabled := true } } :
            World).actions, b'.disabled = true := by
        intro b' hb'
        obtain ⟨b0, -, rfl⟩ := List.mem_map.1 hb'
        rfl
      generalize hw' : ({ w with actions := w.actions.map fun b => { b with disabled := true } } :
        World) = w' at hs' hdis'
      have fR : w'.ROLES = w.ROLES := by rw [← hw']
      have fM : w'.MIDTOWN_ESCAPE_EVENT = w.MIDTOWN_ESCAPE_EVENT := by rw [← hw']
      have fr : w'.role = w.role := by rw [← hw']
      have fd : w'.day = w.day := by rw [← hw']
      have fres : w'.resources = w.resources := by rw [← hw']
      have fg : w'.gameOver = false := by rw [← hw']; exact hgo
      have hsessOf : ∀ w2 : World, InSession role w2 →
          InSession "denizen" w2 ∨ InSession "occupier" w2 := by
        intro w2 h2
        rcases hvalid with rfl | rfl
        · exact Or.inl h2
        · exact Or.inr h2
      cases hon : b.onClick with
      | reload => exact playInvariant_init
      | resolve choice =>
        dsimp only
        obtain ⟨hs2, hd2, hr2, -, hcase⟩ := resolveChoice_running choice w' role hs' fg
        obtain ⟨cR, cM⟩ := resolveChoice_catalog choice w'
        refine ⟨cR.trans (fR.trans hR), cM.trans (fM.trans hM),
          Or.inr ⟨hsessOf _ hs2, ?_, ?_⟩⟩
        · intro hgo2
          rcases hcase with ⟨-, -, hact⟩ | ⟨-, hgo3, -⟩
          · exact hact
          · rw [hgo3] at hgo2
            cases hgo2
        · intro hrole2
          have hrole : w.role = some "denizen" := by rw [← fr, ← hr2]; exact hrole2
          obtain ⟨h, s, l, p, hres, b1, b2, b3, b4, b5, b6, b7, b8, b9, -, hphase⟩ := hden hrole
          have hlt : h < 100 := by
            by_contra hge
            have := b9 (by omega)
            rw [hgo] at this
            cases this
          rcases hphase hgo with ⟨⟨choices, hact, hmem⟩, hbound⟩ | ⟨hmade, -⟩
          · rw [hact] at hb
            obtain ⟨c, hc, rfl⟩ := List.mem_map.1 hb
            have hcc : c = choice := by
              have : Handler.resolve c = Handler.resolve choice := hon
              injection this
            subst hcc
            exact denizenPlay_resolveChoice c w' h s l p (fr.trans hrole) (fres.trans hres)
              (by rw [fd]; exact b1) hlt b3 b4 b5 b6 b7 (by rw [fd]; exact b8) fg
              (by rw [fd]; exact hmem hrole c hc) (by rw [fd]; exact hbound) hdis'
          · have := hmade b hb hen
            rw [hon] at this
            cases this
      | endDay =>
        dsimp only
        obtain ⟨w1, -, hs2, hd2, hr2, -, hcase⟩ := nextDay_running rnd w' role hs' fg
        obtain ⟨cR, cM⟩ := nextDay_catalog rnd w'
        refine ⟨cR.trans (fR.trans hR), cM.trans (fM.trans hM),
          Or.inr ⟨hsessOf _ hs2, ?_, ?_⟩⟩
        · intro hgo2
          rcases hcase with ⟨-, -, hact⟩ | ⟨-, hgo3, -⟩
          · exact hact
          · rw [hgo3] at hgo2
            cases hgo2
        · intro hrole2
          have hrole : w.role = some "denizen" := by rw [← fr, ← hr2]; exact hrole2
          obtain ⟨h, s, l, p, hres, b1, b2, b3, b4, b5, b6, b7, b8, b9, -, hphase⟩ := hden hrole
          have hlt : h < 100 := by
            by_contra hge
            have := b9 (by omega)
            rw [hgo] at this
            cases this
          rcases hphase hgo with ⟨⟨choices, hact, -⟩, -⟩ | ⟨-, hbound⟩
          · rw [hact] at hb
            obtain ⟨c, -, rfl⟩ := List.mem_map.1 hb
            cases hon
          · exact denizenPlay_nextDay rnd w' h s l p (fr.trans hrole) (fres.trans hres)
              (fM.trans hM) (by rw [fd]; exact b1) hlt b3 b4 b5 b6 b7 (by rw [fd]; exact b8) fg
              (by rw [fd]; exact hbound)

theorem Played.invariant {w : World} (hp : Played w) : PlayInvariant w := by
  induction hp with
  | load => exact playInvariant_init
  | toggle loc _ ih => exact playInvariant_setLocation ih loc
  | start role rnd _ hrole ih => exact playInvariant_startGame ih role rnd hrole
  | press i rnd _ ih => exact playInvariant_click ih i rnd

theorem played_clicks (positions : List Nat) (rnd : Draw) (w : World) (hp : Played w) :
    Played (clicks positions rnd w) := by
  induction positions generalizing w with
  | nil => exact hp
  | cons i positions ih => exact ih _ (Played.press i rnd hp)

theorem played_freshSession (role : String) (hrole : role = "denizen" ∨ role = "occupier") :
    Played (freshSession role) :=
  Played.start role drawZero Played.load hrole

theorem Played.denizen_bounds {w : World} (hp : Played w) (hrole : w.role = some "denizen") :
    ∃ h s l p, w.resources = denizenStats h s l p ∧
      20 ≤ h ∧ h ≤ 100 ∧ 0 ≤ s ∧ s ≤ 100 ∧ 35 ≤ l ∧ l ≤ 100 ∧ 0 ≤ p ∧ p ≤ 50 ∧
      (w.gameOver = false → h < 100 ∧ 45 ≤ l) := by
  obtain ⟨-, -, hmenu | ⟨-, -, hden⟩⟩ := hp.invariant
  · rw [hmenu.1] at hrole
    cases hrole
  obtain ⟨h, s, l, p, hres, b1, b2, b3, b4, b5, b6, b7, b8, b9, b10, hphase⟩ := hden hrole
  have hrun : w.gameOver = false → h < 100 ∧ 45 ≤ l := by
    intro hgo
    have hlt : h < 100 := by
      by_contra hge
      have := b9 (by omega)
      rw [hgo] at this
      cases this
    refine ⟨hlt, ?_⟩
    rcases hphase hgo with ⟨-, hbound⟩ | ⟨-, hbound⟩
    · simp only [starvationHits] at hbound
      split_ifs at hbound <;> omega
    · simp only [starvationHits] at hbound
      split_ifs at hbound <;> omega
  refine ⟨h, s, l, p, hres, by omega, b2, b3, b4, ?_, b5, b6, b7, hrun⟩
  rcases Bool.eq_false_or_eq_true w.gameOver with hgo | hgo
  · exact b10 hgo
  · have := (hrun hgo).2
    omega

/-! # The claims -/

/-- C1 (the code breaks it).  The clamp invariant `0 ≤ val ≤ max` fails in a
reachable world.  In the Occupier session `occupierNextMorning`
("Distribute Extra Rations" then `nextDay`, five times) the session is not
terminated and the stat `resources` has the value -5: the daily consumption
`resources.val -= 5` of `applyPassiveEffects` is not clamped.  Playing the
session through the buttons of the page gives the same stats. -/
theorem clamp_invariant_fails_after_passive_effects :
    Reachable "occupier" occupierNextMorning ∧
    occupierNextMorning.gameOver = false ∧
    occupierNextMorning.resources.lookup "resources" =
      some { val := -5, max := 500, label := "Rations Stock" } ∧
    ¬ (∀ k s, occupierNextMorning.resources.lookup k = some s → 0 ≤ s.val ∧ s.val ≤ s.max) ∧
    occupierNextMorningClicked.resources = occupierNextMorning.resources ∧
    occupierNextMorningClicked.gameOver = false := by
  have hval : occupierNextMorning.resources.lookup "resources" =
      some { val := -5, max := 500, label := "Rations Stock" } := by decide!
  refine ⟨Reachable.day drawZero reachable_occupierOutOfRations, by decide!, hval, ?_,
    by decide!, by decide!⟩
  · intro h
    have := (h _ _ hval).1
    simp at this

/-- Counterexample of C2: the Occupier world `occupierOverthrown`, reached by
sixteen calls of `nextDay`, is terminated.  `nextDay` leaves it as it is, but
`resolveChoice` has no check of `gameOver`: called there with "Accept Deal", a
choice of the Occupier pool, it takes `control` from 80 to 95 and `resources`
from 20 to 10 and adds four entries to the log.  The call is a direct one: the
page has no button for it in a terminated session. -/
theorem resolveChoice_mutates_terminated_world :
    Reachable "occupier" occupierOverthrown ∧
    occupierOverthrown.gameOver = true ∧
    nextDay drawZero occupierOverthrown = .ok () occupierOverthrown ∧
    acceptDeal ∈ catalogChoices "occupier" ∧
    occupierOverthrown.resources =
      [ ("control", { val := 80, max := 100, label := "City Control" }),
        ("resources", { val := 20, max := 500, label := "Rations Stock" }),
        ("unrest", { val := 100, max := 100, label := "Civil Unrest" }),
        ("manpower", { val := 50, max := 100, label := "Patrol Strength" }) ] ∧
    (resolveChoice acceptDeal occupierOverthrown).world.resources =
      [ ("control", { val := 95, max := 100, label := "City Control" }),
        ("resources", { val := 10, max := 500, label := "Rations Stock" }),
        ("unrest", { val := 100, max := 100, label := "Civil Unrest" }),
        ("manpower", { val := 50, max := 100, label := "Patrol Strength" }) ] ∧
    (resolveChoice acceptDeal occupierOverthrown).world.narrativeLog =
      { text := "A massive uprising has overthrown your command center.", severity := .warning } ::
      { text := "GAME OVER", severity := .warning } ::
      { text := "The info was good. We made several arrests.", severity := .normal } ::
      { text := "> Accept Deal", severity := .choice } ::
      occupierOverthrown.narrativeLog :=
  ⟨reachable_occupierOverthrown, by decide!, nextDay_of_gameOver _ _ (by decide!), by decide,
    by decide!, by decide!, by decide!⟩

/-- C2, as amended.  Terminal state.  `nextDay` called in a terminated world returns
at once and leaves the whole world, stats, day counter and log included, as it
was.  `resolveChoice` is kept away from a terminated session by the page: in
every terminated world the page can be in, `dom.actionContainer` holds the single
button "Return to Menu", so no choice is offered and no button calls
`resolveChoice` or `nextDay`; a click on that button reloads the page and a click
anywhere else in the container leaves the world as it was. -/
theorem terminated_session_on_the_page :
    (∀ (rnd : Draw) (w : World), w.gameOver = true → nextDay rnd w = .ok () w) ∧
    (∀ w : World, Played w → w.gameOver = true →
      w.actions = [returnToMenu] ∧
      offeredChoices w = [] ∧
      (∀ b ∈ w.actions, b.onClick ≠ .endDay ∧ ∀ choice, b.onClick ≠ .resolve choice) ∧
      (∀ rnd : Draw, click 0 rnd w = .ok () World.init) ∧
      (∀ (i : Nat) (rnd : Draw), 0 < i → click i rnd w = .ok () w)) := by
  refine ⟨fun rnd w hg => nextDay_of_gameOver rnd w hg, ?_⟩
  intro w hp hg
  obtain ⟨-, -, hmenu | ⟨-, hover, -⟩⟩ := hp.invariant
  · rw [hmenu.2.2] at hg
    cases hg
  have hact := hover hg
  refine ⟨hact, ?_, ?_, ?_, ?_⟩
  · simp only [offeredChoices, hact]
    rfl
  · intro b hb
    rw [hact, List.mem_singleton] at hb
    rw [hb]
    exact ⟨by decide, fun choice => by simp [returnToMenu]⟩
  · intro rnd
    simp only [click, hact]
    rfl
  · intro i rnd hi
    obtain ⟨j, rfl⟩ : ∃ j, i = j + 1 := ⟨i - 1, by omega⟩
    simp only [click, hact]
    rfl

/-- Witness of C2, as amended: the Occupier session `occupierCrackdown`, played
through the buttons of the page, is terminated by the uprising; `nextDay` leaves it as it
is, its only button is "Return to Menu", and a click beside that button changes
nothing. -/
theorem terminated_session_on_the_page_witness :
    Played occupierCrackdown ∧ occupierCrackdown.gameOver = true ∧
    statVal occupierCrackdown "unrest" = some 100 ∧
    nextDay drawZero occupierCrackdown = .ok () occupierCrackdown ∧
    occupierCrackdown.actions = [returnToMenu] ∧
    offeredChoices occupierCrackdown = [] ∧
    click 0 drawZero occupierCrackdown = .ok () World.init ∧
    click 1 drawZero occupierCrackdown = .ok () occupierCrackdown := by
  have hp : Played occupierCrackdown :=
    played_clicks _ _ _ (played_freshSession "occupier" (Or.inr rfl))
  have hg : occupierCrackdown.gameOver = true := by decide!
  obtain ⟨h1, h2, -, h3, h4⟩ := terminated_session_on_the_page.2 occupierCrackdown hp hg
  exact ⟨hp, hg, by decide!, terminated_session_on_the_page.1 drawZero _ hg, h1, h2,
    h3 drawZero, h4 1 drawZero (by decide)⟩

/-- C3. `checkGameOver` implements the termination table of the specification
with first match wins.  In a world whose role is `denizen` or `occupier` and
that has the stats the table of that role names: if some row holds,
`checkGameOver` returns `true` after `endGame(reason)` for the reason of the
first row that holds, in the listed order, which sets `gameOver` and logs
"GAME OVER" and that reason; if no row holds it returns `false` and leaves the
world, `gameOver` included, as it was.  It returns `true` exactly when at least
one row of the active role holds. -/
theorem checkGameOver_implements_table (w : World) (role : String)
    (hrole : w.role = some role) (hvalid : role = "denizen" ∨ role = "occupier")
    (hstats : ∀ rule ∈ specTerminationTable role, (statVal w rule.stat).isSome) :
    (checkGameOver w =
      match specCheckTermination role w with
      | some reason => .ok true (endGame reason w)
      | none => .ok false w) ∧
    (∀ reason, specCheckTermination role w = some reason →
      (checkGameOver w).world.gameOver = true ∧
      (checkGameOver w).world.narrativeLog =
        { text := reason, severity := .warning } ::
          { text := "GAME OVER", severity := .warning } :: w.narrativeLog) ∧
    (specCheckTermination role w = none → (checkGameOver w).world.gameOver = w.gameOver) ∧
    ((checkGameOver w).value? = some true ↔
      ∃ rule ∈ specTerminationTable role, rule.holds w = true) ∧
    ((checkGameOver w).value? = some false ↔
      ∀ rule ∈ specTerminationTable role, rule.holds w = false) := by
  have main : checkGameOver w =
      match specCheckTermination role w with
      | some reason => .ok true (endGame reason w)
      | none => .ok false w := by
    rcases hvalid with rfl | rfl
    · simp [specTerminationTable] at hstats
      obtain ⟨h1, h2, h3⟩ := hstats
      obtain ⟨health, hh⟩ := isSome_statVal h1
      obtain ⟨suspicion, hs⟩ := isSome_statVal h2
      obtain ⟨hunger, hu⟩ := isSome_statVal h3
      simp only [checkGameOver, hrole, if_true, hh, hs, hu, specCheckTermination,
        specTerminationTable, List.find?_cons, TerminationRule.holds, Threshold.crossedBy]
      by_cases c1 : health ≤ 0
      · simp [c1]
      · by_cases c2 : suspicion ≥ 100
        · simp [c1, c2]
        · by_cases c3 : hunger ≥ 100
          · simp [c1, c2, c3]
          · simp [c1, c2, c3]
    · simp [specTerminationTable] at hstats
      obtain ⟨h1, h2⟩ := hstats
      obtain ⟨control, hc⟩ := isSome_statVal h1
      obtain ⟨unrest, hu⟩ := isSome_statVal h2
      have hne : ¬ (some "occupier" = some "denizen") := by decide
      simp only [checkGameOver, hrole, hne, if_false, hc, hu, specCheckTermination,
        specTerminationTable, List.find?_cons, TerminationRule.holds, Threshold.crossedBy]
      by_cases c1 : control ≤ 0
      · simp [c1, hc, hu, List.find?_cons]
      · by_cases c2 : unrest ≥ 100
        · simp [c1, c2, hc, hu, List.find?_cons]
        · simp [c1, c2, hc, hu, List.find?_cons]
  have hfind : ∀ reason, specCheckTermination role w = some reason →
      ∃ rule ∈ specTerminationTable role, rule.holds w = true := by
    intro reason h
    simp only [specCheckTermination, Option.map_eq_some'] at h
    obtain ⟨rule, hr, -⟩ := h
    exact ⟨rule, List.mem_of_find?_eq_some hr, by simpa using List.find?_some hr⟩
  have hnone : specCheckTermination role w = none →
      ∀ rule ∈ specTerminationTable role, rule.holds w = false := by
    intro h rule hmem
    simp only [specCheckTermination, Option.map_eq_none', List.find?_eq_none] at h
    simpa using h rule hmem
  refine ⟨main, ?_, ?_, ?_, ?_⟩
  · intro reason h
    rw [main, h]
    exact ⟨rfl, rfl⟩
  · intro h
    rw [main, h]
    rfl
  · rw [main]
    cases h : specCheckTermination role w with
    | none =>
      simp only [Result.value?]
      constructor
      · intro h'; simp at h'
      · rintro ⟨rule, hmem, hholds⟩
        have := hnone h rule hmem
        simp [hholds] at this
    | some reason =>
      simp only [Result.value?, true_iff]
      exact hfind reason h
  · rw [main]
    cases h : specCheckTermination role w with
    | none =>
      simp only [Result.value?, true_iff]
      exact hnone h
    | some reason =>
      simp only [Result.value?]
      constructor
      · intro h'; simp at h'
      · intro hall
        obtain ⟨rule, hmem, hholds⟩ := hfind reason h
        have := hall rule hmem
        simp [hholds] at this

/-- Witness of C3: with health 0, suspicion 100 and hunger 100 at once, the
reason reported is that of the health row, the first of the table. -/
theorem checkGameOver_implements_table_witness :
    checkGameOver denizenAllCrossed =
      .ok true
        (endGame "You succumbed to your injuries. The city claimed another soul."
          denizenAllCrossed) :=
  (checkGameOver_implements_table denizenAllCrossed "denizen" rfl (Or.inl rfl) (by decide)).1

/-- C4. `resolveChoice` applies clamped deltas.  For every world (terminated or
not) and every choice whose effect keys are distinct, as the keys of a
JavaScript object are: for each entry `(stat, delta)` of `choice.effects` whose
key is a stat of `STATE.resources`, the stat after the call has the value
`clamp(old + delta, 0, max) = max(0, min(max, old + delta))` and the same `max`
and `label`.  In particular "Bribe Patrol", a choice of the Denizen pool with
effects `suspicion -20, supplies -2`, applied where neither stat exceeds its
maximum, leaves suspicion at `max(0, suspicion - 20)` and supplies at
`max(0, supplies - 2)`. -/
theorem resolveChoice_applies_clamped_deltas (w : World) (choice : Choice)
    (hkeys : (choice.effects.map Prod.fst).Nodup) :
    (∀ stat delta s, (stat, delta) ∈ choice.effects → w.resources.lookup stat = some s →
      (resolveChoice choice w).world.resources.lookup stat =
        some { s with val := clamp (s.val + delta) 0 s.max }) ∧
    (∀ v lo hi, clamp v lo hi = max lo (min hi v)) ∧
    (bribePatrol ∈ catalogChoices "denizen" ∧
      bribePatrol.effects = [("suspicion", -20), ("supplies", -2)] ∧
      ∀ suspicion supplies,
        w.resources.lookup "suspicion" = some suspicion →
        w.resources.lookup "supplies" = some supplies →
        suspicion.val ≤ suspicion.max → supplies.val ≤ supplies.max →
        (resolveChoice bribePatrol w).world.resources.lookup "suspicion" =
          some { suspicion with val := max 0 (suspicion.val - 20) } ∧
        (resolveChoice bribePatrol w).world.resources.lookup "supplies" =
          some { supplies with val := max 0 (supplies.val - 2) }) := by
  have general : ∀ (c : Choice), (c.effects.map Prod.fst).Nodup →
      ∀ stat delta s, (stat, delta) ∈ c.effects → w.resources.lookup stat = some s →
      (resolveChoice c w).world.resources.lookup stat =
        some { s with val := clamp (s.val + delta) 0 s.max } := by
    intro c hc stat delta s hmem hs
    rw [resolveChoice_resources, applyEffects_lookup_of_mem _ _ _ _ hc hmem, hs]
    rfl
  refine ⟨general choice hkeys, fun _ _ _ => rfl, by decide, rfl, ?_⟩
  intro suspicion supplies h1 h2 b1 b2
  have hb : (bribePatrol.effects.map Prod.fst).Nodup := by decide
  constructor
  · rw [general bribePatrol hb "suspicion" (-20) suspicion (by decide) h1]
    have : clamp (suspicion.val + -20) 0 suspicion.max = max 0 (suspicion.val - 20) := by
      have : min suspicion.max (suspicion.val + -20) = suspicion.val - 20 := by
        rw [min_eq_right (by omega)]; omega
      simp [clamp, this]
    rw [this]
  · rw [general bribePatrol hb "supplies" (-2) supplies (by decide) h2]
    have : clamp (supplies.val + -2) 0 supplies.max = max 0 (supplies.val - 2) := by
      have : min supplies.max (supplies.val + -2) = supplies.val - 2 := by
        rw [min_eq_right (by omega)]; omega
      simp [clamp, this]
    rw [this]

/-- Witness of C4: "Bribe Patrol" on a fresh Denizen session takes supplies
from 5 to 3. -/
theorem resolveChoice_applies_clamped_deltas_witness :
    (resolveChoice bribePatrol (freshSession "denizen")).world.resources.lookup "supplies" =
      some { val := 3, max := 50, label := "Supplies" } := by
  have h := (resolveChoice_applies_clamped_deltas (freshSession "denizen") bribePatrol
    (by decide)).1 "supplies" (-2) { val := 5, max := 50, label := "Supplies" }
    (by decide) (by decide)
  simpa [clamp] using h

/-- C5. Frame of `resolveChoice`.  An effect key that is no stat of
`STATE.resources` is ignored: the call does what it does for the choice without
that entry, no stat appears for the key, and the keys of `STATE.resources` stay
the same, in the same order.  A stat not named in `choice.effects` is
unchanged; the `max` and `label` of every stat, the role and the location are
unchanged.  In particular "Help Coworkers" (morale -20, health -5,
suspicion -5), a choice of the scripted event, applied to a fresh Denizen
session (any location, any draw) changes only health, from 100 to 95;
suspicion stays 0 and there is no stat `morale`. -/
theorem resolveChoice_frame (w : World) (choice : Choice) :
    (resolveChoice choice w =
      resolveChoice
        { choice with
          effects := choice.effects.filter fun e => (w.resources.lookup e.1).isSome } w) ∧
    (∀ stat, w.resources.lookup stat = none →
      (resolveChoice choice w).world.resources.lookup stat = none) ∧
    ((resolveChoice choice w).world.resources.map Prod.fst = w.resources.map Prod.fst) ∧
    (∀ stat, stat ∉ choice.effects.map Prod.fst →
      (resolveChoice choice w).world.resources.lookup stat = w.resources.lookup stat) ∧
    ((resolveChoice choice w).world.resources.schema = w.resources.schema) ∧
    ((resolveChoice choice w).world.role = w.role) ∧
    ((resolveChoice choice w).world.location = w.location) ∧
    (helpCoworkers ∈ MIDTOWN_ESCAPE_EVENT.choices ∧
      helpCoworkers.effects = [("morale", -20), ("health", -5), ("suspicion", -5)] ∧
      ∀ (rnd : Draw) (loc : String),
        (startGame "denizen" rnd (setLocation loc World.init)).world.resources =
          [ ("hunger", { val := 20, max := 100, label := "Hunger (Low is Good)" }),
            ("suspicion", { val := 0, max := 100, label := "Suspicion" }),
            ("health", { val := 100, max := 100, label := "Health" }),
            ("supplies", { val := 5, max := 50, label := "Supplies" }) ] ∧
        (resolveChoice helpCoworkers
            (startGame "denizen" rnd (setLocation loc World.init)).world).world.resources =
          [ ("hunger", { val := 20, max := 100, label := "Hunger (Low is Good)" }),
            ("suspicion", { val := 0, max := 100, label := "Suspicion" }),
            ("health", { val := 95, max := 100, label := "Health" }),
            ("supplies", { val := 5, max := 50, label := "Supplies" }) ]) := by
  obtain ⟨L, A, G, hw⟩ := resolveChoice_world choice w
  refine ⟨?_, ?_, ?_, ?_, resolveChoice_schema choice w, by rw [hw], by rw [hw], by decide, rfl,
    ?_⟩
  · have key : ∀ (es : List (String × Int)) (w' : World),
        (∀ k, (w'.resources.lookup k).isSome = (w.resources.lookup k).isSome) →
        applyEffects es w' =
          applyEffects (es.filter fun e => (w.resources.lookup e.1).isSome) w' := by
      intro es
      induction es with
      | nil => intro w' _; rfl
      | cons e es ih =>
        intro w' hk
        have h1 : applyEffects (e :: es) w' = applyEffects es (applyEffect e.1 e.2 w') := rfl
        have hk' : ∀ k, ((applyEffect e.1 e.2 w').resources.lookup k).isSome =
            (w.resources.lookup k).isSome := by
          intro k
          rw [applyEffect_lookup, ← hk k]
          split <;> simp
        rw [h1, ih _ hk']
        cases hsome : (w.resources.lookup e.1).isSome with
        | true =>
          rw [List.filter_cons_of_pos (by simpa using hsome)]
          rfl
        | false =>
          rw [List.filter_cons_of_neg (by simp [hsome])]
          have hnone : w'.resources.lookup e.1 = none := by
            have := hk e.1
            rw [hsome] at this
            simpa using this
          have : applyEffect e.1 e.2 w' = w' := by
            unfold applyEffect
            rw [hnone]
          rw [this]
    simp only [resolveChoice]
    rw [← key choice.effects w (fun _ => rfl)]
  · intro stat hnone
    by_cases hmem : stat ∈ choice.effects.map Prod.fst
    · have hk : ∀ (es : List (String × Int)) (w' : World), w'.resources.lookup stat = none →
          (applyEffects es w').resources.lookup stat = none := by
        intro es
        induction es with
        | nil => intro w' h; exact h
        | cons e es ih =>
          intro w' h
          have h1 : applyEffects (e :: es) w' = applyEffects es (applyEffect e.1 e.2 w') := rfl
          rw [h1]
          apply ih
          rw [applyEffect_lookup, h]
          split <;> rfl
      rw [resolveChoice_resources]
      exact hk _ _ hnone
    · rw [resolveChoice_resources, applyEffects_lookup_of_not_mem _ _ _ hmem, hnone]
  · exact Resources.keys_eq_of_schema (resolveChoice_schema choice w)
  · intro stat hmem
    rw [resolveChoice_resources, applyEffects_lookup_of_not_mem _ _ _ hmem]
  · intro rnd loc
    by_cases hloc : loc = "newyork"
    · subst hloc
      exact ⟨rfl, rfl⟩
    · have hs : (startGame "denizen" rnd (setLocation loc World.init)).world.resources =
          [ ("hunger", { val := 20, max := 100, label := "Hunger (Low is Good)" }),
            ("suspicion", { val := 0, max := 100, label := "Suspicion" }),
            ("health", { val := 100, max := 100, label := "Health" }),
            ("supplies", { val := 5, max := 50, label := "Supplies" }) ] := by
        simp [startGame, setLocation, World.init, ROLES, generateDailyEvent_eq, dailyEvent,
          Result.world, List.lookup]
      refine ⟨hs, ?_⟩
      rw [resolveChoice_resources]
      rw [applyEffects_resources_congr helpCoworkers.effects _
        ({ World.init with
          resources :=
            [ ("hunger", { val := 20, max := 100, label := "Hunger (Low is Good)" }),
              ("suspicion", { val := 0, max := 100, label := "Suspicion" }),
              ("health", { val := 100, max := 100, label := "Health" }),
              ("supplies", { val := 5, max := 50, label := "Supplies" }) ] } : World) hs]
      rfl

/-- Witness of C5: a fresh Denizen session has no stat `morale`, and has none
after "Help Coworkers", whose effects name it. -/
theorem resolveChoice_frame_witness :
    (freshSession "denizen").resources.lookup "morale" = none ∧
      (resolveChoice helpCoworkers (freshSession "denizen")).world.resources.lookup "morale" =
        none :=
  ⟨by decide,
    (resolveChoice_frame (freshSession "denizen") helpCoworkers).2.1 "morale" (by decide)⟩

/-- C6. Day counter.  `startGame` sets `day` to 1; `nextDay` on a world that is
not terminated increases `day` by exactly 1 (and leaves it alone on a terminated
one, so it never decreases it); `resolveChoice` never changes `day`; hence in
every world reachable in a session `day ≥ 1`. -/
theorem day_counter :
    (∀ role rnd w, (startGame role rnd w).world.day = 1) ∧
    (∀ rnd w, w.gameOver = false → (nextDay rnd w).world.day = w.day + 1) ∧
    (∀ rnd w, w.day ≤ (nextDay rnd w).world.day) ∧
    (∀ choice w, (resolveChoice choice w).world.day = w.day) ∧
    (∀ role w, Reachable role w → 1 ≤ w.day) := by
  refine ⟨startGame_day, ?_, ?_, resolveChoice_day, ?_⟩
  · intro rnd w h
    rw [nextDay_day, h]; rfl
  · intro rnd w
    rw [nextDay_day]
    split <;> omega
  · intro role w hreach
    induction hreach with
    | start w0 rnd _ => rw [startGame_day]
    | day rnd _ ih =>
      rw [nextDay_day]
      split <;> omega
    | choose choice _ _ ih => rw [resolveChoice_day]; exact ih

/-- Witness of C6: the first `nextDay` of a fresh Occupier session, which is not
terminated, takes `day` from 1 to 2. -/
theorem day_counter_witness :
    (freshSession "occupier").gameOver = false ∧ (freshSession "occupier").day = 1 ∧
      (nextDay drawZero (freshSession "occupier")).world.day = (freshSession "occupier").day + 1 :=
  ⟨by decide!, by decide!, day_counter.2.1 drawZero (freshSession "occupier") (by decide!)⟩

/-- C7. Scripted event selection.  In a world whose template object
`MIDTOWN_ESCAPE_EVENT` is as declared, `generateDailyEvent` returns normally and
the event it selects is the scripted one (the description, image and choices of
the template) iff `day = 1` and the role is `denizen`.  In that case the title
of the event is exactly "Downtown Under Siege" when the location is `portland`
and exactly "Manhattan Under Siege" when it is `newyork`, and its description,
image and choices equal those of the template.  The template object is the
same afterwards, its title "Midtown Under Siege" included. -/
theorem generateDailyEvent_scripted_iff (rnd : Draw) (w : World)
    (htemplate : w.MIDTOWN_ESCAPE_EVENT = MIDTOWN_ESCAPE_EVENT) :
    ∃ event w', generateDailyEvent rnd w = .ok event w' ∧
      (event.isScripted ↔ w.day = 1 ∧ w.role = some "denizen") ∧
      (w.day = 1 ∧ w.role = some "denizen" →
        (w.location = "portland" → event.title = "Downtown Under Siege") ∧
        (w.location = "newyork" → event.title = "Manhattan Under Siege") ∧
        event.description = MIDTOWN_ESCAPE_EVENT.description ∧
        event.image = MIDTOWN_ESCAPE_EVENT.image ∧
        event.choices = MIDTOWN_ESCAPE_EVENT.choices) ∧
      w'.MIDTOWN_ESCAPE_EVENT = w.MIDTOWN_ESCAPE_EVENT ∧
      w'.MIDTOWN_ESCAPE_EVENT = MIDTOWN_ESCAPE_EVENT ∧
      w'.MIDTOWN_ESCAPE_EVENT.title = "Midtown Under Siege" := by
  rw [generateDailyEvent_eq]
  by_cases hcond : w.day = 1 ∧ w.role = some "denizen"
  · by_cases hloc : w.location = "newyork"
    · have hd : dailyEvent rnd w =
          some { w.MIDTOWN_ESCAPE_EVENT.spread with title := "Manhattan Under Siege" } := by
        simp [dailyEvent, hcond, hloc]
      rw [hd]
      refine ⟨_, _, rfl, ?_, ?_, rfl, htemplate, by rw [htemplate]; rfl⟩
      · simp only [hcond, and_self, iff_true, htemplate]
        exact ⟨rfl, rfl, rfl⟩
      · intro _
        rw [htemplate]
        refine ⟨?_, fun _ => rfl, rfl, rfl, rfl⟩
        intro hp
        rw [hp] at hloc
        exact absurd hloc (by decide)
    · have hd : dailyEvent rnd w =
          some { w.MIDTOWN_ESCAPE_EVENT.spread with title := "Downtown Under Siege" } := by
        simp [dailyEvent, hcond, hloc]
      rw [hd]
      refine ⟨_, _, rfl, ?_, ?_, rfl, htemplate, by rw [htemplate]; rfl⟩
      · simp only [hcond, and_self, iff_true, htemplate]
        exact ⟨rfl, rfl, rfl⟩
      · intro _
        rw [htemplate]
        exact ⟨fun _ => rfl, fun h => absurd h hloc, rfl, rfl, rfl⟩
  · have hd : dailyEvent rnd w = getEventForRole w.role rnd := by
      simp only [dailyEvent, if_neg hcond]
    obtain ⟨event, hsel, hmem⟩ := getEventForRole_mem w.role rnd
    rw [hd, hsel]
    refine ⟨_, _, rfl, ?_, fun h => absurd h hcond, rfl, htemplate, by rw [htemplate]; rfl⟩
    have hns : ¬ event.isScripted := by
      apply pool_not_scripted
      split at hmem
      · exact List.mem_append_left _ hmem
      · exact List.mem_append_right _ hmem
    exact ⟨fun h => absurd h hns, fun h => absurd h hcond⟩

/-- Witness of C7: in New York, on day 1 of a Denizen session, the event
selected is "Manhattan Under Siege" and the template keeps its title. -/
theorem generateDailyEvent_scripted_iff_witness :
    ∃ event w',
      generateDailyEvent drawZero
          (startGame "denizen" drawZero (setLocation "newyork" World.init)).world =
        .ok event w' ∧
      event.title = "Manhattan Under Siege" ∧
      w'.MIDTOWN_ESCAPE_EVENT.title = "Midtown Under Siege" := by
  obtain ⟨event, w', h, -, h2, -, -, h4⟩ :=
    generateDailyEvent_scripted_iff drawZero
      (startGame "denizen" drawZero (setLocation "newyork" World.init)).world rfl
  exact ⟨event, w', h, (h2 ⟨rfl, rfl⟩).2.1 rfl, h4⟩

/-- C8. Pool membership.  For every role and every draw `r` of `Math.random()`,
a double in `[0, 1)`, the index `Math.floor(r * pool.length)` that the code
computes, with the product of doubles, lies within the bounds of the pool of the
role, and `getEventForRole(role)` returns the event at that index: an event of
`DENIZEN_EVENTS`, and none of `OCCUPIER_EVENTS`, when the role is `denizen`; an
event of `OCCUPIER_EVENTS`, and none of `DENIZEN_EVENTS`, for any other role,
`occupier` in particular. -/
theorem getEventForRole_in_own_pool (role : Option String) (rnd : Draw) :
    (role = some "denizen" →
      ∃ i : Nat,
        Rat.floor (roundToDouble (rnd.r * (DENIZEN_EVENTS.length : ℚ))) = (i : Int) ∧
        i < DENIZEN_EVENTS.length ∧
        ∃ event, getEventForRole role rnd = some event ∧ DENIZEN_EVENTS.get? i = some event ∧
          event ∈ DENIZEN_EVENTS ∧ event ∉ OCCUPIER_EVENTS) ∧
    (role ≠ some "denizen" →
      ∃ i : Nat,
        Rat.floor (roundToDouble (rnd.r * (OCCUPIER_EVENTS.length : ℚ))) = (i : Int) ∧
        i < OCCUPIER_EVENTS.length ∧
        ∃ event, getEventForRole role rnd = some event ∧ OCCUPIER_EVENTS.get? i = some event ∧
          event ∈ OCCUPIER_EVENTS ∧ event ∉ DENIZEN_EVENTS) := by
  constructor
  · intro hrole
    obtain ⟨i, hi, hlt, event, hget, hmem, hsel⟩ := getElem?_draw_denizen rnd
    exact ⟨i, hi, hlt, event, by rw [hrole]; exact hsel, hget, hmem, pools_disjoint event hmem⟩
  · intro hrole
    obtain ⟨i, hi, hlt, event, hget, hmem, hsel⟩ := getElem?_draw_occupier role rnd hrole
    exact ⟨i, hi, hlt, event, hsel, hget, hmem, fun h => pools_disjoint event h hmem⟩

/-- Witness of C8: at the draw `0.3333333333333333`, the double
`6004799503160661 / 2 ^ 54`, the product with the pool length 3 is `1 - 2 ^ -54`
exactly and the double `1` after rounding, so the index is 1 and the Denizen
gets the second event of `DENIZEN_EVENTS`, "The Market Leak". -/
theorem getEventForRole_in_own_pool_witness :
    ∃ rnd : Draw, rnd.r = 6004799503160661 / 18014398509481984 ∧
      Rat.floor (rnd.r * (DENIZEN_EVENTS.length : ℚ)) = 0 ∧
      Rat.floor (roundToDouble (rnd.r * (DENIZEN_EVENTS.length : ℚ))) = 1 ∧
      ∃ event, getEventForRole (some "denizen") rnd = some event ∧
        event.title = "The Market Leak" ∧ event ∈ DENIZEN_EVENTS ∧
        event ∉ OCCUPIER_EVENTS := by
  refine ⟨⟨6004799503160661 / 18014398509481984, by norm_num, by norm_num,
    roundToDouble_third⟩, rfl, ?_, ?_, ?_⟩
  · show ⌊(6004799503160661 / 18014398509481984 * ((3 : Nat) : ℚ) : ℚ)⌋ = 0
    norm_num
  · show Rat.floor (roundToDouble (6004799503160661 / 18014398509481984 * ((3 : Nat) : ℚ))) = 1
    rw [roundToDouble_third_times_three]
    rfl
  · obtain ⟨i, hi, -, event, hsel, hget, hmem, hnot⟩ :=
      (getEventForRole_in_own_pool (some "denizen")
        ⟨6004799503160661 / 18014398509481984, by norm_num, by norm_num,
          roundToDouble_third⟩).1 rfl
    have h1 : Rat.floor
        (roundToDouble (6004799503160661 / 18014398509481984 * ((3 : Nat) : ℚ))) = 1 := by
      rw [roundToDouble_third_times_three]
      rfl
    have hi1 : i = 1 := by
      have : (1 : Int) = (i : Int) := h1.symm.trans hi
      omega
    subst hi1
    refine ⟨event, hsel, ?_, hmem, hnot⟩
    have : event = DENIZEN_EVENTS.get ⟨1, by decide⟩ := by
      have h := List.get?_eq_get (l := DENIZEN_EVENTS) (n := 1) (by decide)
      rw [hget] at h
      exact Option.some.inj h
    rw [this]
    rfl

/-- Counterexample of C9: in the Denizen world `denizenWeak`, not terminated,
with hunger 85 and health 5, `applyPassiveEffects` sets hunger to
`clamp(85 + 10, 0, 100) = 95`, keeps suspicion at `clamp(0 - 5, 0, 100) = 0`
and supplies at 5, and, hunger now being at least 90, sets health to -5, where
`clamp(5 - 10, 0, 100)` is 0: the subtraction `health.val -= 10` is not
clamped.  The world is reached by calls of `resolveChoice` and `nextDay` with
choices of the catalog, twenty of them on day 1; it is not a world the page can
be in. -/
theorem applyPassiveEffects_denizen_health_unclamped :
    Reachable "denizen" denizenWeak ∧
    ¬ Played denizenWeak ∧
    denizenWeak.gameOver = false ∧
    denizenWeak.resources =
      [ ("hunger", { val := 85, max := 100, label := "Hunger (Low is Good)" }),
        ("suspicion", { val := 0, max := 100, label := "Suspicion" }),
        ("health", { val := 5, max := 100, label := "Health" }),
        ("supplies", { val := 5, max := 50, label := "Supplies" }) ] ∧
    (applyPassiveEffects denizenWeak).world.resources =
      [ ("hunger", { val := 95, max := 100, label := "Hunger (Low is Good)" }),
        ("suspicion", { val := 0, max := 100, label := "Suspicion" }),
        ("health", { val := -5, max := 100, label := "Health" }),
        ("supplies", { val := 5, max := 50, label := "Supplies" }) ] ∧
    clamp (85 + 10) 0 100 = 95 ∧ clamp (0 - 5) 0 100 = 0 ∧ clamp (5 - 10) 0 100 = 0 := by
  have hres : denizenWeak.resources = denizenStats 85 0 5 5 := by decide!
  refine ⟨reachable_denizenWeak, ?_, by decide!, by decide!, by decide!, by decide, by decide,
    by decide⟩
  intro hp
  obtain ⟨h, s, l, p, hres', -, -, -, -, hl, -⟩ := hp.denizen_bounds (by decide!)
  rw [hres] at hres'
  have : (5 : Int) = l := by
    simp only [denizenStats, List.cons.injEq, Prod.mk.injEq, Stat.mk.injEq, true_and,
      and_true] at hres'
    exact hres'.2.2.1
  omega

/-- C9, as amended.  Denizen passive effects.  In every Denizen world whose stats
lie within their bounds, with health at least 10 when hunger is at least 80,
`applyPassiveEffects` returns normally, sets hunger to `clamp(hunger + 10, 0, 100)`
and suspicion to `clamp(suspicion - 5, 0, 100)`, sets health to
`clamp(health - 10, 0, 100)` when the new hunger is at least 90 (logging "You are
starving...") and leaves it alone otherwise, and leaves supplies and everything
else alone.  Every Denizen world the page can be in is such a world: its stats
lie within their bounds, its health is at least 35, and at least 45 while the
session is running.  With hunger 85, one `nextDay` gives hunger 95 and health
reduced by 10, and the session is not terminated when health stays above 0 and
suspicion below 100. -/
theorem applyPassiveEffects_denizen_clamped :
    (∀ (w : World) (h s l p : Int),
      w.role = some "denizen" → w.resources = denizenStats h s l p →
      0 ≤ h → h ≤ 100 → 0 ≤ s → s ≤ 100 → 0 ≤ l → l ≤ 100 → (80 ≤ h → 10 ≤ l) →
      applyPassiveEffects w =
        .ok ()
          { w with
            resources :=
              denizenStats (clamp (h + 10) 0 100) (clamp (s - 5) 0 100)
                (if 90 ≤ clamp (h + 10) 0 100 then clamp (l - 10) 0 100 else l) p
            narrativeLog :=
              if 90 ≤ clamp (h + 10) 0 100 then
                { text := "You are starving...", severity := .warning } :: w.narrativeLog
              else w.narrativeLog }) ∧
    (∀ w : World, Played w → w.role = some "denizen" →
      ∃ h s l p, w.resources = denizenStats h s l p ∧
        20 ≤ h ∧ h ≤ 100 ∧ 0 ≤ s ∧ s ≤ 100 ∧ 35 ≤ l ∧ l ≤ 100 ∧ 0 ≤ p ∧ p ≤ 50 ∧
        (w.gameOver = false → h < 100 ∧ 45 ≤ l)) ∧
    (∀ (rnd : Draw) (w : World) (s l p : Int),
      w.role = some "denizen" → w.resources = denizenStats 85 s l p → w.gameOver = false →
      0 ≤ s → s ≤ 100 → 10 < l → l ≤ 100 →
      (nextDay rnd w).world.resources = denizenStats 95 (clamp (s - 5) 0 100) (l - 10) p ∧
        (nextDay rnd w).world.gameOver = false ∧
        (nextDay rnd w).world.day = w.day + 1) := by
  refine ⟨?_, fun w hp hrole => hp.denizen_bounds hrole, ?_⟩
  · intro w h s l p hrole hres h0 h1 s0 s1 l0 l1 hl
    rw [applyPassiveEffects_denizenStats w h s l p hrole hres]
    have e1 : min 100 (h + 10) = clamp (h + 10) 0 100 := by unfold clamp; omega
    have e2 : max 0 (s - 5) = clamp (s - 5) 0 100 := by unfold clamp; omega
    rw [e1, e2]
    by_cases hc : 90 ≤ clamp (h + 10) 0 100
    · have e3 : l - 10 = clamp (l - 10) 0 100 := by
        have : 80 ≤ h := by unfold clamp at hc; omega
        have := hl this
        unfold clamp
        omega
      simp only [if_pos hc]
      rw [← e3]
    · simp only [if_neg hc]
  · intro rnd w s l p hrole hres hg s0 s1 l0 l1
    have hs : InSession "denizen" w := (inSession_denizen w).2 ⟨hrole, 85, s, l, p, hres⟩
    obtain ⟨w1, hp, -, hd2, -, hres2, hcase⟩ := nextDay_running rnd w "denizen" hs hg
    rw [applyPassiveEffects_denizenStats { w with day := w.day + 1 } 85 s l p hrole hres] at hp
    injection hp with _ hw1
    have hres1 : w1.resources = denizenStats 95 (clamp (s - 5) 0 100) (l - 10) p := by
      rw [← hw1]
      show denizenStats (min 100 (85 + 10)) (max 0 (s - 5))
        (if 90 ≤ min 100 (85 + 10) then l - 10 else l) p = _
      have e2 : max 0 (s - 5) = clamp (s - 5) 0 100 := by unfold clamp; omega
      rw [e2]
      rfl
    have hsp := specCheckTermination_denizen w1 _ _ _ _ hres1
    have hnone : specCheckTermination "denizen" w1 = none := by
      rw [hsp]
      have : ¬ clamp (s - 5) 0 100 ≥ 100 := by unfold clamp; omega
      rw [if_neg (by omega), if_neg this, if_neg (by decide)]
    refine ⟨hres2.trans hres1, ?_, hd2⟩
    rcases hcase with ⟨hne, -, -⟩ | ⟨-, hgo, -⟩
    · exact absurd hnone hne
    · exact hgo

/-- Witness of C9, as amended: the Denizen session `denizenHungry`, played
through the buttons of the page, is running on day 7 with hunger 85 and health
100;
`applyPassiveEffects` gives hunger 95 and health `clamp(100 - 10, 0, 100) = 90`,
and the `nextDay` of the button "End Day" leaves the session running with these
stats. -/
theorem applyPassiveEffects_denizen_clamped_witness :
    Played denizenHungry ∧ denizenHungry.gameOver = false ∧ denizenHungry.day = 7 ∧
    denizenHungry.resources = denizenStats 85 0 100 15 ∧
    (applyPassiveEffects denizenHungry).world.resources = denizenStats 95 0 90 15 ∧
    (nextDay drawZero denizenHungry).world.resources = denizenStats 95 0 90 15 ∧
    (nextDay drawZero denizenHungry).world.gameOver = false ∧
    (nextDay drawZero denizenHungry).world.day = 8 := by
  have hp : Played denizenHungry :=
    played_clicks _ _ _ (played_freshSession "denizen" (Or.inl rfl))
  have hrole : denizenHungry.role = some "denizen" := by decide!
  have hres : denizenHungry.resources = denizenStats 85 0 100 15 := by decide!
  have hg : denizenHungry.gameOver = false := by decide!
  have hday : denizenHungry.day = 7 := by decide!
  have h1 := applyPassiveEffects_denizen_clamped.1 denizenHungry 85 0 100 15 hrole hres
    (by decide) (by decide) (by decide) (by decide) (by decide) (by decide) (fun _ => by decide)
  obtain ⟨h3, h4, h5⟩ := applyPassiveEffects_denizen_clamped.2.2 drawZero denizenHungry 0 100 15
    hrole hres hg (by decide) (by decide) (by decide) (by decide)
  refine ⟨hp, hg, hday, hres, ?_, h3, h4, ?_⟩
  · rw [h1]
    rfl
  · rw [h5, hday]
    rfl

/-- C10 (the code breaks it).  In the reachable, not terminated Occupier world
`occupierOutOfRations`, where the stock of rations is 0, `applyPassiveEffects`
sets `unrest` to `clamp(0 + 5, 0, 100) = 5`, leaves `control` and `manpower`
alone, and sets `resources` to -5, where `clamp(0 - 5, 0, 500)` is 0. -/
theorem applyPassiveEffects_occupier_resources_unclamped :
    Reachable "occupier" occupierOutOfRations ∧
    occupierOutOfRations.gameOver = false ∧
    occupierOutOfRations.resources =
      [ ("control", { val := 80, max := 100, label := "City Control" }),
        ("resources", { val := 0, max := 500, label := "Rations Stock" }),
        ("unrest", { val := 0, max := 100, label := "Civil Unrest" }),
        ("manpower", { val := 50, max := 100, label := "Patrol Strength" }) ] ∧
    (applyPassiveEffects occupierOutOfRations).world.resources =
      [ ("control", { val := 80, max := 100, label := "City Control" }),
        ("resources", { val := -5, max := 500, label := "Rations Stock" }),
        ("unrest", { val := 5, max := 100, label := "Civil Unrest" }),
        ("manpower", { val := 50, max := 100, label := "Patrol Strength" }) ] ∧
    clamp (0 + 5) 0 100 = 5 ∧ clamp (0 - 5) 0 500 = 0 :=
  ⟨reachable_occupierOutOfRations, by decide!, by decide!, by decide!, by decide, by decide⟩

/-- C11. The Occupier sixteen-day scenario.  After `startGame('occupier')` from
any world whose `ROLES` catalog is the initial one, unrest is 20 and control 80.
Calling `nextDay` repeatedly, whatever the draws and with no `resolveChoice` in
between: after each of the first 15 calls the session is not terminated and
unrest is 20 plus 5 per call; after the 16th call unrest is 100, `gameOver` is
true, and the two latest log entries are "GAME OVER" and then the reason
"A massive uprising has overthrown your command center.". -/
theorem occupier_sixteen_days (w0 : World) (rnd0 : Draw) (draws : List Draw)
    (hcat : w0.ROLES = ROLES) :
    (statVal (startGame "occupier" rnd0 w0).world "unrest" = some 20 ∧
      statVal (startGame "occupier" rnd0 w0).world "control" = some 80 ∧
      (startGame "occupier" rnd0 w0).world.gameOver = false) ∧
    (draws.length ≤ 15 →
      (runCalls (draws.map Call.day) (startGame "occupier" rnd0 w0).world).gameOver = false ∧
      statVal (runCalls (draws.map Call.day) (startGame "occupier" rnd0 w0).world) "unrest" =
        some (20 + 5 * (draws.length : Int))) ∧
    (draws.length = 16 →
      statVal (runCalls (draws.map Call.day) (startGame "occupier" rnd0 w0).world) "unrest" =
        some 100 ∧
      (runCalls (draws.map Call.day) (startGame "occupier" rnd0 w0).world).gameOver = true ∧
      (runCalls (draws.map Call.day) (startGame "occupier" rnd0 w0).world).narrativeLog.take 2 =
        [ { text := "A massive uprising has overthrown your command center.",
            severity := .warning },
          { text := "GAME OVER", severity := .warning } ]) := by
  obtain ⟨L, A, hstart⟩ := startGame_ok "occupier" rnd0 w0 _
    (by rw [hcat]; exact ROLES_lookup_occupier)
  have hrole : (startGame "occupier" rnd0 w0).world.role = some "occupier" := by rw [hstart]; rfl
  have hres : (startGame "occupier" rnd0 w0).world.resources = occupierStats 80 100 20 50 := by
    rw [hstart]; rfl
  have hg : (startGame "occupier" rnd0 w0).world.gameOver = false := by rw [hstart]; rfl
  generalize (startGame "occupier" rnd0 w0).world = w at hrole hres hg ⊢
  obtain ⟨hc0, -, hu0, -⟩ := statVal_occupierStats w _ _ _ _ hres
  refine ⟨⟨hu0, hc0, hg⟩, ?_, ?_⟩
  · intro hlen
    obtain ⟨-, i2, i3, -⟩ := occupier_quiet_days draws w 100 20 hrole hres hg (by omega)
    exact ⟨i3, (statVal_occupierStats _ _ _ _ _ i2).2.2.1⟩
  · intro hlen
    rcases List.eq_nil_or_concat draws with rfl | ⟨ds, d, rfl⟩
    · simp at hlen
    · have hds : ds.length = 15 := by simpa using hlen
      obtain ⟨i1, i2, i3, -⟩ := occupier_quiet_days ds w 100 20 hrole hres hg (by omega)
      rw [List.concat_eq_append, List.map_append, runCalls_append]
      obtain ⟨-, j2, -, -, j5⟩ :=
        nextDay_occupier_step d (runCalls (ds.map Call.day) w) 80 _ _ 50 i1 i2 i3 (by decide)
      have hmin : min 100 (20 + 5 * (ds.length : Int) + 5) = 100 := by
        rw [hds]; decide
      rw [hmin] at j2 j5
      obtain ⟨k1, k2⟩ := j5 (le_refl _)
      refine ⟨(statVal_occupierStats _ _ _ _ _ j2).2.2.1, k1, ?_⟩
      show ((nextDay d (runCalls (ds.map Call.day) w)).world.narrativeLog).take 2 = _
      rw [k2]
      rfl

/-- Witness of C11: with every draw 0, the sixteenth `nextDay` of an Occupier
session started on the fresh page ends it with unrest 100. -/
theorem occupier_sixteen_days_witness :
    statVal occupierOverthrown "unrest" = some 100 ∧ occupierOverthrown.gameOver = true ∧
      occupierLastDay.gameOver = false := by
  have h := occupier_sixteen_days World.init drawZero (List.replicate 16 drawZero) rfl
  have h' := occupier_sixteen_days World.init drawZero (List.replicate 15 drawZero) rfl
  exact ⟨(h.2.2 rfl).1, (h.2.2 rfl).2.1, (h'.2.1 (by decide)).1⟩

/-- C12. `startGame` produces a fresh session whatever the previous state.  For
`denizen` and `occupier` and any prior world whose `ROLES` catalog is the
initial one (no call changes it), `startGame(role)` returns normally with the
given role, `day = 1`, `gameOver = false` and `STATE.resources` equal, values,
bounds and labels, to `ROLES[role].stats` (so Denizen hunger is 20); and after
any later sequence of calls of `nextDay` and `resolveChoice`, with any choices,
the `ROLES` catalog is still the initial one. -/
theorem startGame_fresh_session (role : String) (rnd : Draw) (w : World)
    (hrole : role = "denizen" ∨ role = "occupier") (hcat : w.ROLES = ROLES) :
    ∃ roleDef w', ROLES.lookup role = some roleDef ∧ startGame role rnd w = .ok () w' ∧
      w'.role = some role ∧ w'.day = 1 ∧ w'.gameOver = false ∧
      w'.resources = roleDef.stats ∧
      (role = "denizen" → statVal w' "hunger" = some 20) ∧
      w'.ROLES = ROLES ∧
      ∀ calls, (runCalls calls w').ROLES = ROLES := by
  have hl : ∃ roleDef, ROLES.lookup role = some roleDef ∧
      (role = "denizen" → roleDef.stats = denizenStats 20 0 100 5) := by
    rcases hrole with rfl | rfl
    · exact ⟨_, ROLES_lookup_denizen, fun _ => rfl⟩
    · exact ⟨_, ROLES_lookup_occupier, fun h => absurd h (by decide)⟩
  obtain ⟨roleDef, hlook, hden⟩ := hl
  obtain ⟨L, A, hstart⟩ := startGame_ok role rnd w roleDef (by rw [hcat]; exact hlook)
  refine ⟨roleDef, _, hlook, hstart, rfl, rfl, rfl, rfl, ?_, hcat, ?_⟩
  · intro hd
    exact (statVal_denizenStats _ 20 0 100 5 (hden hd)).1
  · intro calls
    rw [(runCalls_catalog calls _).1]
    exact hcat

/-- Witness of C12: `startGame('denizen')` on the world left by the terminated
Occupier session `occupierOverthrown` gives day 1, hunger 20, not terminated. -/
theorem startGame_fresh_session_witness :
    occupierOverthrown.gameOver = true ∧ occupierOverthrown.day = 17 ∧
      ∃ w', startGame "denizen" drawZero occupierOverthrown = .ok () w' ∧
        w'.day = 1 ∧ w'.gameOver = false ∧ statVal w' "hunger" = some 20 := by
  obtain ⟨roleDef, w', -, h, -, hd, hg, -, hh, -⟩ :=
    startGame_fresh_session "denizen" drawZero occupierOverthrown (Or.inl rfl) (by decide!)
  exact ⟨by decide!, by decide!, w', h, hd, hg, hh rfl⟩

/-- Counterexample of C13: `startGame('rebel')` on the world left by the
terminated Occupier session `occupierOverthrown` (role `occupier`, day 17,
`gameOver` true) throws, and the world it leaves has role `rebel`, day 1 and
`gameOver` false: it is not the world it started from. -/
theorem startGame_invalid_role_not_atomic :
    occupierOverthrown.role = some "occupier" ∧ occupierOverthrown.day = 17 ∧
    occupierOverthrown.gameOver = true ∧
    (startGame "rebel" drawZero occupierOverthrown).value? = none ∧
    (startGame "rebel" drawZero occupierOverthrown).world.role = some "rebel" ∧
    (startGame "rebel" drawZero occupierOverthrown).world.day = 1 ∧
    (startGame "rebel" drawZero occupierOverthrown).world.gameOver = false ∧
    (startGame "rebel" drawZero occupierOverthrown).world ≠ occupierOverthrown := by
  refine ⟨by decide!, by decide!, by decide!, by decide!, by decide!, by decide!, by decide!, ?_⟩
  intro h
  have hd : (startGame "rebel" drawZero occupierOverthrown).world.day = occupierOverthrown.day := by
    rw [h]
  have h1 : (startGame "rebel" drawZero occupierOverthrown).world.day = 1 := by decide!
  have h17 : occupierOverthrown.day = 17 := by decide!
  rw [h1, h17] at hd
  exact absurd hd (by decide)

/-- C13, as amended.  For every role other than `denizen` and `occupier`, in a
world whose `ROLES` catalog is the initial one, `startGame(role)` fails with an
exception, but not atomically: when the exception leaves, `STATE.role` is the
given role, `STATE.day` is 1 and `STATE.gameOver` is false; the stats, the
location, the log, the action buttons and the catalog objects are as they were
before the call. -/
theorem startGame_invalid_role (role : String) (rnd : Draw) (w : World)
    (h1 : role ≠ "denizen") (h2 : role ≠ "occupier") (hcat : w.ROLES = ROLES) :
    startGame role rnd w = .threw { w with role := some role, day := 1, gameOver := false } ∧
    (startGame role rnd w).value? = none ∧
    (startGame role rnd w).world.role = some role ∧
    (startGame role rnd w).world.day = 1 ∧
    (startGame role rnd w).world.gameOver = false ∧
    (startGame role rnd w).world.resources = w.resources ∧
    (startGame role rnd w).world.location = w.location ∧
    (startGame role rnd w).world.narrativeLog = w.narrativeLog ∧
    (startGame role rnd w).world.actions = w.actions ∧
    (startGame role rnd w).world.ROLES = w.ROLES ∧
    (startGame role rnd w).world.MIDTOWN_ESCAPE_EVENT = w.MIDTOWN_ESCAPE_EVENT := by
  have h : startGame role rnd w =
      .threw { w with role := some role, day := 1, gameOver := false } := by
    dsimp only [startGame]
    rw [hcat, ROLES_lookup_other role h1 h2]
  rw [h]
  exact ⟨rfl, rfl, rfl, rfl, rfl, rfl, rfl, rfl, rfl, rfl, rfl⟩

/-- Witness of C13, as amended: `startGame('rebel')` on `occupierOverthrown`
throws and leaves the stats of the Occupier session in place. -/
theorem startGame_invalid_role_witness :
    (startGame "rebel" drawZero occupierOverthrown).value? = none ∧
      (startGame "rebel" drawZero occupierOverthrown).world.resources =
        occupierOverthrown.resources := by
  have h := startGame_invalid_role "rebel" drawZero occupierOverthrown (by decide) (by decide)
    (by decide!)
  exact ⟨h.2.1, h.2.2.2.2.2.1⟩

/-- Counterexample of C14: on a fresh Denizen session, not terminated, the page
offers the three choices of the scripted event; "Bribe Patrol" is not one of
them, yet `resolveChoice` given "Bribe Patrol" returns normally, takes supplies
from 5 to 3 and adds two entries to the log. -/
theorem resolveChoice_accepts_unoffered_choice :
    (freshSession "denizen").gameOver = false ∧
    offeredChoices (freshSession "denizen") = MIDTOWN_ESCAPE_EVENT.choices ∧
    bribePatrol ∉ offeredChoices (freshSession "denizen") ∧
    (resolveChoice bribePatrol (freshSession "denizen")).value? = some () ∧
    statVal (freshSession "denizen") "supplies" = some 5 ∧
    statVal (resolveChoice bribePatrol (freshSession "denizen")).world "supplies" = some 3 ∧
    (resolveChoice bribePatrol (freshSession "denizen")).world.narrativeLog =
      { text := "You gave them some food. They left you alone, for now.", severity := .normal } ::
        { text := "> Bribe Patrol", severity := .choice } ::
          (freshSession "denizen").narrativeLog := by
  refine ⟨by decide!, by decide!, by decide!, by decide!, by decide!, by decide!, by decide!⟩

/-- C14, as amended.  `resolveChoice` makes no membership check and never fails
with `UnknownChoice`: in every session world and for every choice, offered or
not, it returns normally, leaves the stats as its effects loop leaves them (the
clamped deltas of the choice), logs the label and the outcome of the choice
(followed by the termination entries, if any) and leaves `day` unchanged.  The
offer is enforced by the page alone: the buttons `generateDailyEvent` creates
carry exactly the choices of the event it selected, the choice of a button is
an offered one, and a click on an enabled button calls `resolveChoice` with the
choice of that button, all buttons disabled. -/
theorem resolveChoice_no_membership_check (role : String) (w : World) (choice : Choice)
    (hs : InSession role w) :
    (∃ w', resolveChoice choice w = .ok () w' ∧
      w'.resources = (applyEffects choice.effects w).resources ∧
      w'.day = w.day ∧
      ∃ newer, w'.narrativeLog =
        newer ++ { text := choice.outcome, severity := .normal } ::
          { text := "> " ++ choice.label, severity := .choice } :: w.narrativeLog) ∧
    (∀ rnd event w', generateDailyEvent rnd w = .ok event w' →
      offeredChoices w' = event.choices) ∧
    (∀ i rnd b c, w.actions.get? i = some b → b.onClick = .resolve c →
      c ∈ offeredChoices w ∧
      (b.disabled = false →
        click i rnd w =
          resolveChoice c
            { w with actions := w.actions.map fun b => { b with disabled := true } })) := by
  refine ⟨?_, ?_, ?_⟩
  · have hr := resolveChoice_inSession choice w role hs
    obtain ⟨hl, -, hd⟩ := applyEffects_narrativeLog choice.effects w
    generalize applyEffects choice.effects w = w1 at hr hl hd ⊢
    cases hspec : specCheckTermination role w1 with
    | some reason =>
      rw [hspec] at hr
      exact ⟨_, hr, rfl, hd,
        [{ text := reason, severity := .warning }, { text := "GAME OVER", severity := .warning }],
        by rw [← hl]; rfl⟩
    | none =>
      rw [hspec] at hr
      exact ⟨_, hr, rfl, hd, [], by rw [← hl]; rfl⟩
  · intro rnd event w' h
    rw [generateDailyEvent_eq] at h
    cases hd : dailyEvent rnd w with
    | none => rw [hd] at h; cases h
    | some e =>
      rw [hd] at h
      injection h with h1 h2
      subst h1
      exact offeredChoices_buttons _ _ (by rw [← h2])
  · intro i rnd b c hb hc
    refine ⟨mem_offeredChoices w i b c hb hc, ?_⟩
    intro hdis
    simp only [click, hb, hdis, hc]
    rfl

/-- Witness of C14, as amended: "Bribe Patrol", which the fresh Denizen session
does not offer, is resolved normally there. -/
theorem resolveChoice_no_membership_check_witness :
    ∃ w', resolveChoice bribePatrol (freshSession "denizen") = .ok () w' ∧
      w'.day = (freshSession "denizen").day := by
  have hs : InSession "denizen" (freshSession "denizen") :=
    (inSession_denizen _).2 ⟨by decide, 20, 0, 100, 5, by decide⟩
  obtain ⟨w', h, -, hd, -⟩ :=
    (resolveChoice_no_membership_check "denizen" (freshSession "denizen") bribePatrol hs).1
  exact ⟨w', h, hd⟩

/-- C15. Ordering of `nextDay`.  In a session world that is not terminated,
`nextDay` increments `day`, then `applyPassiveEffects` runs and returns a world
`w1`, then the termination check runs on the stats of `w1`.  If a row of the
table holds for `w1`, the session is terminated (`endGame` on `w1`): the log
gains only "GAME OVER" and the reason on top of the log of `w1`, no event is
selected and no choice is offered.  If no row holds, the event of the day is
selected for `w1` (its day is the incremented one), its title line and its
description are logged on top of the log of `w1`, its choices are offered, and
the session is not terminated.  Passive effects add no event line to the log. -/
theorem nextDay_order (rnd : Draw) (w : World) (role : String) (hs : InSession role w)
    (hg : w.gameOver = false) :
    ∃ w1, applyPassiveEffects { w with day := w.day + 1 } = .ok () w1 ∧
      w1.day = w.day + 1 ∧
      (nextDay rnd w).world.day = w.day + 1 ∧
      (nextDay rnd w).world.resources = w1.resources ∧
      (w1.narrativeLog = w.narrativeLog ∨
        w1.narrativeLog =
          { text := "You are starving...", severity := .warning } :: w.narrativeLog) ∧
      (∀ reason, specCheckTermination role w1 = some reason →
        nextDay rnd w = .ok () (endGame reason w1) ∧
        (nextDay rnd w).world.gameOver = true ∧
        (nextDay rnd w).world.narrativeLog =
          { text := reason, severity := .warning } ::
            { text := "GAME OVER", severity := .warning } :: w1.narrativeLog ∧
        offeredChoices (nextDay rnd w).world = []) ∧
      (specCheckTermination role w1 = none →
        ∃ event, dailyEvent rnd w1 = some event ∧
          (nextDay rnd w).value? = some () ∧
          (nextDay rnd w).world.gameOver = false ∧
          (nextDay rnd w).world.narrativeLog =
            { text := event.description, severity := .normal } ::
              { text := "Day " ++ toString (w.day + 1) ++ ": " ++ event.title,
                severity := .normal } :: w1.narrativeLog ∧
          offeredChoices (nextDay rnd w).world = event.choices) := by
  obtain ⟨w1, hp, hs1, hd, hg1, -, -, hL, hn⟩ := nextDay_inSession rnd w role hs hg
  refine ⟨w1, hp, hd, ?_, ?_, hL, ?_, ?_⟩
  · rw [hn]
    cases specCheckTermination role w1 with
    | some reason => exact hd
    | none =>
      dsimp only
      cases dailyEvent rnd w1 with
      | none => exact hd
      | some event => exact hd
  · rw [hn]
    cases specCheckTermination role w1 with
    | some reason => rfl
    | none =>
      dsimp only
      cases dailyEvent rnd w1 with
      | none => rfl
      | some event => rfl
  · intro reason hr
    rw [hn, hr]
    exact ⟨rfl, rfl, rfl, rfl⟩
  · intro hr
    obtain ⟨event, he⟩ := dailyEvent_some rnd w1
    refine ⟨event, he, ?_⟩
    rw [hn, hr]
    dsimp only
    rw [he]
    refine ⟨rfl, hg1, ?_, ?_⟩
    · simp only [Result.world, hd]
    · exact offeredChoices_buttons _ _ rfl

/-- Witness of C15: the sixteenth `nextDay` of the Occupier session
`occupierLastDay` (unrest 95) terminates it: day 17, no choice offered, and the
log gains "GAME OVER" and the reason but no event line. -/
theorem nextDay_order_witness :
    (nextDay drawZero occupierLastDay).world.day = occupierLastDay.day + 1 ∧
    (nextDay drawZero occupierLastDay).world.gameOver = true ∧
    offeredChoices (nextDay drawZero occupierLastDay).world = [] ∧
    (nextDay drawZero occupierLastDay).world.narrativeLog =
      { text := "A massive uprising has overthrown your command center.",
        severity := .warning } ::
        { text := "GAME OVER", severity := .warning } :: occupierLastDay.narrativeLog := by
  have hs : InSession "occupier" occupierLastDay :=
    (inSession_occupier _).2 ⟨by decide!, 80, 25, 95, 50, by decide!⟩
  obtain ⟨w1, hp, -, hday, -, -, hterm, -⟩ :=
    nextDay_order drawZero occupierLastDay "occupier" hs (by decide!)
  have hw1 : w1 =
      (applyPassiveEffects { occupierLastDay with day := occupierLastDay.day + 1 }).world := by
    rw [hp]; rfl
  obtain ⟨-, hg, hlog, hoff⟩ :=
    hterm "A massive uprising has overthrown your command center." (by rw [hw1]; decide!)
  refine ⟨hday, hg, hoff, ?_⟩
  rw [hlog, hw1]
  decide!

/-- C16. Termination logging.  `endGame(reason)` sets `gameOver` and adds exactly
two log entries, both of severity `warning`: "GAME OVER" and then the reason
(the log lists the latest entry first).  In a session world `checkGameOver`
calls it, with the reason of the first row of the table that holds, exactly
when some row holds.  `resolveChoice` first logs one `choice` entry for the
label (the text "> " followed by the label) and then one `normal` entry with
the outcome text; when the effects make a row hold, "GAME OVER" and the reason
follow them, and when none holds nothing more is logged and `gameOver` is as
before. -/
theorem termination_logging (role : String) (w : World) (choice : Choice)
    (hs : InSession role w) :
    (∀ reason w0,
      (endGame reason w0).gameOver = true ∧
      (endGame reason w0).narrativeLog =
        { text := reason, severity := .warning } ::
          { text := "GAME OVER", severity := .warning } :: w0.narrativeLog) ∧
    (∀ reason, specCheckTermination role w = some reason →
      checkGameOver w = .ok true (endGame reason w)) ∧
    (specCheckTermination role w = none → checkGameOver w = .ok false w) ∧
    (∀ reason, specCheckTermination role (applyEffects choice.effects w) = some reason →
      (resolveChoice choice w).world.gameOver = true ∧
      (resolveChoice choice w).world.narrativeLog =
        { text := reason, severity := .warning } ::
          { text := "GAME OVER", severity := .warning } ::
            { text := choice.outcome, severity := .normal } ::
              { text := "> " ++ choice.label, severity := .choice } :: w.narrativeLog) ∧
    (specCheckTermination role (applyEffects choice.effects w) = none →
      (resolveChoice choice w).world.gameOver = w.gameOver ∧
      (resolveChoice choice w).world.narrativeLog =
        { text := choice.outcome, severity := .normal } ::
          { text := "> " ++ choice.label, severity := .choice } :: w.narrativeLog) := by
  have hc := checkGameOver_inSession role w hs
  have hr := resolveChoice_inSession choice w role hs
  obtain ⟨hl, hg, -⟩ := applyEffects_narrativeLog choice.effects w
  refine ⟨fun _ _ => ⟨rfl, rfl⟩, ?_, ?_, ?_, ?_⟩
  · intro reason h
    rw [hc, h]
  · intro h
    rw [hc, h]
  · intro reason h
    rw [hr, h]
    refine ⟨rfl, ?_⟩
    simp only [Result.world, endGame, log, clearActions, createActionButton, hl]
  · intro h
    rw [hr, h]
    refine ⟨?_, ?_⟩
    · simp only [Result.world, log, createActionButton, hg]
    · simp only [Result.world, log, createActionButton, hl]

/-- Witness of C16: in the session `occupierLastDay` (unrest 95) the choice
"Crackdown" (unrest +10) ends the session and logs its label, its outcome,
"GAME OVER" and the reason, in that order. -/
theorem termination_logging_witness :
    (resolveChoice
        { label := "Crackdown"
          outcome := "You sent in the riot squad. Order restored, but they hate you."
          effects := [("control", 10), ("unrest", 10), ("manpower", -5)] }
        occupierLastDay).world.narrativeLog =
      { text := "A massive uprising has overthrown your command center.",
        severity := .warning } ::
        { text := "GAME OVER", severity := .warning } ::
          { text := "You sent in the riot squad. Order restored, but they hate you.",
            severity := .normal } ::
            { text := "> Crackdown", severity := .choice } :: occupierLastDay.narrativeLog := by
  have hs : InSession "occupier" occupierLastDay :=
    (inSession_occupier _).2 ⟨by decide!, 80, 25, 95, 50, by decide!⟩
  exact ((termination_logging "occupier" occupierLastDay _ hs).2.2.2.1
    "A massive uprising has overthrown your command center." (by decide!)).2

/-- C17.  Every Denizen session is bounded.  In the world after
`startGame('denizen')`, from any world whose `ROLES` catalog is the initial one,
and any sequence of calls of `nextDay` and of `resolveChoice` with choices of
the scripted event or of `DENIZEN_EVENTS`: hunger is at least
`min(100, 20 + 10 * (day - 1))`; no further such call decreases hunger; if
`nextDay` has been called 8 times or more the session is terminated; and `day`
is between 1 and 9. -/
theorem denizen_session_bounded (w0 : World) (rnd0 : Draw) (calls : List Call)
    (hcat : w0.ROLES = ROLES) (hcalls : calls.all (Call.allowed "denizen") = true) :
    ∃ hunger,
      statVal (runCalls calls (startGame "denizen" rnd0 w0).world) "hunger" = some hunger ∧
      min 100 (20 + 10 * ((runCalls calls (startGame "denizen" rnd0 w0).world).day - 1)) ≤
        hunger ∧
      (∀ call : Call, call.allowed "denizen" = true →
        ∃ hunger',
          statVal (call.run (runCalls calls (startGame "denizen" rnd0 w0).world)) "hunger" =
            some hunger' ∧ hunger ≤ hunger') ∧
      (8 ≤ (calls.filter Call.isDay).length →
        (runCalls calls (startGame "denizen" rnd0 w0).world).gameOver = true) ∧
      1 ≤ (runCalls calls (startGame "denizen" rnd0 w0).world).day ∧
      (runCalls calls (startGame "denizen" rnd0 w0).world).day ≤ 9 := by
  have hinv := (DenizenInvariant.start w0 rnd0 hcat).run calls hcalls
  generalize runCalls calls (startGame "denizen" rnd0 w0).world = w at hinv ⊢
  have hinv' := hinv
  obtain ⟨hrole, h, s, l, p, hres, hlo, hhi, hfull, hd1, hd9, hcount⟩ := hinv'
  refine ⟨h, (statVal_denizenStats w h s l p hres).1, hlo, ?_, ?_, hd1, hd9⟩
  · intro call hcall
    obtain ⟨-, a, b, ha, hb, hab⟩ := hinv.step call hcall
    rw [(statVal_denizenStats w h s l p hres).1] at ha
    cases ha
    exact ⟨b, hb, hab⟩
  · intro h8
    rcases hcount with hc | hc
    · exact hc
    · apply hfull
      have h9 : w.day = 9 := by
        have : (8 : Int) ≤ ((calls.filter Call.isDay).length : Int) := by exact_mod_cast h8
        omega
      rw [h9] at hlo
      have : min (100 : Int) (20 + 10 * (9 - 1)) = 100 := by decide
      rw [this] at hlo
      exact hlo

/-- Witness of C17: eight calls of `nextDay` after `startGame('denizen')` on the
fresh page terminate the session. -/
theorem denizen_session_bounded_witness :
    (runCalls (List.replicate 8 (.day drawZero)) (freshSession "denizen")).gameOver = true ∧
      (runCalls (List.replicate 8 (.day drawZero)) (freshSession "denizen")).day ≤ 9 := by
  obtain ⟨hunger, -, -, -, h8, -, h9⟩ :=
    denizen_session_bounded World.init drawZero (List.replicate 8 (.day drawZero)) rfl
      (by decide)
  exact ⟨h8 (by decide), h9⟩

end DividedExistence
